import Mathlib

/-!
# Specifier codec of go-sourcegraph

A shallow embedding of the specifier encode/decode functions of
`sourcegraph/people.go` and `sourcegraph/repositories.go`
(`PersonSpec`, `GitHubUserSpec`, `RepositorySpec`, `RepositorySpec2`,
`RepoRevSpec`), of the methods of the two services that return a decoded value
and of the mocks of the services, and
of the error and URI predicates, `Repo` and `MapByURI` of
`sourcegraph/repo.go`, together with the parts of the Go standard library they
call (`strings.HasPrefix`, `strings.Contains`, `strings.ToLower`,
`strconv.Itoa`, `strconv.Atoi`).

Conventions of the embedding:

* a Go `string` is a `List Char`; every sigil and digit the code inspects is
  ASCII, so the code's byte-wise tests are tests on characters;
* a Go `int` is an `Int` together with the range predicate `IsGoInt`
  (64-bit platform, `strconv.IntSize = 64`);
* a Go function returning `(T, error)` returns the pair `T × Option GoError`
  (both components are kept, as in Go, also when the error is non-nil);
* a Go function that may `panic` returns `Except String T`, the error case
  carrying the panic message;
* a Go `map[string]string` is an association list, and a pointer that may be
  nil is an `Option`;
* the client of a service (`url`, `NewRequest`, `Do`) and the types it only
  passes through are parameters, and a service method returns its result
  together with the calls it made to the client.
-/

namespace Sourcegraph

/-! ## Go values -/

/-- Go `string`, as the list of its characters. -/
abbrev GoString := List Char

/-- Go `error` values that the embedded functions can return: the two
sentinel causes of `strconv.NumError` and an `errors.New` message. -/
inductive GoError where
  | ErrSyntax : GoError
  | ErrRange : GoError
  | New (msg : String) : GoError
  deriving DecidableEq, Repr

/-- Result of a Go function that either returns a value or panics with a
message. -/
abbrev Panics (α : Type) := Except String α

deriving instance DecidableEq for Except

/-- Go `map[string]string` holding route variables, as an association list
with distinct keys. -/
abbrev RouteMap := List (GoString × GoString)

/-- Size in bits of a Go `int` (`strconv.IntSize` on a 64-bit platform). -/
def intSize : Nat := 64

/-- Largest `uint64`. -/
def maxUint64 : Nat := 2 ^ 64 - 1

/-- Smallest Go `int`. -/
def minInt : Int := -(2 ^ (intSize - 1))

/-- Largest Go `int`. -/
def maxInt : Int := 2 ^ (intSize - 1) - 1

/-- The integer is representable as a Go `int`. -/
def IsGoInt (n : Int) : Prop := minInt ≤ n ∧ n ≤ maxInt

instance (n : Int) : Decidable (IsGoInt n) := by
  unfold IsGoInt; infer_instance

/-! ## `strings` -/

/-- Go `strings.HasPrefix(s, prefix)`:
`len(s) >= len(prefix) && s[:len(prefix)] == prefix`. -/
def HasPrefix (s pre : GoString) : Bool :=
  decide (pre.length ≤ s.length) && (s.take pre.length == pre)

/-- Go `strings.Contains(s, substr)`: `substr` occurs at some offset of `s`. -/
def Contains : GoString → GoString → Bool
  | [], substr => substr.isEmpty
  | c :: cs, substr => HasPrefix (c :: cs) substr || Contains cs substr

/-! ## `strconv` -/

/-- The byte `u + '0'` of a decimal digit `u`. -/
def digitByte (u : Nat) : Char := Char.ofNat (u + 48)

/-- Decimal digits of `u`, most significant first (the loop of Go's
`strconv.formatBits` for base 10); `fuel` bounds the number of digits. -/
def formatBits : Nat → Nat → GoString
  | 0, _ => []
  | fuel + 1, u =>
    if u < 10 then [digitByte u]
    else formatBits fuel (u / 10) ++ [digitByte (u % 10)]

/-- Go `strconv.FormatUint(u, 10)`. -/
def FormatUint (u : Nat) : GoString := formatBits (u + 1) u

/-- Go `strconv.Itoa(i)`, that is `FormatInt(int64(i), 10)`: a minus sign for a
negative number, then the decimal digits of its magnitude. -/
def Itoa (i : Int) : GoString :=
  if i < 0 then '-' :: FormatUint i.natAbs else FormatUint i.natAbs

/-- The digit loop of Go `strconv.ParseUint(s, 10, bitSize)`: a byte outside
`'0'..'9'` is a syntax error; a step that would exceed `maxVal` is a range
error returning `maxVal`. -/
def parseUintLoop (cutoff maxVal : Nat) : GoString → Nat → Nat × Option GoError
  | [], n => (n, none)
  | c :: cs, n =>
    if c.isDigit then
      if n ≥ cutoff then (maxVal, some GoError.ErrRange)
      else
        let n1 := n * 10 + (c.toNat - 48)
        if n1 > maxVal then (maxVal, some GoError.ErrRange)
        else parseUintLoop cutoff maxVal cs n1
    else (0, some GoError.ErrSyntax)

/-- Go `strconv.ParseUint(s, 10, 0)`. -/
def ParseUint (s : GoString) : Nat × Option GoError :=
  if s = [] then (0, some GoError.ErrSyntax)
  else parseUintLoop (maxUint64 / 10 + 1) (2 ^ intSize - 1) s 0

/-- Go `strconv.ParseInt(s, 10, 0)`: an optional sign, then `ParseUint`, then
the range check against `1 << (bitSize-1)`. -/
def ParseInt (s : GoString) : Int × Option GoError :=
  match s with
  | [] => (0, some GoError.ErrSyntax)
  | c :: cs =>
    let neg : Bool := c == '-'
    let s1 : GoString := if c == '+' || c == '-' then cs else c :: cs
    let r := ParseUint s1
    if r.2 = some GoError.ErrSyntax then (0, r.2)
    else
      let cutoff : Nat := 2 ^ (intSize - 1)
      if !neg && decide (r.1 ≥ cutoff) then ((cutoff : Int) - 1, some GoError.ErrRange)
      else if neg && decide (r.1 > cutoff) then (-(cutoff : Int), some GoError.ErrRange)
      else (if neg then -(r.1 : Int) else (r.1 : Int), none)

/-- Go `strconv.Atoi(s)`, that is `ParseInt(s, 10, 0)` converted to `int`. -/
def Atoi (s : GoString) : Int × Option GoError := ParseInt s

/-! ## `people.go` -/

/-- `PersonSpec` specifies a person. At least one of Email, Login, and UID
must be nonempty. -/
structure PersonSpec where
  Email : GoString := []
  Login : GoString := []
  UID : Int := 0
  deriving DecidableEq, Repr

/-- `(*PersonSpec).PathComponent`: the URL path component that specifies the
person. -/
def PersonSpec.PathComponent (s : PersonSpec) : Panics GoString :=
  if s.Email ≠ [] then .ok s.Email
  else if s.Login ≠ [] then .ok s.Login
  else if s.UID > 0 then .ok ("$".toList ++ Itoa s.UID)
  else .error "empty PersonSpec"

/-- `ParsePersonSpec`: parses a string generated by `PathComponent`. -/
def ParsePersonSpec (pathComponent : GoString) : PersonSpec × Option GoError :=
  if HasPrefix pathComponent "$".toList then
    let r := Atoi (pathComponent.drop 1)
    ({ UID := r.1 }, r.2)
  else if Contains pathComponent "@".toList then
    ({ Email := pathComponent }, none)
  else ({ Login := pathComponent }, none)

/-- `GitHubUserSpec` specifies a GitHub user, either by GitHub login or GitHub
user ID. -/
structure GitHubUserSpec where
  Login : GoString := []
  ID : Int := 0
  deriving DecidableEq, Repr

/-- `GitHubUserSpec.RouteVars`. -/
def GitHubUserSpec.RouteVars (s : GitHubUserSpec) : Panics RouteMap :=
  if s.ID ≠ 0 then .error "GitHubUserSpec ID not supported via HTTP API"
  else if s.Login ≠ [] then .ok [("GitHubUserSpec".toList, s.Login)]
  else .error "empty GitHubUserSpec"

/-! ## `repositories.go` -/

/-- `RepositorySpec2` specifies a repository. -/
structure RepositorySpec2 where
  URI : GoString := []
  RID : Int := 0
  deriving DecidableEq, Repr

/-- `(*RepositorySpec2).PathComponent`. -/
def RepositorySpec2.PathComponent (s : RepositorySpec2) : Panics GoString :=
  if s.URI ≠ [] then .ok s.URI
  else if s.RID > 0 then .ok ("R$".toList ++ Itoa s.RID)
  else .error "empty RepositorySpec2"

/-- `ParseRepositorySpec2`: parses a string generated by
`(*RepositorySpec2).PathComponent`. -/
def ParseRepositorySpec2 (pathComponent : GoString) : RepositorySpec2 × Option GoError :=
  if pathComponent = [] then
    ({}, some (GoError.New "empty repository spec"))
  else if HasPrefix pathComponent "R$".toList then
    let r := Atoi (pathComponent.drop 2)
    ({ RID := r.1 }, r.2)
  else ({ URI := pathComponent }, none)

/-- Go `m[k]` on a `map[string]string`: the value stored at `k`, the empty
string when the key is absent. -/
def RouteMap.index (m : RouteMap) (k : GoString) : GoString :=
  (m.lookup k).getD []

/-- Go `m[k] = v` on a `map[string]string`: replaces the value of an existing
key, adds the pair otherwise. -/
def RouteMap.assign (m : RouteMap) (k v : GoString) : RouteMap :=
  if m.any (fun p => p.1 == k) then m.map (fun p => if p.1 == k then (k, v) else p)
  else m ++ [(k, v)]

/-- `RepositorySpec2.RouteVars`. -/
def RepositorySpec2.RouteVars (s : RepositorySpec2) : Panics RouteMap :=
  if s.RID ≠ 0 then .error "RID not supported yet"
  else .ok [("RepoURI".toList, s.URI)]

/-- `UnmarshalRepositorySpec2`: reads the route variables generated by
`RepositorySpec2.RouteVars`. -/
def UnmarshalRepositorySpec2 (routeVars : RouteMap) : RepositorySpec2 × Option GoError :=
  ParseRepositorySpec2 (RouteMap.index routeVars "RepoURI".toList)

/-- `RepoRevSpec` specifies a repository at a specific commit (or revision
specifier); it embeds a `RepositorySpec2`. -/
structure RepoRevSpec extends RepositorySpec2 where
  Rev : GoString := []
  deriving DecidableEq, Repr

/-- `RepoRevSpec.RouteVars`. -/
def RepoRevSpec.RouteVars (s : RepoRevSpec) : Panics RouteMap :=
  match s.toRepositorySpec2.RouteVars with
  | .error e => .error e
  | .ok m => if s.Rev ≠ [] then .ok (RouteMap.assign m "Rev".toList s.Rev) else .ok m

/-- `UnmarshalRepoRevSpec`: reads the route variables generated by
`RepoRevSpec.RouteVars`. -/
def UnmarshalRepoRevSpec (routeVars : RouteMap) : RepoRevSpec × Option GoError :=
  let r := UnmarshalRepositorySpec2 routeVars
  if r.2 ≠ none then ({}, r.2)
  else ({ toRepositorySpec2 := r.1, Rev := RouteMap.index routeVars "Rev".toList }, none)

/-! ## `people.go`: settings and the mock -/

/-- Go `db_common.NullTime`: a time that may be null. -/
structure NullTime where
  Time : Int := 0
  Valid : Bool := false
  deriving DecidableEq, Repr

/-- `PlanSettings` describes the pricing plan that the person or org has
selected. -/
structure PlanSettings where
  PlanID : Option GoString := none
  deriving DecidableEq, Repr

/-- `PersonSettings` describes a user's configuration settings; it embeds
`PlanSettings`. -/
structure PersonSettings extends PlanSettings where
  RequestedUpgradeAt : NullTime := {}
  BuildEmails : Option Bool := none
  PullRequestSrcbotNotification : Option Bool := none
  deriving DecidableEq, Repr

/-- The types that the services and their mocks only pass through, and that are
declared outside the embedded functions: the values of the `Response`
interface with the value `&HTTPResponse{}`, `url.URL` with its `String`
method, `http.Request`, and the option and result types of the methods. -/
structure ApiTypes where
  Response : Type
  HTTPResponse : Response
  URL : Type
  URLString : URL → GoString
  Request : Type
  PersonGetOptions : Type
  Person : Type
  EmailAddr : Type
  PersonListOptions : Type
  person_User : Type
  PersonListAuthorsOptions : Type
  AugmentedPersonUsageByClient : Type
  PersonListClientsOptions : Type
  AugmentedPersonUsageOfAuthor : Type
  PersonListOrgsOptions : Type
  Org : Type
  RepositoryGetOptions : Type
  Repository : Type
  RepositorySettings : Type
  NewRepositorySpec : Type
  repo_Repository : Type
  vcsclient_TreeEntry : Type
  RepositoryListOptions : Type
  RepositoryListCommitsOptions : Type
  Commit : Type
  RepositoryGetCommitOptions : Type
  RepositoryCompareCommitsOptions : Type
  CommitsComparison : Type
  RepositoryListBranchesOptions : Type
  vcs_Branch : Type
  RepositoryListTagsOptions : Type
  vcs_Tag : Type
  Badge : Type
  Counter : Type
  RepositoryListAuthorsOptions : Type
  AugmentedRepoAuthor : Type
  RepositoryListClientsOptions : Type
  AugmentedRepoClient : Type
  RepositoryListDependenciesOptions : Type
  AugmentedRepoDependency : Type
  RepositoryListDependentsOptions : Type
  AugmentedRepoDependent : Type
  RepositoryListByContributorOptions : Type
  AugmentedRepoContribution : Type
  RepositoryListByClientOptions : Type
  AugmentedRepoUsageByClient : Type
  RepositoryListByRefdAuthorOptions : Type
  AugmentedRepoUsageOfAuthor : Type

/-- Go `[]*T`: a nil slice is `none`, an element is a pointer that may be nil. -/
abbrev PtrSlice (α : Type) := Option (List (Option α))

/-- `MockPeopleService`: one hook per method of the service; a nil hook is `none`. -/
structure MockPeopleService (T : ApiTypes) where
  Get_ :
    Option (PersonSpec → Option T.PersonGetOptions →
      Option T.Person × Option T.Response × Option GoError) := none
  ListEmails_ :
    Option (PersonSpec → PtrSlice T.EmailAddr × Option T.Response × Option GoError) := none
  GetSettings_ :
    Option (PersonSpec → Option PersonSettings × Option T.Response × Option GoError) := none
  UpdateSettings_ :
    Option (PersonSpec → PersonSettings → Option T.Response × Option GoError) := none
  GetOrCreateFromGitHub_ :
    Option (GitHubUserSpec → Option T.PersonGetOptions →
      Option T.Person × Option T.Response × Option GoError) := none
  RefreshProfile_ :
    Option (PersonSpec → Option T.Response × Option GoError) := none
  ComputeStats_ :
    Option (PersonSpec → Option T.Response × Option GoError) := none
  List_ :
    Option (Option T.PersonListOptions →
      PtrSlice T.person_User × Option T.Response × Option GoError) := none
  ListAuthors_ :
    Option (PersonSpec → Option T.PersonListAuthorsOptions →
      PtrSlice T.AugmentedPersonUsageByClient × Option T.Response × Option GoError) := none
  ListClients_ :
    Option (PersonSpec → Option T.PersonListClientsOptions →
      PtrSlice T.AugmentedPersonUsageOfAuthor × Option T.Response × Option GoError) := none
  ListOrgs_ :
    Option (PersonSpec → Option T.PersonListOrgsOptions →
      PtrSlice T.Org × Option T.Response × Option GoError) := none

/-- `MockPeopleService.Get`:
`(nil, &HTTPResponse{}, nil)` when the hook is nil, the hook's result otherwise. -/
def MockPeopleService.Get {T : ApiTypes} (s : MockPeopleService T)
    (person : PersonSpec) (opt : Option T.PersonGetOptions) :
    Option T.Person × Option T.Response × Option GoError :=
  match s.Get_ with
  | none => (none, some T.HTTPResponse, none)
  | some f => f person opt

/-- `MockPeopleService.ListEmails`:
`(nil, nil, nil)` when the hook is nil, the hook's result otherwise. -/
def MockPeopleService.ListEmails {T : ApiTypes} (s : MockPeopleService T)
    (person : PersonSpec) :
    PtrSlice T.EmailAddr × Option T.Response × Option GoError :=
  match s.ListEmails_ with
  | none => (none, none, none)
  | some f => f person

/-- `MockPeopleService.GetSettings`:
`(nil, nil, nil)` when the hook is nil, the hook's result otherwise. -/
def MockPeopleService.GetSettings {T : ApiTypes} (s : MockPeopleService T)
    (person : PersonSpec) :
    Option PersonSettings × Option T.Response × Option GoError :=
  match s.GetSettings_ with
  | none => (none, none, none)
  | some f => f person

/-- `MockPeopleService.UpdateSettings`:
`(nil, nil)` when the hook is nil, the hook's result otherwise. -/
def MockPeopleService.UpdateSettings {T : ApiTypes} (s : MockPeopleService T)
    (person : PersonSpec) (settings : PersonSettings) :
    Option T.Response × Option GoError :=
  match s.UpdateSettings_ with
  | none => (none, none)
  | some f => f person settings

/-- `MockPeopleService.GetOrCreateFromGitHub`:
`(nil, nil, nil)` when the hook is nil, the hook's result otherwise. -/
def MockPeopleService.GetOrCreateFromGitHub {T : ApiTypes} (s : MockPeopleService T)
    (user : GitHubUserSpec) (opt : Option T.PersonGetOptions) :
    Option T.Person × Option T.Response × Option GoError :=
  match s.GetOrCreateFromGitHub_ with
  | none => (none, none, none)
  | some f => f user opt

/-- `MockPeopleService.RefreshProfile`:
`(nil, nil)` when the hook is nil, the hook's result otherwise. -/
def MockPeopleService.RefreshProfile {T : ApiTypes} (s : MockPeopleService T)
    (personSpec : PersonSpec) :
    Option T.Response × Option GoError :=
  match s.RefreshProfile_ with
  | none => (none, none)
  | some f => f personSpec

/-- `MockPeopleService.ComputeStats`:
`(nil, nil)` when the hook is nil, the hook's result otherwise. -/
def MockPeopleService.ComputeStats {T : ApiTypes} (s : MockPeopleService T)
    (personSpec : PersonSpec) :
    Option T.Response × Option GoError :=
  match s.ComputeStats_ with
  | none => (none, none)
  | some f => f personSpec

/-- `MockPeopleService.List`:
`(nil, &HTTPResponse{}, nil)` when the hook is nil, the hook's result otherwise. -/
def MockPeopleService.List {T : ApiTypes} (s : MockPeopleService T)
    (opt : Option T.PersonListOptions) :
    PtrSlice T.person_User × Option T.Response × Option GoError :=
  match s.List_ with
  | none => (none, some T.HTTPResponse, none)
  | some f => f opt

/-- `MockPeopleService.ListAuthors`:
`(nil, &HTTPResponse{}, nil)` when the hook is nil, the hook's result otherwise. -/
def MockPeopleService.ListAuthors {T : ApiTypes} (s : MockPeopleService T)
    (person : PersonSpec) (opt : Option T.PersonListAuthorsOptions) :
    PtrSlice T.AugmentedPersonUsageByClient × Option T.Response × Option GoError :=
  match s.ListAuthors_ with
  | none => (none, some T.HTTPResponse, none)
  | some f => f person opt

/-- `MockPeopleService.ListClients`:
`(nil, &HTTPResponse{}, nil)` when the hook is nil, the hook's result otherwise. -/
def MockPeopleService.ListClients {T : ApiTypes} (s : MockPeopleService T)
    (person : PersonSpec) (opt : Option T.PersonListClientsOptions) :
    PtrSlice T.AugmentedPersonUsageOfAuthor × Option T.Response × Option GoError :=
  match s.ListClients_ with
  | none => (none, some T.HTTPResponse, none)
  | some f => f person opt

/-- `MockPeopleService.ListOrgs`:
`(nil, nil, nil)` when the hook is nil, the hook's result otherwise. -/
def MockPeopleService.ListOrgs {T : ApiTypes} (s : MockPeopleService T)
    (member : PersonSpec) (opt : Option T.PersonListOrgsOptions) :
    PtrSlice T.Org × Option T.Response × Option GoError :=
  match s.ListOrgs_ with
  | none => (none, none, none)
  | some f => f member opt

/-! ## `repo.go` -/

/-- Go `error` values that `repo.go` declares and tells apart: its sentinel
errors (each `errors.New` value is equal only to itself), the struct errors
`ErrRenamed` and `ErrRedirect`, and any other error. -/
inductive RepoError where
  | ErrNotExist : RepoError
  | ErrForbidden : RepoError
  | ErrNotPersisted : RepoError
  | ErrNonStandardURI : RepoError
  | ErrNoScheme : RepoError
  | ErrRenamed (OldURI NewURI : GoString) : RepoError
  | ErrRedirect (RedirectURI : GoString) : RepoError
  | other (msg : GoString) : RepoError
  deriving DecidableEq, Repr

/-- `IsNotPresent`: `err == ErrNotExist || err == ErrNotPersisted`; a nil
error is `none`. -/
def IsNotPresent (err : Option RepoError) : Bool :=
  err == some RepoError.ErrNotExist || err == some RepoError.ErrNotPersisted

/-- Go `strings.ToLower(s)`: every character mapped to its lower case. The
table `unicode.ToLower` is the parameter `lower`. -/
def ToLower (lower : Char → Char) (s : GoString) : GoString :=
  s.map lower

/-- `URI.IsGitHubRepository`: true iff this repository is hosted on GitHub. -/
def URI.IsGitHubRepository (lower : Char → Char) (u : GoString) : Bool :=
  HasPrefix (ToLower lower u) "github.com/".toList

/-- `URI.IsGoogleCodeRepository`: true iff this repository is hosted on Google
Code (code.google.com). -/
def URI.IsGoogleCodeRepository (lower : Char → Char) (u : GoString) : Bool :=
  HasPrefix (ToLower lower u) "code.google.com/p/".toList

/-! ## `people.go` and `repositories.go`: the remaining route variables -/

/-- `(*PersonSpec).RouteVars`. -/
def PersonSpec.RouteVars (s : PersonSpec) : Panics RouteMap :=
  match s.PathComponent with
  | .error e => .error e
  | .ok p => .ok [("PersonSpec".toList, p)]

/-- `RepositorySpec` specifies a repository, at the revision `CommitID` when
that is non-empty. -/
structure RepositorySpec where
  URI : GoString := []
  CommitID : GoString := []
  deriving DecidableEq, Repr

/-- `RepositorySpec.RouteVars`. -/
def RepositorySpec.RouteVars (s : RepositorySpec) : RouteMap :=
  let m : RouteMap := [("RepoURI".toList, s.URI)]
  if s.CommitID ≠ [] then RouteMap.assign m "Rev".toList s.CommitID else m

/-! ## `repo.go`: repositories -/

/-- `Repo` is a code repository returned by the Sourcegraph API. `URI`,
`nnz.String` and `nnz.Int` are their underlying `string` and `int`;
`RepoStats` is the map of its statistics. -/
structure Repo where
  RID : Int := 0
  URI : GoString := []
  Name : GoString := []
  OwnerUserID : Int := 0
  OwnerGitHubUserID : Int := 0
  Description : GoString := []
  VCS : GoString := []
  CloneURL : GoString := []
  ActualCloneURL : GoString := []
  HomepageURL : GoString := []
  DefaultBranch : GoString := []
  Language : GoString := []
  GitHubStars : Int := 0
  GitHubID : Int := 0
  Disabled : Bool := false
  Deprecated : Bool := false
  Fork : Bool := false
  Mirror : Bool := false
  Private : Bool := false
  Stat : List (GoString × Int) := []
  deriving DecidableEq, Repr

/-- `(*Repo).GetActualCloneURL`: the most direct URL used to clone the
repository, following any redirects. -/
def Repo.GetActualCloneURL (r : Repo) : GoString :=
  if r.ActualCloneURL = [] then r.CloneURL else r.ActualCloneURL

/-- `(*Repo).IsGitHubRepository`. The parameter `parseHost` is Go
`url.Parse` followed by the field `Host` of the URL it returns: the host, or
the error of `url.Parse`. -/
def Repo.IsGitHubRepository (lower : Char → Char) (parseHost : GoString → Except GoError GoString)
    (r : Repo) : Bool :=
  let cloneURLStr := r.GetActualCloneURL
  if cloneURLStr = [] then HasPrefix (ToLower lower r.URI) "github.com/".toList
  else
    match parseHost cloneURLStr with
    | .error _ => false
    | .ok host => ToLower lower host == "github.com".toList

/-- Go `map[URI]*Repo`, as an association list with distinct keys; the pointer
to a repository is the repository. -/
abbrev RepoMap := List (GoString × Repo)

/-- Go `m[k] = v` on a `map[URI]*Repo`: replaces the value of an existing key,
adds the pair otherwise. -/
def RepoMap.assign (m : RepoMap) (k : GoString) (v : Repo) : RepoMap :=
  if m.any (fun p => p.1 == k) then m.map (fun p => if p.1 == k then (k, v) else p)
  else m ++ [(k, v)]

/-- The loop of `MapByURI`: `repoMap[URI(repo.URI)] = repo` for each element
of the slice in turn; reading `repo.URI` through a nil pointer panics. -/
def MapByURI.loop : List (Option Repo) → RepoMap → Panics RepoMap
  | [], repoMap => .ok repoMap
  | none :: _, _ => .error "runtime error: invalid memory address or nil pointer dereference"
  | some repo :: repos, repoMap => MapByURI.loop repos (RepoMap.assign repoMap repo.URI repo)

/-- `MapByURI`: the map from URI to repository of a slice of repositories. -/
def MapByURI (repos : List (Option Repo)) : Panics RepoMap :=
  MapByURI.loop repos []

/-! ## Services -/

/-- The routes of package `router` that the embedded methods name. -/
inductive Route where
  | Person : Route
  | PersonEmails : Route
  | PersonSettings : Route
  | PersonFromGitHub : Route
  | People : Route
  | PersonAuthors : Route
  | PersonClients : Route
  | PersonOrgs : Route
  | Repository : Route
  | RepositoriesGetOrCreate : Route
  | RepositorySettings : Route
  | RepositoriesCreate : Route
  | RepositoryReadme : Route
  | Repositories : Route
  | RepoCommits : Route
  | RepoCommit : Route
  | RepoCompareCommits : Route
  | RepoBranches : Route
  | RepoTags : Route
  | RepositoryBadges : Route
  | RepositoryCounters : Route
  | RepositoryAuthors : Route
  | RepositoryClients : Route
  | RepositoryDependencies : Route
  | RepositoryDependents : Route
  | PersonRepositoryContributions : Route
  | PersonRepositoryDependencies : Route
  | PersonRepositoryDependents : Route
  deriving DecidableEq, Repr

/-- A call of a method of the client. -/
inductive ClientCall where
  | url : ClientCall
  | NewRequest : ClientCall
  | Do : ClientCall
  deriving DecidableEq, Repr

/-- The log of the calls made to the client, oldest first. -/
abbrev CallLog := List ClientCall

/-- The non-nil values of Go `[]*T`, so that `PtrSlice T` is `Option (Ptrs T)`. -/
abbrev Ptrs (α : Type) := List (Option α)

/-- The methods of `*Client` that a service method calls. They are the
collaborators of the services and are parameters. Their `interface{}`
arguments are typed for the calling method: `Opt` is the type of its options,
`Body` of its request body, `V` of the value it decodes. `url` resolves a
route, with the route variables (a nil map is `none`), to a URL or fails with
an error; `NewRequest` returns a request and an error; `Do` sends the request
and returns the value it decoded into its second argument, the response and an
error. -/
structure Client (T : ApiTypes) (Opt Body V : Type) where
  url : Route → Option RouteMap → Option Opt → Except GoError T.URL
  NewRequest : GoString → GoString → Option Body → Option T.Request × Option GoError
  Do : Option T.Request → Option V × Option T.Response × Option GoError

/-- A call of `(*Client).url`: its result, and the log with the call added. -/
def Client.callUrl {T : ApiTypes} {Opt Body V : Type} (c : Client T Opt Body V) (log : CallLog)
    (route : Route) (vars : Option RouteMap) (opt : Option Opt) :
    Except GoError T.URL × CallLog :=
  (c.url route vars opt, log ++ [ClientCall.url])

/-- A call of `(*Client).NewRequest`: its result, and the log with the call
added. -/
def Client.callNewRequest {T : ApiTypes} {Opt Body V : Type} (c : Client T Opt Body V)
    (log : CallLog) (method urlStr : GoString) (body : Option Body) :
    (Option T.Request × Option GoError) × CallLog :=
  (c.NewRequest method urlStr body, log ++ [ClientCall.NewRequest])

/-- A call of `(*Client).Do`: its result, and the log with the call added. -/
def Client.callDo {T : ApiTypes} {Opt Body V : Type} (c : Client T Opt Body V) (log : CallLog)
    (req : Option T.Request) :
    (Option V × Option T.Response × Option GoError) × CallLog :=
  (c.Do req, log ++ [ClientCall.Do])

/-- `peopleService` implements `PeopleService`; its client is typed for the
method that is called. -/
structure peopleService (T : ApiTypes) (Opt Body V : Type) where
  client : Client T Opt Body V

/-- `(*peopleService).Get`, on the log of the calls made to the client so far. -/
def peopleService.Get {T : ApiTypes} {Body : Type}
    (s : peopleService T T.PersonGetOptions Body T.Person)
    (person_ : PersonSpec) (opt : Option T.PersonGetOptions) (log : CallLog) :
    Panics ((Option T.Person × Option T.Response × Option GoError) × CallLog) :=
  match person_.RouteVars with
  | .error e => .error e
  | .ok vars =>
    match s.client.callUrl log Route.Person (some vars) opt with
    | (.error err, log) => .ok ((none, none, some err), log)
    | (.ok url, log) =>
      match s.client.callNewRequest log "GET".toList (T.URLString url) none with
      | ((_, some err), log) => .ok ((none, none, some err), log)
      | ((req, none), log) =>
        match s.client.callDo log req with
        | ((_, resp, some err), log) => .ok ((none, resp, some err), log)
        | ((person__, resp, none), log) => .ok ((person__, resp, none), log)

/-- `(*peopleService).ListEmails`, on the log of the calls made to the client so far. -/
def peopleService.ListEmails {T : ApiTypes} {Opt Body : Type}
    (s : peopleService T Opt Body (Ptrs T.EmailAddr))
    (person : PersonSpec) (log : CallLog) :
    Panics ((PtrSlice T.EmailAddr × Option T.Response × Option GoError) × CallLog) :=
  match person.RouteVars with
  | .error e => .error e
  | .ok vars =>
    match s.client.callUrl log Route.PersonEmails (some vars) none with
    | (.error err, log) => .ok ((none, none, some err), log)
    | (.ok url, log) =>
      match s.client.callNewRequest log "GET".toList (T.URLString url) none with
      | ((_, some err), log) => .ok ((none, none, some err), log)
      | ((req, none), log) =>
        match s.client.callDo log req with
        | ((_, resp, some err), log) => .ok ((none, resp, some err), log)
        | ((emails, resp, none), log) => .ok ((emails, resp, none), log)

/-- `(*peopleService).GetSettings`, on the log of the calls made to the client so far. -/
def peopleService.GetSettings {T : ApiTypes} {Opt Body : Type}
    (s : peopleService T Opt Body PersonSettings)
    (person : PersonSpec) (log : CallLog) :
    Panics ((Option PersonSettings × Option T.Response × Option GoError) × CallLog) :=
  match person.RouteVars with
  | .error e => .error e
  | .ok vars =>
    match s.client.callUrl log Route.PersonSettings (some vars) none with
    | (.error err, log) => .ok ((none, none, some err), log)
    | (.ok url, log) =>
      match s.client.callNewRequest log "GET".toList (T.URLString url) none with
      | ((_, some err), log) => .ok ((none, none, some err), log)
      | ((req, none), log) =>
        match s.client.callDo log req with
        | ((_, resp, some err), log) => .ok ((none, resp, some err), log)
        | ((settings, resp, none), log) => .ok ((settings, resp, none), log)

/-- `(*peopleService).GetOrCreateFromGitHub`, on the log of the calls made to the client so far. -/
def peopleService.GetOrCreateFromGitHub {T : ApiTypes} {Body : Type}
    (s : peopleService T T.PersonGetOptions Body T.Person)
    (user : GitHubUserSpec) (opt : Option T.PersonGetOptions) (log : CallLog) :
    Panics ((Option T.Person × Option T.Response × Option GoError) × CallLog) :=
  match user.RouteVars with
  | .error e => .error e
  | .ok vars =>
    match s.client.callUrl log Route.PersonFromGitHub (some vars) opt with
    | (.error err, log) => .ok ((none, none, some err), log)
    | (.ok url, log) =>
      match s.client.callNewRequest log "GET".toList (T.URLString url) none with
      | ((_, some err), log) => .ok ((none, none, some err), log)
      | ((req, none), log) =>
        match s.client.callDo log req with
        | ((_, resp, some err), log) => .ok ((none, resp, some err), log)
        | ((person__, resp, none), log) => .ok ((person__, resp, none), log)

/-- `(*peopleService).List`, on the log of the calls made to the client so far. -/
def peopleService.List {T : ApiTypes} {Body : Type}
    (s : peopleService T T.PersonListOptions Body (Ptrs T.person_User))
    (opt : Option T.PersonListOptions) (log : CallLog) :
    (PtrSlice T.person_User × Option T.Response × Option GoError) × CallLog :=
  match s.client.callUrl log Route.People none opt with
  | (.error err, log) => ((none, none, some err), log)
  | (.ok url, log) =>
    match s.client.callNewRequest log "GET".toList (T.URLString url) none with
    | ((_, some err), log) => ((none, none, some err), log)
    | ((req, none), log) =>
      match s.client.callDo log req with
      | ((_, resp, some err), log) => ((none, resp, some err), log)
      | ((people, resp, none), log) => ((people, resp, none), log)

/-- `(*peopleService).ListAuthors`, on the log of the calls made to the client so far. -/
def peopleService.ListAuthors {T : ApiTypes} {Body : Type}
    (s : peopleService T T.PersonListAuthorsOptions Body (Ptrs T.AugmentedPersonUsageByClient))
    (person : PersonSpec) (opt : Option T.PersonListAuthorsOptions) (log : CallLog) :
    Panics ((PtrSlice T.AugmentedPersonUsageByClient × Option T.Response × Option GoError) × CallLog) :=
  match person.RouteVars with
  | .error e => .error e
  | .ok vars =>
    match s.client.callUrl log Route.PersonAuthors (some vars) opt with
    | (.error err, log) => .ok ((none, none, some err), log)
    | (.ok url, log) =>
      match s.client.callNewRequest log "GET".toList (T.URLString url) none with
      | ((_, some err), log) => .ok ((none, none, some err), log)
      | ((req, none), log) =>
        match s.client.callDo log req with
        | ((_, resp, some err), log) => .ok ((none, resp, some err), log)
        | ((people, resp, none), log) => .ok ((people, resp, none), log)

/-- `(*peopleService).ListClients`, on the log of the calls made to the client so far. -/
def peopleService.ListClients {T : ApiTypes} {Body : Type}
    (s : peopleService T T.PersonListClientsOptions Body (Ptrs T.AugmentedPersonUsageOfAuthor))
    (person : PersonSpec) (opt : Option T.PersonListClientsOptions) (log : CallLog) :
    Panics ((PtrSlice T.AugmentedPersonUsageOfAuthor × Option T.Response × Option GoError) × CallLog) :=
  match person.RouteVars with
  | .error e => .error e
  | .ok vars =>
    match s.client.callUrl log Route.PersonClients (some vars) opt with
    | (.error err, log) => .ok ((none, none, some err), log)
    | (.ok url, log) =>
      match s.client.callNewRequest log "GET".toList (T.URLString url) none with
      | ((_, some err), log) => .ok ((none, none, some err), log)
      | ((req, none), log) =>
        match s.client.callDo log req with
        | ((_, resp, some err), log) => .ok ((none, resp, some err), log)
        | ((people, resp, none), log) => .ok ((people, resp, none), log)

/-- `(*peopleService).ListOrgs`, on the log of the calls made to the client so far. -/
def peopleService.ListOrgs {T : ApiTypes} {Body : Type}
    (s : peopleService T T.PersonListOrgsOptions Body (Ptrs T.Org))
    (member : PersonSpec) (opt : Option T.PersonListOrgsOptions) (log : CallLog) :
    Panics ((PtrSlice T.Org × Option T.Response × Option GoError) × CallLog) :=
  match member.RouteVars with
  | .error e => .error e
  | .ok vars =>
    match s.client.callUrl log Route.PersonOrgs (some vars) opt with
    | (.error err, log) => .ok ((none, none, some err), log)
    | (.ok url, log) =>
      match s.client.callNewRequest log "GET".toList (T.URLString url) none with
      | ((_, some err), log) => .ok ((none, none, some err), log)
      | ((req, none), log) =>
        match s.client.callDo log req with
        | ((_, resp, some err), log) => .ok ((none, resp, some err), log)
        | ((orgs, resp, none), log) => .ok ((orgs, resp, none), log)

/-- `repositoriesService` implements `RepositoriesService`; its client is
typed for the method that is called. -/
structure repositoriesService (T : ApiTypes) (Opt Body V : Type) where
  client : Client T Opt Body V

/-- `(*repositoriesService).Get`, on the log of the calls made to the client so far. -/
def repositoriesService.Get {T : ApiTypes} {Body : Type}
    (s : repositoriesService T T.RepositoryGetOptions Body T.Repository)
    (repo : RepositorySpec) (opt : Option T.RepositoryGetOptions) (log : CallLog) :
    (Option T.Repository × Option T.Response × Option GoError) × CallLog :=
  match s.client.callUrl log Route.Repository (some repo.RouteVars) opt with
  | (.error err, log) => ((none, none, some err), log)
  | (.ok url, log) =>
    match s.client.callNewRequest log "GET".toList (T.URLString url) none with
    | ((_, some err), log) => ((none, none, some err), log)
    | ((req, none), log) =>
      match s.client.callDo log req with
      | ((_, resp, some err), log) => ((none, resp, some err), log)
      | ((repo_, resp, none), log) => ((repo_, resp, none), log)

/-- `(*repositoriesService).GetOrCreate`, on the log of the calls made to the client so far. -/
def repositoriesService.GetOrCreate {T : ApiTypes} {Body : Type}
    (s : repositoriesService T T.RepositoryGetOptions Body T.Repository)
    (repo_ : RepositorySpec) (opt : Option T.RepositoryGetOptions) (log : CallLog) :
    (Option T.Repository × Option T.Response × Option GoError) × CallLog :=
  match s.client.callUrl log Route.RepositoriesGetOrCreate (some repo_.RouteVars) opt with
  | (.error err, log) => ((none, none, some err), log)
  | (.ok url, log) =>
    match s.client.callNewRequest log "PUT".toList (T.URLString url) none with
    | ((_, some err), log) => ((none, none, some err), log)
    | ((req, none), log) =>
      match s.client.callDo log req with
      | ((_, resp, some err), log) => ((none, resp, some err), log)
      | ((repo__, resp, none), log) => ((repo__, resp, none), log)

/-- `(*repositoriesService).GetSettings`, on the log of the calls made to the client so far. -/
def repositoriesService.GetSettings {T : ApiTypes} {Opt Body : Type}
    (s : repositoriesService T Opt Body T.RepositorySettings)
    (repo : RepositorySpec) (log : CallLog) :
    (Option T.RepositorySettings × Option T.Response × Option GoError) × CallLog :=
  match s.client.callUrl log Route.RepositorySettings (some repo.RouteVars) none with
  | (.error err, log) => ((none, none, some err), log)
  | (.ok url, log) =>
    match s.client.callNewRequest log "GET".toList (T.URLString url) none with
    | ((_, some err), log) => ((none, none, some err), log)
    | ((req, none), log) =>
      match s.client.callDo log req with
      | ((_, resp, some err), log) => ((none, resp, some err), log)
      | ((settings, resp, none), log) => ((settings, resp, none), log)

/-- `(*repositoriesService).Create`, on the log of the calls made to the client so far. -/
def repositoriesService.Create {T : ApiTypes} {Opt : Type}
    (s : repositoriesService T Opt T.NewRepositorySpec T.repo_Repository)
    (newRepoSpec : T.NewRepositorySpec) (log : CallLog) :
    (Option T.repo_Repository × Option T.Response × Option GoError) × CallLog :=
  match s.client.callUrl log Route.RepositoriesCreate none none with
  | (.error err, log) => ((none, none, some err), log)
  | (.ok url, log) =>
    match s.client.callNewRequest log "POST".toList (T.URLString url) (some newRepoSpec) with
    | ((_, some err), log) => ((none, none, some err), log)
    | ((req, none), log) =>
      match s.client.callDo log req with
      | ((_, resp, some err), log) => ((none, resp, some err), log)
      | ((repo_, resp, none), log) => ((repo_, resp, none), log)

/-- `(*repositoriesService).GetReadme`, on the log of the calls made to the client so far. -/
def repositoriesService.GetReadme {T : ApiTypes} {Opt Body : Type}
    (s : repositoriesService T Opt Body T.vcsclient_TreeEntry)
    (repo : RepositorySpec) (log : CallLog) :
    (Option T.vcsclient_TreeEntry × Option T.Response × Option GoError) × CallLog :=
  match s.client.callUrl log Route.RepositoryReadme (some repo.RouteVars) none with
  | (.error err, log) => ((none, none, some err), log)
  | (.ok url, log) =>
    match s.client.callNewRequest log "GET".toList (T.URLString url) none with
    | ((_, some err), log) => ((none, none, some err), log)
    | ((req, none), log) =>
      match s.client.callDo log req with
      | ((_, resp, some err), log) => ((none, resp, some err), log)
      | ((readme, resp, none), log) => ((readme, resp, none), log)

/-- `(*repositoriesService).List`, on the log of the calls made to the client so far. -/
def repositoriesService.List {T : ApiTypes} {Body : Type}
    (s : repositoriesService T T.RepositoryListOptions Body (Ptrs T.Repository))
    (opt : Option T.RepositoryListOptions) (log : CallLog) :
    (PtrSlice T.Repository × Option T.Response × Option GoError) × CallLog :=
  match s.client.callUrl log Route.Repositories none opt with
  | (.error err, log) => ((none, none, some err), log)
  | (.ok url, log) =>
    match s.client.callNewRequest log "GET".toList (T.URLString url) none with
    | ((_, some err), log) => ((none, none, some err), log)
    | ((req, none), log) =>
      match s.client.callDo log req with
      | ((_, resp, some err), log) => ((none, resp, some err), log)
      | ((repos, resp, none), log) => ((repos, resp, none), log)

/-- `(*repositoriesService).ListCommits`, on the log of the calls made to the client so far. -/
def repositoriesService.ListCommits {T : ApiTypes} {Body : Type}
    (s : repositoriesService T T.RepositoryListCommitsOptions Body (Ptrs T.Commit))
    (repo : RepositorySpec2) (opt : Option T.RepositoryListCommitsOptions) (log : CallLog) :
    Panics ((PtrSlice T.Commit × Option T.Response × Option GoError) × CallLog) :=
  match repo.RouteVars with
  | .error e => .error e
  | .ok vars =>
    match s.client.callUrl log Route.RepoCommits (some vars) opt with
    | (.error err, log) => .ok ((none, none, some err), log)
    | (.ok url, log) =>
      match s.client.callNewRequest log "GET".toList (T.URLString url) none with
      | ((_, some err), log) => .ok ((none, none, some err), log)
      | ((req, none), log) =>
        match s.client.callDo log req with
        | ((_, resp, some err), log) => .ok ((none, resp, some err), log)
        | ((commits, resp, none), log) => .ok ((commits, resp, none), log)

/-- `(*repositoriesService).GetCommit`, on the log of the calls made to the client so far. -/
def repositoriesService.GetCommit {T : ApiTypes} {Body : Type}
    (s : repositoriesService T T.RepositoryGetCommitOptions Body T.Commit)
    (rev : RepoRevSpec) (opt : Option T.RepositoryGetCommitOptions) (log : CallLog) :
    Panics ((Option T.Commit × Option T.Response × Option GoError) × CallLog) :=
  match rev.RouteVars with
  | .error e => .error e
  | .ok vars =>
    match s.client.callUrl log Route.RepoCommit (some vars) opt with
    | (.error err, log) => .ok ((none, none, some err), log)
    | (.ok url, log) =>
      match s.client.callNewRequest log "GET".toList (T.URLString url) none with
      | ((_, some err), log) => .ok ((none, none, some err), log)
      | ((req, none), log) =>
        match s.client.callDo log req with
        | ((_, resp, some err), log) => .ok ((none, resp, some err), log)
        | ((commit, resp, none), log) => .ok ((commit, resp, none), log)

/-- `(*repositoriesService).CompareCommits`, on the log of the calls made to the client so far. -/
def repositoriesService.CompareCommits {T : ApiTypes} {Body : Type}
    (s : repositoriesService T T.RepositoryCompareCommitsOptions Body T.CommitsComparison)
    (base : RepoRevSpec) (opt : Option T.RepositoryCompareCommitsOptions) (log : CallLog) :
    Panics ((Option T.CommitsComparison × Option T.Response × Option GoError) × CallLog) :=
  match base.RouteVars with
  | .error e => .error e
  | .ok vars =>
    match s.client.callUrl log Route.RepoCompareCommits (some vars) opt with
    | (.error err, log) => .ok ((none, none, some err), log)
    | (.ok url, log) =>
      match s.client.callNewRequest log "GET".toList (T.URLString url) none with
      | ((_, some err), log) => .ok ((none, none, some err), log)
      | ((req, none), log) =>
        match s.client.callDo log req with
        | ((_, resp, some err), log) => .ok ((none, resp, some err), log)
        | ((cmp, resp, none), log) => .ok ((cmp, resp, none), log)

/-- `(*repositoriesService).ListBranches`, on the log of the calls made to the client so far. -/
def repositoriesService.ListBranches {T : ApiTypes} {Body : Type}
    (s : repositoriesService T T.RepositoryListBranchesOptions Body (Ptrs T.vcs_Branch))
    (repo : RepositorySpec2) (opt : Option T.RepositoryListBranchesOptions) (log : CallLog) :
    Panics ((PtrSlice T.vcs_Branch × Option T.Response × Option GoError) × CallLog) :=
  match repo.RouteVars with
  | .error e => .error e
  | .ok vars =>
    match s.client.callUrl log Route.RepoBranches (some vars) opt with
    | (.error err, log) => .ok ((none, none, some err), log)
    | (.ok url, log) =>
      match s.client.callNewRequest log "GET".toList (T.URLString url) none with
      | ((_, some err), log) => .ok ((none, none, some err), log)
      | ((req, none), log) =>
        match s.client.callDo log req with
        | ((_, resp, some err), log) => .ok ((none, resp, some err), log)
        | ((branches, resp, none), log) => .ok ((branches, resp, none), log)

/-- `(*repositoriesService).ListTags`, on the log of the calls made to the client so far. -/
def repositoriesService.ListTags {T : ApiTypes} {Body : Type}
    (s : repositoriesService T T.RepositoryListTagsOptions Body (Ptrs T.vcs_Tag))
    (repo : RepositorySpec2) (opt : Option T.RepositoryListTagsOptions) (log : CallLog) :
    Panics ((PtrSlice T.vcs_Tag × Option T.Response × Option GoError) × CallLog) :=
  match repo.RouteVars with
  | .error e => .error e
  | .ok vars =>
    match s.client.callUrl log Route.RepoTags (some vars) opt with
    | (.error err, log) => .ok ((none, none, some err), log)
    | (.ok url, log) =>
      match s.client.callNewRequest log "GET".toList (T.URLString url) none with
      | ((_, some err), log) => .ok ((none, none, some err), log)
      | ((req, none), log) =>
        match s.client.callDo log req with
        | ((_, resp, some err), log) => .ok ((none, resp, some err), log)
        | ((tags, resp, none), log) => .ok ((tags, resp, none), log)

/-- `(*repositoriesService).ListBadges`, on the log of the calls made to the client so far. -/
def repositoriesService.ListBadges {T : ApiTypes} {Opt Body : Type}
    (s : repositoriesService T Opt Body (Ptrs T.Badge))
    (repo : RepositorySpec) (log : CallLog) :
    (PtrSlice T.Badge × Option T.Response × Option GoError) × CallLog :=
  match s.client.callUrl log Route.RepositoryBadges (some repo.RouteVars) none with
  | (.error err, log) => ((none, none, some err), log)
  | (.ok url, log) =>
    match s.client.callNewRequest log "GET".toList (T.URLString url) none with
    | ((_, some err), log) => ((none, none, some err), log)
    | ((req, none), log) =>
      match s.client.callDo log req with
      | ((_, resp, some err), log) => ((none, resp, some err), log)
      | ((badges, resp, none), log) => ((badges, resp, none), log)

/-- `(*repositoriesService).ListCounters`, on the log of the calls made to the client so far. -/
def repositoriesService.ListCounters {T : ApiTypes} {Opt Body : Type}
    (s : repositoriesService T Opt Body (Ptrs T.Counter))
    (repo : RepositorySpec) (log : CallLog) :
    (PtrSlice T.Counter × Option T.Response × Option GoError) × CallLog :=
  match s.client.callUrl log Route.RepositoryCounters (some repo.RouteVars) none with
  | (.error err, log) => ((none, none, some err), log)
  | (.ok url, log) =>
    match s.client.callNewRequest log "GET".toList (T.URLString url) none with
    | ((_, some err), log) => ((none, none, some err), log)
    | ((req, none), log) =>
      match s.client.callDo log req with
      | ((_, resp, some err), log) => ((none, resp, some err), log)
      | ((counters, resp, none), log) => ((counters, resp, none), log)

/-- `(*repositoriesService).ListAuthors`, on the log of the calls made to the client so far. -/
def repositoriesService.ListAuthors {T : ApiTypes} {Body : Type}
    (s : repositoriesService T T.RepositoryListAuthorsOptions Body (Ptrs T.AugmentedRepoAuthor))
    (repo : RepositorySpec) (opt : Option T.RepositoryListAuthorsOptions) (log : CallLog) :
    (PtrSlice T.AugmentedRepoAuthor × Option T.Response × Option GoError) × CallLog :=
  match s.client.callUrl log Route.RepositoryAuthors (some repo.RouteVars) opt with
  | (.error err, log) => ((none, none, some err), log)
  | (.ok url, log) =>
    match s.client.callNewRequest log "GET".toList (T.URLString url) none with
    | ((_, some err), log) => ((none, none, some err), log)
    | ((req, none), log) =>
      match s.client.callDo log req with
      | ((_, resp, some err), log) => ((none, resp, some err), log)
      | ((authors, resp, none), log) => ((authors, resp, none), log)

/-- `(*repositoriesService).ListClients`, on the log of the calls made to the client so far. -/
def repositoriesService.ListClients {T : ApiTypes} {Body : Type}
    (s : repositoriesService T T.RepositoryListClientsOptions Body (Ptrs T.AugmentedRepoClient))
    (repo : RepositorySpec) (opt : Option T.RepositoryListClientsOptions) (log : CallLog) :
    (PtrSlice T.AugmentedRepoClient × Option T.Response × Option GoError) × CallLog :=
  match s.client.callUrl log Route.RepositoryClients (some repo.RouteVars) opt with
  | (.error err, log) => ((none, none, some err), log)
  | (.ok url, log) =>
    match s.client.callNewRequest log "GET".toList (T.URLString url) none with
    | ((_, some err), log) => ((none, none, some err), log)
    | ((req, none), log) =>
      match s.client.callDo log req with
      | ((_, resp, some err), log) => ((none, resp, some err), log)
      | ((clients, resp, none), log) => ((clients, resp, none), log)

/-- `(*repositoriesService).ListDependencies`, on the log of the calls made to the client so far. -/
def repositoriesService.ListDependencies {T : ApiTypes} {Body : Type}
    (s : repositoriesService T T.RepositoryListDependenciesOptions Body (Ptrs T.AugmentedRepoDependency))
    (repo : RepositorySpec) (opt : Option T.RepositoryListDependenciesOptions) (log : CallLog) :
    (PtrSlice T.AugmentedRepoDependency × Option T.Response × Option GoError) × CallLog :=
  match s.client.callUrl log Route.RepositoryDependencies (some repo.RouteVars) opt with
  | (.error err, log) => ((none, none, some err), log)
  | (.ok url, log) =>
    match s.client.callNewRequest log "GET".toList (T.URLString url) none with
    | ((_, some err), log) => ((none, none, some err), log)
    | ((req, none), log) =>
      match s.client.callDo log req with
      | ((_, resp, some err), log) => ((none, resp, some err), log)
      | ((dependencies, resp, none), log) => ((dependencies, resp, none), log)

/-- `(*repositoriesService).ListDependents`, on the log of the calls made to the client so far. -/
def repositoriesService.ListDependents {T : ApiTypes} {Body : Type}
    (s : repositoriesService T T.RepositoryListDependentsOptions Body (Ptrs T.AugmentedRepoDependent))
    (repo : RepositorySpec) (opt : Option T.RepositoryListDependentsOptions) (log : CallLog) :
    (PtrSlice T.AugmentedRepoDependent × Option T.Response × Option GoError) × CallLog :=
  match s.client.callUrl log Route.RepositoryDependents (some repo.RouteVars) opt with
  | (.error err, log) => ((none, none, some err), log)
  | (.ok url, log) =>
    match s.client.callNewRequest log "GET".toList (T.URLString url) none with
    | ((_, some err), log) => ((none, none, some err), log)
    | ((req, none), log) =>
      match s.client.callDo log req with
      | ((_, resp, some err), log) => ((none, resp, some err), log)
      | ((dependents, resp, none), log) => ((dependents, resp, none), log)

/-- `(*repositoriesService).ListByContributor`, on the log of the calls made to the client so far. -/
def repositoriesService.ListByContributor {T : ApiTypes} {Body : Type}
    (s : repositoriesService T T.RepositoryListByContributorOptions Body (Ptrs T.AugmentedRepoContribution))
    (person : PersonSpec) (opt : Option T.RepositoryListByContributorOptions) (log : CallLog) :
    Panics ((PtrSlice T.AugmentedRepoContribution × Option T.Response × Option GoError) × CallLog) :=
  match person.RouteVars with
  | .error e => .error e
  | .ok vars =>
    match s.client.callUrl log Route.PersonRepositoryContributions (some vars) opt with
    | (.error err, log) => .ok ((none, none, some err), log)
    | (.ok url, log) =>
      match s.client.callNewRequest log "GET".toList (T.URLString url) none with
      | ((_, some err), log) => .ok ((none, none, some err), log)
      | ((req, none), log) =>
        match s.client.callDo log req with
        | ((_, resp, some err), log) => .ok ((none, resp, some err), log)
        | ((repos, resp, none), log) => .ok ((repos, resp, none), log)

/-- `(*repositoriesService).ListByClient`, on the log of the calls made to the client so far. -/
def repositoriesService.ListByClient {T : ApiTypes} {Body : Type}
    (s : repositoriesService T T.RepositoryListByClientOptions Body (Ptrs T.AugmentedRepoUsageByClient))
    (person : PersonSpec) (opt : Option T.RepositoryListByClientOptions) (log : CallLog) :
    Panics ((PtrSlice T.AugmentedRepoUsageByClient × Option T.Response × Option GoError) × CallLog) :=
  match person.RouteVars with
  | .error e => .error e
  | .ok vars =>
    match s.client.callUrl log Route.PersonRepositoryDependencies (some vars) opt with
    | (.error err, log) => .ok ((none, none, some err), log)
    | (.ok url, log) =>
      match s.client.callNewRequest log "GET".toList (T.URLString url) none with
      | ((_, some err), log) => .ok ((none, none, some err), log)
      | ((req, none), log) =>
        match s.client.callDo log req with
        | ((_, resp, some err), log) => .ok ((none, resp, some err), log)
        | ((repos, resp, none), log) => .ok ((repos, resp, none), log)

/-- `(*repositoriesService).ListByRefdAuthor`, on the log of the calls made to the client so far. -/
def repositoriesService.ListByRefdAuthor {T : ApiTypes} {Body : Type}
    (s : repositoriesService T T.RepositoryListByRefdAuthorOptions Body (Ptrs T.AugmentedRepoUsageOfAuthor))
    (person : PersonSpec) (opt : Option T.RepositoryListByRefdAuthorOptions) (log : CallLog) :
    Panics ((PtrSlice T.AugmentedRepoUsageOfAuthor × Option T.Response × Option GoError) × CallLog) :=
  match person.RouteVars with
  | .error e => .error e
  | .ok vars =>
    match s.client.callUrl log Route.PersonRepositoryDependents (some vars) opt with
    | (.error err, log) => .ok ((none, none, some err), log)
    | (.ok url, log) =>
      match s.client.callNewRequest log "GET".toList (T.URLString url) none with
      | ((_, some err), log) => .ok ((none, none, some err), log)
      | ((req, none), log) =>
        match s.client.callDo log req with
        | ((_, resp, some err), log) => .ok ((none, resp, some err), log)
        | ((repos, resp, none), log) => .ok ((repos, resp, none), log)

/-! ## `repositories.go`: the mock -/

/-- `MockRepositoriesService`: one hook per method of the service; a nil hook is `none`. -/
structure MockRepositoriesService (T : ApiTypes) where
  Get_ :
    Option (RepositorySpec → Option T.RepositoryGetOptions →
      Option T.Repository × Option T.Response × Option GoError) := none
  GetOrCreate_ :
    Option (RepositorySpec → Option T.RepositoryGetOptions →
      Option T.Repository × Option T.Response × Option GoError) := none
  GetSettings_ :
    Option (RepositorySpec →
      Option T.RepositorySettings × Option T.Response × Option GoError) := none
  UpdateSettings_ :
    Option (RepositorySpec → T.RepositorySettings → Option T.Response × Option GoError) := none
  RefreshProfile_ :
    Option (RepositorySpec → Option T.Response × Option GoError) := none
  RefreshVCSData_ :
    Option (RepositorySpec → Option T.Response × Option GoError) := none
  ComputeStats_ :
    Option (RepositorySpec → Option T.Response × Option GoError) := none
  Create_ :
    Option (T.NewRepositorySpec →
      Option T.repo_Repository × Option T.Response × Option GoError) := none
  GetReadme_ :
    Option (RepositorySpec →
      Option T.vcsclient_TreeEntry × Option T.Response × Option GoError) := none
  List_ :
    Option (Option T.RepositoryListOptions →
      PtrSlice T.Repository × Option T.Response × Option GoError) := none
  ListCommits_ :
    Option (RepositorySpec2 → Option T.RepositoryListCommitsOptions →
      PtrSlice T.Commit × Option T.Response × Option GoError) := none
  GetCommit_ :
    Option (RepoRevSpec → Option T.RepositoryGetCommitOptions →
      Option T.Commit × Option T.Response × Option GoError) := none
  CompareCommits_ :
    Option (RepoRevSpec → Option T.RepositoryCompareCommitsOptions →
      Option T.CommitsComparison × Option T.Response × Option GoError) := none
  ListBranches_ :
    Option (RepositorySpec2 → Option T.RepositoryListBranchesOptions →
      PtrSlice T.vcs_Branch × Option T.Response × Option GoError) := none
  ListTags_ :
    Option (RepositorySpec2 → Option T.RepositoryListTagsOptions →
      PtrSlice T.vcs_Tag × Option T.Response × Option GoError) := none
  ListBadges_ :
    Option (RepositorySpec → PtrSlice T.Badge × Option T.Response × Option GoError) := none
  ListCounters_ :
    Option (RepositorySpec → PtrSlice T.Counter × Option T.Response × Option GoError) := none
  ListAuthors_ :
    Option (RepositorySpec → Option T.RepositoryListAuthorsOptions →
      PtrSlice T.AugmentedRepoAuthor × Option T.Response × Option GoError) := none
  ListClients_ :
    Option (RepositorySpec → Option T.RepositoryListClientsOptions →
      PtrSlice T.AugmentedRepoClient × Option T.Response × Option GoError) := none
  ListDependencies_ :
    Option (RepositorySpec → Option T.RepositoryListDependenciesOptions →
      PtrSlice T.AugmentedRepoDependency × Option T.Response × Option GoError) := none
  ListDependents_ :
    Option (RepositorySpec → Option T.RepositoryListDependentsOptions →
      PtrSlice T.AugmentedRepoDependent × Option T.Response × Option GoError) := none
  ListByContributor_ :
    Option (PersonSpec → Option T.RepositoryListByContributorOptions →
      PtrSlice T.AugmentedRepoContribution × Option T.Response × Option GoError) := none
  ListByClient_ :
    Option (PersonSpec → Option T.RepositoryListByClientOptions →
      PtrSlice T.AugmentedRepoUsageByClient × Option T.Response × Option GoError) := none
  ListByRefdAuthor_ :
    Option (PersonSpec → Option T.RepositoryListByRefdAuthorOptions →
      PtrSlice T.AugmentedRepoUsageOfAuthor × Option T.Response × Option GoError) := none

/-- `MockRepositoriesService.Get`:
`(nil, &HTTPResponse{}, nil)` when the hook is nil, the hook's result otherwise. -/
def MockRepositoriesService.Get {T : ApiTypes} (s : MockRepositoriesService T)
    (repo : RepositorySpec) (opt : Option T.RepositoryGetOptions) :
    Option T.Repository × Option T.Response × Option GoError :=
  match s.Get_ with
  | none => (none, some T.HTTPResponse, none)
  | some f => f repo opt

/-- `MockRepositoriesService.GetOrCreate`:
`(nil, &HTTPResponse{}, nil)` when the hook is nil, the hook's result otherwise. -/
def MockRepositoriesService.GetOrCreate {T : ApiTypes} (s : MockRepositoriesService T)
    (repo : RepositorySpec) (opt : Option T.RepositoryGetOptions) :
    Option T.Repository × Option T.Response × Option GoError :=
  match s.GetOrCreate_ with
  | none => (none, some T.HTTPResponse, none)
  | some f => f repo opt

/-- `MockRepositoriesService.GetSettings`:
`(nil, nil, nil)` when the hook is nil, the hook's result otherwise. -/
def MockRepositoriesService.GetSettings {T : ApiTypes} (s : MockRepositoriesService T)
    (repo : RepositorySpec) :
    Option T.RepositorySettings × Option T.Response × Option GoError :=
  match s.GetSettings_ with
  | none => (none, none, none)
  | some f => f repo

/-- `MockRepositoriesService.UpdateSettings`:
`(nil, nil)` when the hook is nil, the hook's result otherwise. -/
def MockRepositoriesService.UpdateSettings {T : ApiTypes} (s : MockRepositoriesService T)
    (repo : RepositorySpec) (settings : T.RepositorySettings) :
    Option T.Response × Option GoError :=
  match s.UpdateSettings_ with
  | none => (none, none)
  | some f => f repo settings

/-- `MockRepositoriesService.RefreshProfile`:
`(nil, nil)` when the hook is nil, the hook's result otherwise. -/
def MockRepositoriesService.RefreshProfile {T : ApiTypes} (s : MockRepositoriesService T)
    (repo : RepositorySpec) :
    Option T.Response × Option GoError :=
  match s.RefreshProfile_ with
  | none => (none, none)
  | some f => f repo

/-- `MockRepositoriesService.RefreshVCSData`:
`(nil, nil)` when the hook is nil, the hook's result otherwise. -/
def MockRepositoriesService.RefreshVCSData {T : ApiTypes} (s : MockRepositoriesService T)
    (repo : RepositorySpec) :
    Option T.Response × Option GoError :=
  match s.RefreshVCSData_ with
  | none => (none, none)
  | some f => f repo

/-- `MockRepositoriesService.ComputeStats`:
`(nil, nil)` when the hook is nil, the hook's result otherwise. -/
def MockRepositoriesService.ComputeStats {T : ApiTypes} (s : MockRepositoriesService T)
    (repo : RepositorySpec) :
    Option T.Response × Option GoError :=
  match s.ComputeStats_ with
  | none => (none, none)
  | some f => f repo

/-- `MockRepositoriesService.Create`:
`(nil, nil, nil)` when the hook is nil, the hook's result otherwise. -/
def MockRepositoriesService.Create {T : ApiTypes} (s : MockRepositoriesService T)
    (newRepoSpec : T.NewRepositorySpec) :
    Option T.repo_Repository × Option T.Response × Option GoError :=
  match s.Create_ with
  | none => (none, none, none)
  | some f => f newRepoSpec

/-- `MockRepositoriesService.GetReadme`:
`(nil, nil, nil)` when the hook is nil, the hook's result otherwise. -/
def MockRepositoriesService.GetReadme {T : ApiTypes} (s : MockRepositoriesService T)
    (repo : RepositorySpec) :
    Option T.vcsclient_TreeEntry × Option T.Response × Option GoError :=
  match s.GetReadme_ with
  | none => (none, none, none)
  | some f => f repo

/-- `MockRepositoriesService.List`:
`(nil, &HTTPResponse{}, nil)` when the hook is nil, the hook's result otherwise. -/
def MockRepositoriesService.List {T : ApiTypes} (s : MockRepositoriesService T)
    (opt : Option T.RepositoryListOptions) :
    PtrSlice T.Repository × Option T.Response × Option GoError :=
  match s.List_ with
  | none => (none, some T.HTTPResponse, none)
  | some f => f opt

/-- `MockRepositoriesService.ListCommits`:
`(nil, nil, nil)` when the hook is nil, the hook's result otherwise. -/
def MockRepositoriesService.ListCommits {T : ApiTypes} (s : MockRepositoriesService T)
    (repo : RepositorySpec2) (opt : Option T.RepositoryListCommitsOptions) :
    PtrSlice T.Commit × Option T.Response × Option GoError :=
  match s.ListCommits_ with
  | none => (none, none, none)
  | some f => f repo opt

/-- `MockRepositoriesService.GetCommit`:
`(nil, nil, nil)` when the hook is nil, the hook's result otherwise. -/
def MockRepositoriesService.GetCommit {T : ApiTypes} (s : MockRepositoriesService T)
    (rev : RepoRevSpec) (opt : Option T.RepositoryGetCommitOptions) :
    Option T.Commit × Option T.Response × Option GoError :=
  match s.GetCommit_ with
  | none => (none, none, none)
  | some f => f rev opt

/-- `MockRepositoriesService.CompareCommits`:
`(nil, nil, nil)` when the hook is nil, the hook's result otherwise. -/
def MockRepositoriesService.CompareCommits {T : ApiTypes} (s : MockRepositoriesService T)
    (base : RepoRevSpec) (opt : Option T.RepositoryCompareCommitsOptions) :
    Option T.CommitsComparison × Option T.Response × Option GoError :=
  match s.CompareCommits_ with
  | none => (none, none, none)
  | some f => f base opt

/-- `MockRepositoriesService.ListBranches`:
`(nil, nil, nil)` when the hook is nil, the hook's result otherwise. -/
def MockRepositoriesService.ListBranches {T : ApiTypes} (s : MockRepositoriesService T)
    (repo : RepositorySpec2) (opt : Option T.RepositoryListBranchesOptions) :
    PtrSlice T.vcs_Branch × Option T.Response × Option GoError :=
  match s.ListBranches_ with
  | none => (none, none, none)
  | some f => f repo opt

/-- `MockRepositoriesService.ListTags`:
`(nil, nil, nil)` when the hook is nil, the hook's result otherwise. -/
def MockRepositoriesService.ListTags {T : ApiTypes} (s : MockRepositoriesService T)
    (repo : RepositorySpec2) (opt : Option T.RepositoryListTagsOptions) :
    PtrSlice T.vcs_Tag × Option T.Response × Option GoError :=
  match s.ListTags_ with
  | none => (none, none, none)
  | some f => f repo opt

/-- `MockRepositoriesService.ListBadges`:
`(nil, &HTTPResponse{}, nil)` when the hook is nil, the hook's result otherwise. -/
def MockRepositoriesService.ListBadges {T : ApiTypes} (s : MockRepositoriesService T)
    (repo : RepositorySpec) :
    PtrSlice T.Badge × Option T.Response × Option GoError :=
  match s.ListBadges_ with
  | none => (none, some T.HTTPResponse, none)
  | some f => f repo

/-- `MockRepositoriesService.ListCounters`:
`(nil, &HTTPResponse{}, nil)` when the hook is nil, the hook's result otherwise. -/
def MockRepositoriesService.ListCounters {T : ApiTypes} (s : MockRepositoriesService T)
    (repo : RepositorySpec) :
    PtrSlice T.Counter × Option T.Response × Option GoError :=
  match s.ListCounters_ with
  | none => (none, some T.HTTPResponse, none)
  | some f => f repo

/-- `MockRepositoriesService.ListAuthors`:
`(nil, &HTTPResponse{}, nil)` when the hook is nil, the hook's result otherwise. -/
def MockRepositoriesService.ListAuthors {T : ApiTypes} (s : MockRepositoriesService T)
    (repo : RepositorySpec) (opt : Option T.RepositoryListAuthorsOptions) :
    PtrSlice T.AugmentedRepoAuthor × Option T.Response × Option GoError :=
  match s.ListAuthors_ with
  | none => (none, some T.HTTPResponse, none)
  | some f => f repo opt

/-- `MockRepositoriesService.ListClients`:
`(nil, &HTTPResponse{}, nil)` when the hook is nil, the hook's result otherwise. -/
def MockRepositoriesService.ListClients {T : ApiTypes} (s : MockRepositoriesService T)
    (repo : RepositorySpec) (opt : Option T.RepositoryListClientsOptions) :
    PtrSlice T.AugmentedRepoClient × Option T.Response × Option GoError :=
  match s.ListClients_ with
  | none => (none, some T.HTTPResponse, none)
  | some f => f repo opt

/-- `MockRepositoriesService.ListDependencies`:
`(nil, &HTTPResponse{}, nil)` when the hook is nil, the hook's result otherwise. -/
def MockRepositoriesService.ListDependencies {T : ApiTypes} (s : MockRepositoriesService T)
    (repo : RepositorySpec) (opt : Option T.RepositoryListDependenciesOptions) :
    PtrSlice T.AugmentedRepoDependency × Option T.Response × Option GoError :=
  match s.ListDependencies_ with
  | none => (none, some T.HTTPResponse, none)
  | some f => f repo opt

/-- `MockRepositoriesService.ListDependents`:
`(nil, &HTTPResponse{}, nil)` when the hook is nil, the hook's result otherwise. -/
def MockRepositoriesService.ListDependents {T : ApiTypes} (s : MockRepositoriesService T)
    (repo : RepositorySpec) (opt : Option T.RepositoryListDependentsOptions) :
    PtrSlice T.AugmentedRepoDependent × Option T.Response × Option GoError :=
  match s.ListDependents_ with
  | none => (none, some T.HTTPResponse, none)
  | some f => f repo opt

/-- `MockRepositoriesService.ListByContributor`:
`(nil, nil, nil)` when the hook is nil, the hook's result otherwise. -/
def MockRepositoriesService.ListByContributor {T : ApiTypes} (s : MockRepositoriesService T)
    (person : PersonSpec) (opt : Option T.RepositoryListByContributorOptions) :
    PtrSlice T.AugmentedRepoContribution × Option T.Response × Option GoError :=
  match s.ListByContributor_ with
  | none => (none, none, none)
  | some f => f person opt

/-- `MockRepositoriesService.ListByClient`:
`(nil, &HTTPResponse{}, nil)` when the hook is nil, the hook's result otherwise. -/
def MockRepositoriesService.ListByClient {T : ApiTypes} (s : MockRepositoriesService T)
    (person : PersonSpec) (opt : Option T.RepositoryListByClientOptions) :
    PtrSlice T.AugmentedRepoUsageByClient × Option T.Response × Option GoError :=
  match s.ListByClient_ with
  | none => (none, some T.HTTPResponse, none)
  | some f => f person opt

/-- `MockRepositoriesService.ListByRefdAuthor`:
`(nil, &HTTPResponse{}, nil)` when the hook is nil, the hook's result otherwise. -/
def MockRepositoriesService.ListByRefdAuthor {T : ApiTypes} (s : MockRepositoriesService T)
    (person : PersonSpec) (opt : Option T.RepositoryListByRefdAuthorOptions) :
    PtrSlice T.AugmentedRepoUsageOfAuthor × Option T.Response × Option GoError :=
  match s.ListByRefdAuthor_ with
  | none => (none, some T.HTTPResponse, none)
  | some f => f person opt

/-! ## A concrete client, to evaluate the services -/

/-- Concrete types for the services: a URL and a request are strings, every
other value is the unit. -/
def ApiTypes.units : ApiTypes where
  Response := Unit
  HTTPResponse := ()
  URL := GoString
  URLString := fun u => u
  Request := GoString
  PersonGetOptions := Unit
  Person := Unit
  EmailAddr := Unit
  PersonListOptions := Unit
  person_User := Unit
  PersonListAuthorsOptions := Unit
  AugmentedPersonUsageByClient := Unit
  PersonListClientsOptions := Unit
  AugmentedPersonUsageOfAuthor := Unit
  PersonListOrgsOptions := Unit
  Org := Unit
  RepositoryGetOptions := Unit
  Repository := Unit
  RepositorySettings := Unit
  NewRepositorySpec := Unit
  repo_Repository := Unit
  vcsclient_TreeEntry := Unit
  RepositoryListOptions := Unit
  RepositoryListCommitsOptions := Unit
  Commit := Unit
  RepositoryGetCommitOptions := Unit
  RepositoryCompareCommitsOptions := Unit
  CommitsComparison := Unit
  RepositoryListBranchesOptions := Unit
  vcs_Branch := Unit
  RepositoryListTagsOptions := Unit
  vcs_Tag := Unit
  Badge := Unit
  Counter := Unit
  RepositoryListAuthorsOptions := Unit
  AugmentedRepoAuthor := Unit
  RepositoryListClientsOptions := Unit
  AugmentedRepoClient := Unit
  RepositoryListDependenciesOptions := Unit
  AugmentedRepoDependency := Unit
  RepositoryListDependentsOptions := Unit
  AugmentedRepoDependent := Unit
  RepositoryListByContributorOptions := Unit
  AugmentedRepoContribution := Unit
  RepositoryListByClientOptions := Unit
  AugmentedRepoUsageByClient := Unit
  RepositoryListByRefdAuthorOptions := Unit
  AugmentedRepoUsageOfAuthor := Unit

/-- A client on which every call succeeds: `url` returns `"/people"`,
`NewRequest` the URL as the request, `Do` a decoded value and a response. -/
def Client.succeeding : Client ApiTypes.units Unit Unit Unit where
  url := fun _ _ _ => .ok "/people".toList
  NewRequest := fun _ u _ => (some u, none)
  Do := fun _ => (some (), some (), none)

/-- A client whose `url` fails with the error "no route". -/
def Client.failingUrl : Client ApiTypes.units Unit Unit Unit where
  url := fun _ _ _ => .error (GoError.New "no route")
  NewRequest := fun _ u _ => (some u, none)
  Do := fun _ => (some (), some (), none)

/-! ## Predicates used to state the properties -/

/-- Value of a digit string read left to right from the accumulator `n`. -/
def decimalValue : GoString → Nat → Nat
  | [], n => n
  | c :: cs, n => decimalValue cs (n * 10 + (c.toNat - 48))

/-- The string is a decimal integer: an optional sign `+` or `-` followed by
one or more decimal digits. -/
def IsDecimalInteger : GoString → Bool
  | [] => false
  | c :: cs =>
    let ds : GoString := if c == '+' || c == '-' then cs else c :: cs
    !ds.isEmpty && ds.all Char.isDigit

/-- Value of a decimal integer: an optional sign, then the value of the
digits. -/
def decimalIntValue : GoString → Int
  | [] => 0
  | c :: cs =>
    if c == '-' then -(decimalValue cs 0 : Int)
    else if c == '+' then (decimalValue cs 0 : Int)
    else (decimalValue (c :: cs) 0 : Int)

/-- The table `lower` agrees with `unicode.ToLower` on ASCII: `'A'..'Z'` go to
`'a'..'z'` and every other ASCII character is unchanged. -/
def LowerOnASCII (lower : Char → Char) : Prop :=
  ∀ c : Char, c.toNat < 128 → lower c = c.toLower

/-- The string `s` starts with `pre` when case is ignored: `s` is at least as
long as `pre`, and each of its leading characters has the same lower case as
the character of `pre` at the same place. -/
def StartsWithIgnoringCase (lower : Char → Char) (s pre : GoString) : Prop :=
  pre.length ≤ s.length ∧ (s.take pre.length).map lower = pre.map lower

/-- The outcomes of a service method that returns the errors of its client as
they are, for the call of `url` with `route`, `vars` and `opt` and of
`NewRequest` with `method` and `body`, started on the log `log`; `out` is the
triple the method returns with the log it leaves. When `url` fails the method
returns `(nil, nil, err)` and has called `url` only; when `NewRequest` returns
an error it returns `(nil, nil, err)` and has called `url` and `NewRequest`
only; when `Do` returns an error it returns a nil result with the response and
the error of `Do`; otherwise it returns the decoded value and the response of
`Do` with a nil error. -/
def ReturnsClientErrors {T : ApiTypes} {Opt Body V : Type} (c : Client T Opt Body V)
    (route : Route) (vars : Option RouteMap) (opt : Option Opt) (method : GoString)
    (body : Option Body) (log : CallLog)
    (out : (Option V × Option T.Response × Option GoError) × CallLog) : Prop :=
  (∀ err, c.url route vars opt = .error err →
      out = ((none, none, some err), log ++ [ClientCall.url])) ∧
    (∀ url err, c.url route vars opt = .ok url →
      (c.NewRequest method (T.URLString url) body).2 = some err →
      out = ((none, none, some err), log ++ [ClientCall.url, ClientCall.NewRequest])) ∧
    (∀ url err, c.url route vars opt = .ok url →
      (c.NewRequest method (T.URLString url) body).2 = none →
      (c.Do (c.NewRequest method (T.URLString url) body).1).2.2 = some err →
      out = ((none, (c.Do (c.NewRequest method (T.URLString url) body).1).2.1, some err),
        log ++ [ClientCall.url, ClientCall.NewRequest, ClientCall.Do])) ∧
    (∀ url, c.url route vars opt = .ok url →
      (c.NewRequest method (T.URLString url) body).2 = none →
      (c.Do (c.NewRequest method (T.URLString url) body).1).2.2 = none →
      out = (((c.Do (c.NewRequest method (T.URLString url) body).1).1,
          (c.Do (c.NewRequest method (T.URLString url) body).1).2.1, none),
        log ++ [ClientCall.url, ClientCall.NewRequest, ClientCall.Do]))

/-- Exactly one identifying field of the `PersonSpec` is set: Email non-empty,
or Login non-empty, or UID > 0, the other two zero. -/
def PersonSpec.ExactlyOneSet (s : PersonSpec) : Prop :=
  (s.Email ≠ [] ∧ s.Login = [] ∧ s.UID = 0) ∨
  (s.Email = [] ∧ s.Login ≠ [] ∧ s.UID = 0) ∨
  (s.Email = [] ∧ s.Login = [] ∧ s.UID > 0)

instance (s : PersonSpec) : Decidable s.ExactlyOneSet := by
  unfold PersonSpec.ExactlyOneSet; infer_instance

/-- Exactly one identifying field of the `RepositorySpec2` is set: URI
non-empty and RID = 0, or URI empty and RID > 0. -/
def RepositorySpec2.ExactlyOneSet (s : RepositorySpec2) : Prop :=
  (s.URI ≠ [] ∧ s.RID = 0) ∨ (s.URI = [] ∧ s.RID > 0)

instance (s : RepositorySpec2) : Decidable s.ExactlyOneSet := by
  unfold RepositorySpec2.ExactlyOneSet; infer_instance

/-! ## Lemmas on the `strings` model -/

theorem HasPrefix_cons_singleton (c d : Char) (cs : GoString) :
    HasPrefix (c :: cs) [d] = (c == d) := by
  simp [HasPrefix]

theorem HasPrefix_nil_singleton (d : Char) : HasPrefix [] [d] = false := by
  simp [HasPrefix]

theorem Contains_singleton (s : GoString) (d : Char) :
    Contains s [d] = true ↔ d ∈ s := by
  induction s with
  | nil => simp [Contains]
  | cons c cs ih =>
    simp only [Contains, HasPrefix_cons_singleton, Bool.or_eq_true, ih, List.mem_cons,
      beq_iff_eq]
    constructor
    · rintro (h | h)
      · exact Or.inl h.symm
      · exact Or.inr h
    · rintro (h | h)
      · exact Or.inl h.symm
      · exact Or.inr h

/-! ## Lemmas on the `strconv` model -/

theorem decimalValue_append (xs ys : GoString) (n : Nat) :
    decimalValue (xs ++ ys) n = decimalValue ys (decimalValue xs n) := by
  induction xs generalizing n with
  | nil => rfl
  | cons c cs ih => simp [decimalValue, ih]

theorem le_decimalValue (cs : GoString) (n : Nat) : n ≤ decimalValue cs n := by
  induction cs generalizing n with
  | nil => exact Nat.le_refl _
  | cons c cs ih =>
    have := ih (n * 10 + (c.toNat - 48))
    simp only [decimalValue]
    omega

theorem digitByte_isDigit (d : Nat) (h : d < 10) : (digitByte d).isDigit = true := by
  interval_cases d <;> decide

theorem digitByte_toNat (d : Nat) (h : d < 10) : (digitByte d).toNat - 48 = d := by
  interval_cases d <;> decide

theorem parseUintLoop_digits (cutoff maxVal : Nat) (hc : maxVal < cutoff * 10)
    (cs : GoString) (n : Nat) (hd : ∀ c ∈ cs, c.isDigit = true)
    (hv : decimalValue cs n ≤ maxVal) :
    parseUintLoop cutoff maxVal cs n = (decimalValue cs n, none) := by
  induction cs generalizing n with
  | nil => rfl
  | cons c cs ih =>
    have hc1 : c.isDigit = true := hd c (List.mem_cons_self _ _)
    have hle := le_decimalValue cs (n * 10 + (c.toNat - 48))
    simp only [decimalValue] at hv ⊢
    have h1 : ¬ n ≥ cutoff := by omega
    have h2 : ¬ n * 10 + (c.toNat - 48) > maxVal := by omega
    simp only [parseUintLoop, hc1, if_true, h1, h2, if_false]
    exact ih _ (fun c hc => hd c (List.mem_cons_of_mem _ hc)) hv

theorem parseUintLoop_no_error (cutoff maxVal : Nat) (cs : GoString) (n : Nat)
    (h : (parseUintLoop cutoff maxVal cs n).2 = none) : ∀ c ∈ cs, c.isDigit = true := by
  induction cs generalizing n with
  | nil => simp
  | cons c cs ih =>
    intro d hd
    by_cases hc1 : c.isDigit = true
    · simp only [parseUintLoop, hc1, if_true] at h
      split_ifs at h with h1 h2
      rcases List.mem_cons.1 hd with rfl | hd
      · exact hc1
      · exact ih _ h d hd
    · simp [parseUintLoop, hc1] at h

theorem formatBits_spec (fuel u : Nat) (h : u < fuel) :
    formatBits fuel u ≠ [] ∧ (∀ c ∈ formatBits fuel u, c.isDigit = true) ∧
      decimalValue (formatBits fuel u) 0 = u := by
  induction fuel generalizing u with
  | zero => omega
  | succ fuel ih =>
    by_cases hu : u < 10
    · simp only [formatBits, hu, if_true]
      refine ⟨by simp, ?_, ?_⟩
      · intro c hc
        rw [List.mem_singleton.1 hc]
        exact digitByte_isDigit u hu
      · simp [decimalValue, digitByte_toNat u hu]
    · simp only [formatBits, hu, if_false]
      obtain ⟨_, hdig, hval⟩ := ih (u / 10) (by omega)
      have hm : u % 10 < 10 := Nat.mod_lt _ (by decide)
      refine ⟨by simp, ?_, ?_⟩
      · intro c hc
        rcases List.mem_append.1 hc with hc | hc
        · exact hdig c hc
        · rw [List.mem_singleton.1 hc]
          exact digitByte_isDigit _ hm
      · rw [decimalValue_append, hval]
        simp only [decimalValue, digitByte_toNat _ hm]
        omega

theorem FormatUint_ne_nil (u : Nat) : FormatUint u ≠ [] :=
  (formatBits_spec (u + 1) u (Nat.lt_succ_self u)).1

theorem FormatUint_digits (u : Nat) : ∀ c ∈ FormatUint u, c.isDigit = true :=
  (formatBits_spec (u + 1) u (Nat.lt_succ_self u)).2.1

theorem decimalValue_FormatUint (u : Nat) : decimalValue (FormatUint u) 0 = u :=
  (formatBits_spec (u + 1) u (Nat.lt_succ_self u)).2.2

theorem ParseUint_FormatUint (u : Nat) (h : u < 2 ^ 64) :
    ParseUint (FormatUint u) = (u, none) := by
  have h0 := FormatUint_ne_nil u
  have h1 := parseUintLoop_digits (maxUint64 / 10 + 1) (2 ^ intSize - 1)
    (by simp [maxUint64, intSize]) (FormatUint u) 0 (FormatUint_digits u)
    (by rw [decimalValue_FormatUint]; simp only [intSize]; omega)
  rw [decimalValue_FormatUint] at h1
  simp [ParseUint, h0, h1]

theorem isDigit_ne_sign (c : Char) (h : c.isDigit = true) : (c == '+') = false ∧ (c == '-') = false := by
  constructor
  · rw [beq_eq_false_iff_ne]
    rintro rfl
    exact absurd h (by decide)
  · rw [beq_eq_false_iff_ne]
    rintro rfl
    exact absurd h (by decide)

theorem ParseInt_FormatUint (u : Nat) (h : u < 2 ^ 63) :
    ParseInt (FormatUint u) = ((u : Int), none) := by
  have hp := ParseUint_FormatUint u (by omega)
  have hd := FormatUint_digits u
  have hn := FormatUint_ne_nil u
  generalize FormatUint u = s at hp hd hn
  match s, hn with
  | c :: cs, _ =>
    obtain ⟨h1, h2⟩ := isDigit_ne_sign c (hd c (List.mem_cons_self _ _))
    simp [ParseInt, h1, h2, hp, intSize]
    omega

theorem ParseInt_neg_FormatUint (u : Nat) (h : u ≤ 2 ^ 63) :
    ParseInt ('-' :: FormatUint u) = (-(u : Int), none) := by
  have hp := ParseUint_FormatUint u (by omega)
  simp [ParseInt, hp, intSize]
  omega

/-- Parsing the decimal representation of a Go `int` gives the number back. -/
theorem Atoi_Itoa (n : Int) (h : IsGoInt n) : Atoi (Itoa n) = (n, none) := by
  obtain ⟨hlo, hhi⟩ := h
  simp only [minInt, maxInt, intSize] at hlo hhi
  by_cases hn : n < 0
  · have hu : n.natAbs ≤ 2 ^ 63 := by omega
    have : -(n.natAbs : Int) = n := by omega
    simp only [Atoi, Itoa, hn, if_true, ParseInt_neg_FormatUint _ hu, this]
  · have hu : n.natAbs < 2 ^ 63 := by omega
    have : (n.natAbs : Int) = n := by omega
    simp only [Atoi, Itoa, hn, if_false, ParseInt_FormatUint _ hu, this]

theorem digitChar_eq_digitByte (d : Nat) (h : d < 10) : Nat.digitChar d = digitByte d := by
  interval_cases d <;> rfl

theorem toDigitsCore_eq_formatBits (fuel u : Nat) (ds : List Char) (h : u < fuel) :
    Nat.toDigitsCore 10 fuel u ds = formatBits fuel u ++ ds := by
  induction fuel generalizing u ds with
  | zero => omega
  | succ fuel ih =>
    have hm : u % 10 < 10 := Nat.mod_lt _ (by decide)
    by_cases hu : u < 10
    · have h0 : u / 10 = 0 := by omega
      have h1 : u % 10 = u := by omega
      simp [Nat.toDigitsCore, formatBits, hu, h0, h1, digitChar_eq_digitByte u hu]
    · have h0 : u / 10 ≠ 0 := by omega
      simp [Nat.toDigitsCore, formatBits, hu, h0, digitChar_eq_digitByte _ hm,
        ih (u / 10) _ (by omega)]

/-- The model of `strconv.FormatUint` is the decimal representation of the
number. -/
theorem FormatUint_eq_toDigits (u : Nat) : FormatUint u = Nat.toDigits 10 u := by
  simp [FormatUint, Nat.toDigits, toDigitsCore_eq_formatBits (u + 1) u [] (Nat.lt_succ_self u)]

/-- The model of `strconv.Itoa` is the decimal representation of the number. -/
theorem Itoa_eq_toString (n : Int) : Itoa n = (toString n).toList := by
  cases n with
  | ofNat m =>
    have : ¬ (Int.ofNat m < 0) := by simp
    simp only [Itoa, this, if_false, FormatUint_eq_toDigits]
    rfl
  | negSucc m =>
    have : Int.negSucc m < 0 := Int.negSucc_lt_zero m
    simp only [Itoa, this, if_true, FormatUint_eq_toDigits]
    rfl

theorem parseUintLoop_error (cutoff maxVal : Nat) (cs : GoString) (n : Nat)
    (h : (parseUintLoop cutoff maxVal cs n).2 ≠ none) :
    (parseUintLoop cutoff maxVal cs n).2 = some GoError.ErrSyntax ∨
      (parseUintLoop cutoff maxVal cs n).1 = maxVal := by
  induction cs generalizing n with
  | nil => simp [parseUintLoop] at h
  | cons c cs ih =>
    by_cases hc1 : c.isDigit = true
    · simp only [parseUintLoop, hc1, if_true] at h ⊢
      split_ifs at h ⊢ with h1 h2
      · exact Or.inr rfl
      · exact Or.inr rfl
      · exact ih _ h
    · simp [parseUintLoop, hc1]

/-- `Atoi` returns a nil error only on a decimal integer. -/
theorem Atoi_no_error (s : GoString) (h : (Atoi s).2 = none) : IsDecimalInteger s = true := by
  match s with
  | [] => simp [Atoi, ParseInt] at h
  | c :: cs =>
    simp only [Atoi, ParseInt] at h
    simp only [IsDecimalInteger]
    generalize (if (c == '+' || c == '-') = true then cs else c :: cs) = s1 at h ⊢
    by_cases hs1 : s1 = []
    · simp [hs1, ParseUint] at h
    · have hu : (ParseUint s1).2 = none := by
        by_contra hne
        have hne2 : (parseUintLoop (maxUint64 / 10 + 1) (2 ^ intSize - 1) s1 0).2 ≠ none := by
          simpa [ParseUint, hs1] using hne
        rcases parseUintLoop_error _ _ s1 0 hne2 with he | he
        · have he2 : (ParseUint s1).2 = some GoError.ErrSyntax := by
            simpa [ParseUint, hs1] using he
          simp [he2] at h
        · have he2 : (ParseUint s1).1 = 2 ^ intSize - 1 := by
            simpa [ParseUint, hs1] using he
          rw [he2] at h
          cases hneg : (c == '-') <;> simp [hneg, intSize] at h <;>
            split_ifs at h <;> simp_all
      have hd := parseUintLoop_no_error (maxUint64 / 10 + 1) (2 ^ intSize - 1) s1 0
        (by simpa [ParseUint, hs1] using hu)
      simp [hs1, List.all_eq_true]
      exact hd

/-! ## Round trips through the path component -/

/-- C1 (as stated, refuted): `PersonSpec{Email: "bob"}` has exactly one field
set and encodes to `"bob"`, and `ParsePersonSpec("bob")` returns
`PersonSpec{Login: "bob"}`, which is not the spec that was encoded. -/
theorem C1_counterexample :
    PersonSpec.ExactlyOneSet { Email := "bob".toList } ∧
      IsGoInt (PersonSpec.UID { Email := "bob".toList }) ∧
      PersonSpec.PathComponent { Email := "bob".toList } = .ok "bob".toList ∧
      ParsePersonSpec "bob".toList = ({ Login := "bob".toList }, none) ∧
      ParsePersonSpec "bob".toList ≠ ({ Email := "bob".toList }, none) := by
  decide

/-- C1 (amended): for a `PersonSpec` with exactly one field set,
`ParsePersonSpec(spec.PathComponent())` returns `(spec, nil)` if and only if
the Email, when it is the field set, contains `"@"` and does not start with
`"$"`, and the Login, when it is the field set, contains no `"@"` and does not
start with `"$"`; a spec identified by UID > 0 always round-trips. -/
theorem C1_person_round_trip_iff (s : PersonSpec) (h : s.ExactlyOneSet) (hi : IsGoInt s.UID) :
    (∃ p, s.PathComponent = .ok p ∧ ParsePersonSpec p = (s, none)) ↔
      ((s.Email ≠ [] →
          Contains s.Email "@".toList = true ∧ HasPrefix s.Email "$".toList = false) ∧
        (s.Login ≠ [] →
          Contains s.Login "@".toList = false ∧ HasPrefix s.Login "$".toList = false)) := by
  have e1 : "$".toList = ['$'] := rfl
  have e2 : "@".toList = ['@'] := rfl
  simp only [e1, e2]
  obtain ⟨e, l, u⟩ := s
  rcases h with ⟨he, hl, hu⟩ | ⟨he, hl, hu⟩ | ⟨he, hl, hu⟩ <;> simp only at he hl hu hi
  · subst hl hu
    simp only [PersonSpec.PathComponent, he, ne_eq, not_false_eq_true, if_true, Except.ok.injEq,
      exists_eq_left', not_true_eq_false, false_implies, and_true, true_implies]
    cases hp : HasPrefix e ['$'] <;> cases hc : Contains e ['@'] <;>
      simp [ParsePersonSpec, hp, hc, he, Ne.symm he]
  · subst he hu
    simp only [PersonSpec.PathComponent, hl, ne_eq, not_false_eq_true, if_true, Except.ok.injEq,
      exists_eq_left', not_true_eq_false, false_implies, true_and, true_implies, if_false]
    cases hp : HasPrefix l ['$'] <;> cases hc : Contains l ['@'] <;>
      simp [ParsePersonSpec, hp, hc, hl, Ne.symm hl]
  · subst he hl
    have hp : HasPrefix ('$' :: Itoa u) ['$'] = true := by
      simp [HasPrefix]
    simp [PersonSpec.PathComponent, hu, ParsePersonSpec, hp, Atoi_Itoa u hi]

/-- Witness for C1 (amended) at `PersonSpec{Email: "a@b.com"}`, which
round-trips. -/
theorem C1_person_round_trip_iff_witness :
    PersonSpec.ExactlyOneSet { Email := "a@b.com".toList } ∧
      ∃ p, PersonSpec.PathComponent { Email := "a@b.com".toList } = .ok p ∧
        ParsePersonSpec p = ({ Email := "a@b.com".toList }, none) :=
  ⟨by decide,
    (C1_person_round_trip_iff { Email := "a@b.com".toList } (by decide) (by decide)).2
      ⟨fun _ => by decide, fun hl => absurd rfl hl⟩⟩

/-- C2 (as stated, refuted): `RepositorySpec2{URI: "R$5"}` has exactly one
field set and encodes to `"R$5"`, and `ParseRepositorySpec2("R$5")` returns
`RepositorySpec2{RID: 5}`, which is not the spec that was encoded. -/
theorem C2_counterexample :
    RepositorySpec2.ExactlyOneSet { URI := "R$5".toList } ∧
      IsGoInt (RepositorySpec2.RID { URI := "R$5".toList }) ∧
      RepositorySpec2.PathComponent { URI := "R$5".toList } = .ok "R$5".toList ∧
      ParseRepositorySpec2 "R$5".toList = ({ RID := 5 }, none) ∧
      ParseRepositorySpec2 "R$5".toList ≠ ({ URI := "R$5".toList }, none) := by
  decide

/-- C2 (amended): for a `RepositorySpec2` with exactly one field set,
`ParseRepositorySpec2(spec.PathComponent())` returns `(spec, nil)` if and only
if the URI, when it is the field set, does not start with `"R$"`; a spec
identified by RID > 0 always round-trips. -/
theorem C2_repository_round_trip_iff (s : RepositorySpec2) (h : s.ExactlyOneSet)
    (hi : IsGoInt s.RID) :
    (∃ p, s.PathComponent = .ok p ∧ ParseRepositorySpec2 p = (s, none)) ↔
      (s.URI ≠ [] → HasPrefix s.URI "R$".toList = false) := by
  have e1 : "R$".toList = ['R', '$'] := rfl
  simp only [e1]
  obtain ⟨uri, rid⟩ := s
  rcases h with ⟨hu, hr⟩ | ⟨hu, hr⟩ <;> simp only at hu hr hi
  · subst hr
    simp only [RepositorySpec2.PathComponent, hu, ne_eq, not_false_eq_true, if_true,
      Except.ok.injEq, exists_eq_left', true_implies]
    cases hp : HasPrefix uri ['R', '$'] <;>
      simp [ParseRepositorySpec2, hp, hu, Ne.symm hu]
  · subst hu
    have hp : HasPrefix ('R' :: '$' :: Itoa rid) ['R', '$'] = true := by
      simp [HasPrefix]
    simp [RepositorySpec2.PathComponent, hr, ParseRepositorySpec2, hp, Atoi_Itoa rid hi]

/-- Witness for C2 (amended) at `RepositorySpec2{RID: 7}`, which round-trips. -/
theorem C2_repository_round_trip_iff_witness :
    RepositorySpec2.ExactlyOneSet { RID := 7 } ∧
      ∃ p, RepositorySpec2.PathComponent { RID := 7 } = .ok p ∧
        ParseRepositorySpec2 p = ({ RID := 7 }, none) :=
  ⟨by decide,
    (C2_repository_round_trip_iff { RID := 7 } (by decide) (by decide)).2
      (fun hu => absurd rfl hu)⟩

/-! ## Encoding -/

/-- C3: `PersonSpec.PathComponent` follows the precedence Email > Login > UID.
A non-empty Email is returned verbatim whatever Login and UID are; otherwise a
non-empty Login is returned verbatim whatever UID is; otherwise, when UID > 0,
the result is `"$"` followed by the decimal representation of UID. -/
theorem C3_person_path_component_precedence (s : PersonSpec) :
    (s.Email ≠ [] → s.PathComponent = .ok s.Email) ∧
      (s.Email = [] → s.Login ≠ [] → s.PathComponent = .ok s.Login) ∧
      (s.Email = [] → s.Login = [] → s.UID > 0 →
        s.PathComponent = .ok ("$".toList ++ (toString s.UID).toList)) := by
  refine ⟨?_, ?_, ?_⟩
  · intro he
    simp [PersonSpec.PathComponent, he]
  · intro he hl
    simp [PersonSpec.PathComponent, he, hl]
  · intro he hl hu
    simp [PersonSpec.PathComponent, he, hl, hu, Itoa_eq_toString]

/-- C3 at the spec's example: `PersonSpec{Email: "a@b.com", Login: "x", UID: 5}`
encodes to `"a@b.com"`. -/
theorem C3_person_path_component_precedence_witness :
    PersonSpec.PathComponent { Email := "a@b.com".toList, Login := "x".toList, UID := 5 } =
      .ok "a@b.com".toList :=
  (C3_person_path_component_precedence
    { Email := "a@b.com".toList, Login := "x".toList, UID := 5 }).1 (by decide)

/-- C4: `PersonSpec.PathComponent` panics with "empty PersonSpec" if and only
if Email is empty, Login is empty and UID is not greater than 0, and it has no
other way to fail; `PersonSpec{}` panics; a spec on which it panics has no
encoding, and every encoding it returns is a non-empty string. -/
theorem C4_person_path_component_fails_iff (s : PersonSpec) :
    (s.PathComponent = .error "empty PersonSpec" ↔
        (s.Email = [] ∧ s.Login = [] ∧ ¬ s.UID > 0)) ∧
      ((∃ msg, s.PathComponent = .error msg) ↔ (s.Email = [] ∧ s.Login = [] ∧ ¬ s.UID > 0)) ∧
      PersonSpec.PathComponent {} = .error "empty PersonSpec" ∧
      ((s.Email = [] ∧ s.Login = [] ∧ ¬ s.UID > 0) → ∀ p, s.PathComponent ≠ .ok p) ∧
      (∀ p, s.PathComponent = .ok p → p ≠ []) := by
  obtain ⟨e, l, u⟩ := s
  by_cases he : e = [] <;> by_cases hl : l = [] <;> by_cases hu : u > 0 <;>
    simp [PersonSpec.PathComponent, he, hl, hu]

/-- C5: `RepositorySpec2.PathComponent` returns a non-empty URI verbatim
whatever RID is, and otherwise, when RID > 0, `"R$"` followed by the decimal
representation of RID. -/
theorem C5_repository_path_component (s : RepositorySpec2) :
    (s.URI ≠ [] → s.PathComponent = .ok s.URI) ∧
      (s.URI = [] → s.RID > 0 →
        s.PathComponent = .ok ("R$".toList ++ (toString s.RID).toList)) := by
  refine ⟨?_, ?_⟩
  · intro hu
    simp [RepositorySpec2.PathComponent, hu]
  · intro hu hr
    simp [RepositorySpec2.PathComponent, hu, hr, Itoa_eq_toString]

/-- C5 at the spec's example: `RepositorySpec2{URI: "r.com/x", RID: 5}` encodes
to `"r.com/x"`. -/
theorem C5_repository_path_component_witness :
    RepositorySpec2.PathComponent { URI := "r.com/x".toList, RID := 5 } =
      .ok "r.com/x".toList :=
  (C5_repository_path_component { URI := "r.com/x".toList, RID := 5 }).1 (by decide)

/-- C6: `RepositorySpec2.PathComponent` panics with "empty RepositorySpec2" if
and only if URI is empty and RID is not greater than 0, and it has no other way
to fail. -/
theorem C6_repository_path_component_fails_iff (s : RepositorySpec2) :
    (s.PathComponent = .error "empty RepositorySpec2" ↔ (s.URI = [] ∧ ¬ s.RID > 0)) ∧
      ((∃ msg, s.PathComponent = .error msg) ↔ (s.URI = [] ∧ ¬ s.RID > 0)) := by
  obtain ⟨uri, rid⟩ := s
  by_cases hu : uri = [] <;> by_cases hr : rid > 0 <;>
    simp [RepositorySpec2.PathComponent, hu, hr]

/-- C7: `GitHubUserSpec.RouteVars` panics with the unsupported-ID message
whenever ID is non-zero, whatever Login is; with ID zero and Login non-empty it
returns exactly the map `{"GitHubUserSpec": Login}`; with ID zero and Login
empty it panics with the empty-spec message, which differs from the
unsupported-ID message. -/
theorem C7_github_user_route_vars (s : GitHubUserSpec) :
    (s.ID ≠ 0 → s.RouteVars = .error "GitHubUserSpec ID not supported via HTTP API") ∧
      (s.ID = 0 → s.Login ≠ [] →
        s.RouteVars = .ok [("GitHubUserSpec".toList, s.Login)]) ∧
      (s.ID = 0 → s.Login = [] → s.RouteVars = .error "empty GitHubUserSpec") ∧
      "empty GitHubUserSpec" ≠ "GitHubUserSpec ID not supported via HTTP API" := by
  refine ⟨?_, ?_, ?_, by decide⟩
  · intro hi
    simp [GitHubUserSpec.RouteVars, hi]
  · intro hi hl
    simp [GitHubUserSpec.RouteVars, hi, hl]
  · intro hi hl
    simp [GitHubUserSpec.RouteVars, hi, hl]

/-- C7 at the spec's example and with a Login set as well:
`GitHubUserSpec{ID: 42}` and `GitHubUserSpec{Login: "alice", ID: 42}` both fail
with the unsupported-ID message. -/
theorem C7_github_user_route_vars_witness :
    GitHubUserSpec.RouteVars { ID := 42 } =
        .error "GitHubUserSpec ID not supported via HTTP API" ∧
      GitHubUserSpec.RouteVars { Login := "alice".toList, ID := 42 } =
        .error "GitHubUserSpec ID not supported via HTTP API" :=
  ⟨(C7_github_user_route_vars { ID := 42 }).1 (by decide),
    (C7_github_user_route_vars { Login := "alice".toList, ID := 42 }).1 (by decide)⟩

/-! ## Decoding -/

/-- C8: for every Go `int` n, `ParsePersonSpec` applied to `"$"` followed by
the decimal representation of n returns a nil error and `PersonSpec{UID: n}`,
Email and Login empty. -/
theorem C8_parse_person_uid (n : Int) (h : IsGoInt n) :
    ParsePersonSpec ("$".toList ++ (toString n).toList) =
      ({ Email := [], Login := [], UID := n }, none) := by
  have hp : HasPrefix ('$' :: Itoa n) ['$'] = true := by
    simp [HasPrefix]
  have e1 : "$".toList = ['$'] := rfl
  rw [← Itoa_eq_toString]
  simp [e1, ParsePersonSpec, hp, Atoi_Itoa n h]

/-- C8 at the spec's example: `"$42"` decodes to `PersonSpec{UID: 42}`. -/
theorem C8_parse_person_uid_witness :
    IsGoInt 42 ∧ ParsePersonSpec "$42".toList = ({ UID := 42 }, none) :=
  ⟨by decide, C8_parse_person_uid 42 (by decide)⟩

/-- C9: for every string s that does not start with `"$"`, `ParsePersonSpec(s)`
returns a nil error, and `PersonSpec{Email: s}` if s contains `"@"`, otherwise
`PersonSpec{Login: s}`. -/
theorem C9_parse_person_email_or_login (s : GoString) (h : HasPrefix s "$".toList = false) :
    (ParsePersonSpec s).2 = none ∧
      (Contains s "@".toList = true →
        (ParsePersonSpec s).1 = { Email := s, Login := [], UID := 0 }) ∧
      (Contains s "@".toList = false →
        (ParsePersonSpec s).1 = { Email := [], Login := s, UID := 0 }) := by
  have e1 : "$".toList = ['$'] := rfl
  have e2 : "@".toList = ['@'] := rfl
  simp only [e1, e2] at h ⊢
  cases hc : Contains s ['@'] <;> simp [ParsePersonSpec, h, hc]

/-- C9 at the spec's examples: `"a@b.com"` decodes to
`PersonSpec{Email: "a@b.com"}` and `"alice"` to `PersonSpec{Login: "alice"}`. -/
theorem C9_parse_person_email_or_login_witness :
    ParsePersonSpec "a@b.com".toList = ({ Email := "a@b.com".toList }, none) ∧
      ParsePersonSpec "alice".toList = ({ Login := "alice".toList }, none) :=
  ⟨Prod.ext ((C9_parse_person_email_or_login "a@b.com".toList (by decide)).2.1 (by decide))
      (C9_parse_person_email_or_login "a@b.com".toList (by decide)).1,
    Prod.ext ((C9_parse_person_email_or_login "alice".toList (by decide)).2.2 (by decide))
      (C9_parse_person_email_or_login "alice".toList (by decide)).1⟩

/-- C10: for every string s that starts with `"$"` and whose remainder is not
a decimal integer, `ParsePersonSpec(s)` returns a non-nil error (the function
is total, so it does not panic, and it does not succeed with a zero UID). -/
theorem C10_parse_person_malformed (s : GoString) (h : HasPrefix s "$".toList = true)
    (hd : IsDecimalInteger (s.drop 1) = false) :
    (ParsePersonSpec s).2 ≠ none ∧ ParsePersonSpec s ≠ ({ UID := 0 }, none) := by
  have e1 : "$".toList = ['$'] := rfl
  rw [e1] at h
  have he : (ParsePersonSpec s).2 ≠ none := by
    intro hn
    have h2 : (Atoi (s.drop 1)).2 = none := by
      simpa [ParsePersonSpec, h] using hn
    rw [Atoi_no_error _ h2] at hd
    exact Bool.noConfusion hd
  refine ⟨he, ?_⟩
  intro hz
  exact he (by rw [hz])

/-- C10 at the spec's examples: `"$abc"` and `"$"` decode to a non-nil error. -/
theorem C10_parse_person_malformed_witness :
    (ParsePersonSpec "$abc".toList).2 ≠ none ∧ (ParsePersonSpec "$".toList).2 ≠ none :=
  ⟨(C10_parse_person_malformed "$abc".toList (by decide) (by decide)).1,
    (C10_parse_person_malformed "$".toList (by decide) (by decide)).1⟩

/-! ## `Atoi` on every string -/

theorem parseUintLoop_value (cutoff maxVal : Nat) (cs : GoString) (n : Nat)
    (h : (parseUintLoop cutoff maxVal cs n).2 = none) :
    (parseUintLoop cutoff maxVal cs n).1 = decimalValue cs n := by
  induction cs generalizing n with
  | nil => rfl
  | cons c cs ih =>
    by_cases hc1 : c.isDigit = true
    · simp only [parseUintLoop, hc1, if_true] at h ⊢
      split_ifs at h ⊢ with h1 h2
      simp only [decimalValue]
      exact ih _ h
    · simp [parseUintLoop, hc1] at h

theorem parseUintLoop_le (cutoff maxVal : Nat) (cs : GoString) (n : Nat) (hn : n ≤ maxVal)
    (h : (parseUintLoop cutoff maxVal cs n).2 = none) :
    (parseUintLoop cutoff maxVal cs n).1 ≤ maxVal := by
  induction cs generalizing n with
  | nil => exact hn
  | cons c cs ih =>
    by_cases hc1 : c.isDigit = true
    · simp only [parseUintLoop, hc1, if_true] at h ⊢
      split_ifs at h ⊢ with h1 h2
      exact ih _ (by omega) h
    · simp [parseUintLoop, hc1] at h

/-- `ParseUint` returns a nil error exactly on a non-empty digit string whose
value fits 64 bits, and then returns that value. -/
theorem ParseUint_eq_none_iff (s : GoString) :
    (ParseUint s).2 = none ↔
      (s ≠ [] ∧ (∀ c ∈ s, c.isDigit = true) ∧ decimalValue s 0 < 2 ^ 64) := by
  by_cases hs : s = []
  · simp [ParseUint, hs]
  · constructor
    · intro h
      have h1 : (parseUintLoop (maxUint64 / 10 + 1) (2 ^ intSize - 1) s 0).2 = none := by
        simpa [ParseUint, hs] using h
      refine ⟨hs, parseUintLoop_no_error _ _ s 0 h1, ?_⟩
      have h2 := parseUintLoop_le _ _ s 0 (Nat.zero_le _) h1
      rw [parseUintLoop_value _ _ s 0 h1] at h2
      simp only [intSize] at h2
      omega
    · rintro ⟨_, hd, hv⟩
      have h1 := parseUintLoop_digits (maxUint64 / 10 + 1) (2 ^ intSize - 1)
        (by simp [maxUint64, intSize]) s 0 hd (by simp only [intSize]; omega)
      simp [ParseUint, hs, h1]

theorem ParseUint_value (s : GoString) (h : (ParseUint s).2 = none) :
    (ParseUint s).1 = decimalValue s 0 := by
  by_cases hs : s = []
  · simp [ParseUint, hs] at h
  · have h1 : (parseUintLoop (maxUint64 / 10 + 1) (2 ^ intSize - 1) s 0).2 = none := by
      simpa [ParseUint, hs] using h
    simpa [ParseUint, hs] using parseUintLoop_value _ _ s 0 h1

theorem ParseUint_error (s : GoString) (h : (ParseUint s).2 ≠ none) :
    (ParseUint s).2 = some GoError.ErrSyntax ∨ (ParseUint s).1 = 2 ^ 64 - 1 := by
  by_cases hs : s = []
  · simp [ParseUint, hs]
  · have h1 : (parseUintLoop (maxUint64 / 10 + 1) (2 ^ intSize - 1) s 0).2 ≠ none := by
      simpa [ParseUint, hs] using h
    simpa [ParseUint, hs, intSize] using parseUintLoop_error _ _ s 0 h1

/-- `ParseInt` in terms of the result `r` of `ParseUint` on the string without
its sign. -/
theorem ParseInt_cons (c : Char) (cs : GoString) :
    ParseInt (c :: cs) =
      (let r := ParseUint (if (c == '+' || c == '-') = true then cs else c :: cs)
       if r.2 = some GoError.ErrSyntax then (0, r.2)
       else if (!(c == '-') && decide (r.1 ≥ 2 ^ 63)) = true then
         ((2 ^ 63 : Int) - 1, some GoError.ErrRange)
       else if ((c == '-') && decide (r.1 > 2 ^ 63)) = true then
         (-(2 ^ 63 : Int), some GoError.ErrRange)
       else (if (c == '-') = true then -(r.1 : Int) else (r.1 : Int), none)) := by
  simp [ParseInt, intSize]

/-- The range check of `ParseInt` after the sign `neg` has been taken off:
the error is nil exactly when the rest is a non-empty digit string whose signed
value fits a Go `int`, and the result is then that signed value. -/
theorem ParseInt_signed (neg : Bool) (s1 : GoString) (res : Int × Option GoError)
    (hres : res =
      (if (ParseUint s1).2 = some GoError.ErrSyntax then (0, (ParseUint s1).2)
       else if (!neg && decide ((ParseUint s1).1 ≥ 2 ^ 63)) = true then
         ((2 ^ 63 : Int) - 1, some GoError.ErrRange)
       else if (neg && decide ((ParseUint s1).1 > 2 ^ 63)) = true then
         (-(2 ^ 63 : Int), some GoError.ErrRange)
       else (if neg = true then -((ParseUint s1).1 : Int) else ((ParseUint s1).1 : Int), none))) :
    (res.2 = none ↔
        (s1 ≠ [] ∧ (∀ c ∈ s1, c.isDigit = true) ∧
          IsGoInt (if neg = true then -(decimalValue s1 0 : Int) else (decimalValue s1 0 : Int)))) ∧
      (res.2 = none →
        res.1 = (if neg = true then -(decimalValue s1 0 : Int) else (decimalValue s1 0 : Int))) := by
  by_cases hu : (ParseUint s1).2 = none
  · have hv := ParseUint_value s1 hu
    obtain ⟨hne, hd, hlt⟩ := (ParseUint_eq_none_iff s1).1 hu
    have hsyn : ¬ (ParseUint s1).2 = some GoError.ErrSyntax := by simp [hu]
    rw [hv] at hres
    simp only [hsyn, if_false] at hres
    subst hres
    have e1 : (64 : Nat) - 1 = 63 := rfl
    simp only [IsGoInt, minInt, maxInt, intSize, e1]
    cases neg
    · simp only [Bool.not_false, Bool.true_and, Bool.false_and, decide_eq_true_eq,
        Bool.false_eq_true, if_false]
      by_cases hb : decimalValue s1 0 ≥ 2 ^ 63
      · simp only [hb, if_true]
        refine ⟨⟨fun h => by simp at h, ?_⟩, fun h => by simp at h⟩
        rintro ⟨_, _, _, h2⟩
        exfalso
        omega
      · simp only [hb, if_false]
        exact ⟨⟨fun _ => ⟨hne, hd, by omega, by omega⟩, fun _ => trivial⟩, fun _ => trivial⟩
    · simp only [Bool.not_true, Bool.true_and, Bool.false_and, decide_eq_true_eq,
        Bool.false_eq_true, if_false, if_true]
      by_cases hb : decimalValue s1 0 > 2 ^ 63
      · simp only [hb, if_true]
        refine ⟨⟨fun h => by simp at h, ?_⟩, fun h => by simp at h⟩
        rintro ⟨_, _, h1, _⟩
        exfalso
        omega
      · simp only [hb, if_false]
        exact ⟨⟨fun _ => ⟨hne, hd, by omega, by omega⟩, fun _ => trivial⟩, fun _ => trivial⟩
  · have hnot : ¬ (s1 ≠ [] ∧ (∀ c ∈ s1, c.isDigit = true) ∧ decimalValue s1 0 < 2 ^ 64) :=
      fun h => hu ((ParseUint_eq_none_iff s1).2 h)
    have hres2 : res.2 ≠ none := by
      rcases ParseUint_error s1 hu with he | he
      · simp [hres, he]
      · rw [he] at hres
        by_cases hsyn : (ParseUint s1).2 = some GoError.ErrSyntax
        · simp [hres, hsyn]
        · cases neg <;> simp [hres, hsyn]
    refine ⟨⟨fun h => absurd h hres2, ?_⟩, fun h => absurd h hres2⟩
    rintro ⟨hne, hd, hi⟩
    exfalso
    apply hnot
    refine ⟨hne, hd, ?_⟩
    simp only [IsGoInt, minInt, maxInt, intSize] at hi
    cases neg <;> simp at hi <;> omega

theorem decimalIntValue_cons (c : Char) (cs : GoString) :
    decimalIntValue (c :: cs) =
      (if (c == '-') = true then
        -(decimalValue (if (c == '+' || c == '-') = true then cs else c :: cs) 0 : Int)
       else (decimalValue (if (c == '+' || c == '-') = true then cs else c :: cs) 0 : Int)) := by
  cases hm : (c == '-') <;> cases hp : (c == '+') <;> simp [decimalIntValue, hm, hp]

theorem IsDecimalInteger_cons (c : Char) (cs : GoString) :
    IsDecimalInteger (c :: cs) = true ↔
      ((if (c == '+' || c == '-') = true then cs else c :: cs) ≠ [] ∧
        ∀ d ∈ (if (c == '+' || c == '-') = true then cs else c :: cs), d.isDigit = true) := by
  simp only [IsDecimalInteger]
  generalize (if (c == '+' || c == '-') = true then cs else c :: cs) = s1
  cases s1 <;> simp [List.all_eq_true]

/-- `Atoi` returns a nil error exactly on the decimal integers whose value fits
a Go `int`. -/
theorem Atoi_eq_none_iff (s : GoString) :
    (Atoi s).2 = none ↔ (IsDecimalInteger s = true ∧ IsGoInt (decimalIntValue s)) := by
  match s with
  | [] => simp [Atoi, ParseInt, IsDecimalInteger]
  | c :: cs =>
    have h := (ParseInt_signed (c == '-') _ (ParseInt (c :: cs)) (ParseInt_cons c cs)).1
    rw [Atoi, h, IsDecimalInteger_cons, decimalIntValue_cons, and_assoc]

/-- When `Atoi` returns a nil error, its result is the value of the decimal
integer. -/
theorem Atoi_value (s : GoString) (h : (Atoi s).2 = none) : (Atoi s).1 = decimalIntValue s := by
  match s with
  | [] => simp [Atoi, ParseInt] at h
  | c :: cs =>
    have h2 := (ParseInt_signed (c == '-') _ (ParseInt (c :: cs)) (ParseInt_cons c cs)).2 h
    rw [Atoi, h2, decimalIntValue_cons]

/-! ## Decoding a repository specifier -/

/-- C11: for every string s that does not start with `"R$"`,
`ParseRepositorySpec2(s)` returns an error if and only if s is empty (the
error "empty repository spec", with the zero spec), and for every non-empty
such s it returns `RepositorySpec2{URI: s}` with RID 0 and a nil error. -/
theorem C11_parse_repository_uri (s : GoString) (h : HasPrefix s "R$".toList = false) :
    ((ParseRepositorySpec2 s).2 ≠ none ↔ s = []) ∧
      (s ≠ [] → ParseRepositorySpec2 s = ({ URI := s, RID := 0 }, none)) ∧
      (s = [] → ParseRepositorySpec2 s = ({}, some (GoError.New "empty repository spec"))) := by
  have e1 : "R$".toList = ['R', '$'] := rfl
  rw [e1] at h
  by_cases hs : s = []
  · simp [ParseRepositorySpec2, hs]
  · simp [ParseRepositorySpec2, hs, h]

/-- Witness for C11 at `"r.com/x"`, which decodes to
`RepositorySpec2{URI: "r.com/x"}`. -/
theorem C11_parse_repository_uri_witness :
    ParseRepositorySpec2 "r.com/x".toList = ({ URI := "r.com/x".toList, RID := 0 }, none) :=
  (C11_parse_repository_uri "r.com/x".toList (by decide)).2.1 (by decide)

/-- C12 (as stated, refuted): `"R$9223372036854775808"` starts with `"R$"` and
its remainder is a decimal integer, and `ParseRepositorySpec2` returns a
non-nil error on it (the range error of `strconv.Atoi`, with RID clamped to the
largest `int`). -/
theorem C12_counterexample :
    HasPrefix "R$9223372036854775808".toList "R$".toList = true ∧
      IsDecimalInteger ("R$9223372036854775808".toList.drop 2) = true ∧
      ParseRepositorySpec2 "R$9223372036854775808".toList =
        ({ RID := 9223372036854775807 }, some GoError.ErrRange) := by
  decide

/-- C12 (amended): for every string s that starts with `"R$"`,
`ParseRepositorySpec2(s)` returns a nil error if and only if the remainder
after `"R$"` is a decimal integer whose value fits a Go `int`, and then returns
`RepositorySpec2{RID: n}` with URI empty, n being that value; otherwise the
error is non-nil. -/
theorem C12_parse_repository_rid (s : GoString) (h : HasPrefix s "R$".toList = true) :
    ((ParseRepositorySpec2 s).2 = none ↔
        (IsDecimalInteger (s.drop 2) = true ∧ IsGoInt (decimalIntValue (s.drop 2)))) ∧
      ((ParseRepositorySpec2 s).2 = none →
        (ParseRepositorySpec2 s).1 = { URI := [], RID := decimalIntValue (s.drop 2) }) := by
  have e1 : "R$".toList = ['R', '$'] := rfl
  rw [e1] at h
  have hs : s ≠ [] := by
    rintro rfl
    simp [HasPrefix] at h
  have hp : ParseRepositorySpec2 s = ({ RID := (Atoi (s.drop 2)).1 }, (Atoi (s.drop 2)).2) := by
    simp [ParseRepositorySpec2, hs, h]
  rw [hp]
  refine ⟨Atoi_eq_none_iff _, ?_⟩
  intro hn
  simp only [Atoi_value _ hn]

/-- Witness for C12 (amended) at the spec's example: `"R$7"` decodes to
`RepositorySpec2{RID: 7}`. -/
theorem C12_parse_repository_rid_witness :
    (ParseRepositorySpec2 "R$7".toList).2 = none ∧
      (ParseRepositorySpec2 "R$7".toList).1 = { URI := [], RID := 7 } :=
  ⟨(C12_parse_repository_rid "R$7".toList (by decide)).1.2 ⟨by decide, by decide⟩,
    (C12_parse_repository_rid "R$7".toList (by decide)).2 (by decide)⟩

/-! ## Route variables -/

/-- C13: for every `RepoRevSpec` with non-empty URI and RID = 0, `RouteVars`
returns exactly the map `{"RepoURI": URI, "Rev": Rev}` when Rev is non-empty,
and exactly the map `{"RepoURI": URI}`, with no `"Rev"` key, when Rev is
empty. -/
theorem C13_repo_rev_route_vars (s : RepoRevSpec) (_hu : s.URI ≠ []) (hr : s.RID = 0) :
    (s.Rev ≠ [] →
        s.RouteVars = .ok [("RepoURI".toList, s.URI), ("Rev".toList, s.Rev)]) ∧
      (s.Rev = [] →
        s.RouteVars = .ok [("RepoURI".toList, s.URI)] ∧
          List.lookup "Rev".toList [("RepoURI".toList, s.URI)] = none) := by
  constructor
  · intro hv
    simp only [RepoRevSpec.RouteVars, RepositorySpec2.RouteVars, hr, ne_eq, not_true_eq_false,
      if_false, hv, not_false_eq_true, if_true]
    rfl
  · intro hv
    refine ⟨?_, rfl⟩
    simp [RepoRevSpec.RouteVars, RepositorySpec2.RouteVars, hr, hv]

/-- Witness for C13 at the spec's example:
`RepoRevSpec{RepositorySpec2{URI: "r.com/x"}, Rev: "abc"}` projects to
`{"RepoURI": "r.com/x", "Rev": "abc"}`. -/
theorem C13_repo_rev_route_vars_witness :
    RepoRevSpec.RouteVars { URI := "r.com/x".toList, Rev := "abc".toList } =
      .ok [("RepoURI".toList, "r.com/x".toList), ("Rev".toList, "abc".toList)] :=
  (C13_repo_rev_route_vars { URI := "r.com/x".toList, Rev := "abc".toList }
    (by decide) (by decide)).1 (by decide)

/-- C14 (as stated, refuted): on `RepositorySpec2{URI: "r.com/x", RID: 5}`
`PathComponent` succeeds, with `"r.com/x"`, and `RouteVars` panics with
"RID not supported yet". -/
theorem C14_counterexample :
    RepositorySpec2.PathComponent { URI := "r.com/x".toList, RID := 5 } = .ok "r.com/x".toList ∧
      RepositorySpec2.RouteVars { URI := "r.com/x".toList, RID := 5 } =
        .error "RID not supported yet" := by
  decide

/-- C14 (amended): `RepositorySpec2.RouteVars` has a failure of its own, which
the encode step does not have: it panics with "RID not supported yet" whenever
RID is non-zero. When RID is zero and URI is non-empty, `PathComponent`
succeeds and `RouteVars` returns the map `{"RepoURI": s.PathComponent()}`. -/
theorem C14_repository_route_vars (s : RepositorySpec2) :
    (s.RID ≠ 0 → s.RouteVars = .error "RID not supported yet") ∧
      (s.RID = 0 → s.URI ≠ [] →
        ∃ p, s.PathComponent = .ok p ∧ s.RouteVars = .ok [("RepoURI".toList, p)]) := by
  constructor
  · intro hr
    simp [RepositorySpec2.RouteVars, hr]
  · intro hr hu
    exact ⟨s.URI, by simp [RepositorySpec2.PathComponent, hu],
      by simp [RepositorySpec2.RouteVars, hr]⟩

/-- Witness for C14 (amended) at `RepositorySpec2{URI: "r.com/x"}`. -/
theorem C14_repository_route_vars_witness :
    ∃ p, RepositorySpec2.PathComponent { URI := "r.com/x".toList } = .ok p ∧
      RepositorySpec2.RouteVars { URI := "r.com/x".toList } = .ok [("RepoURI".toList, p)] :=
  (C14_repository_route_vars { URI := "r.com/x".toList }).2 (by decide) (by decide)

/-- C15: `UnmarshalRepoRevSpec(m)` decodes the repository from `m["RepoURI"]`
with `ParseRepositorySpec2` and attaches `Rev = m["Rev"]` (the empty string
when the key is absent). Its error is the error of
`ParseRepositorySpec2(m["RepoURI"])`; when that error is non-nil, in particular
when the key is absent or its value empty, the returned `RepoRevSpec` is the
zero value whatever `m["Rev"]` is. -/
theorem C15_unmarshal_repo_rev_spec (m : RouteMap) :
    (UnmarshalRepoRevSpec m).2 = (ParseRepositorySpec2 (RouteMap.index m "RepoURI".toList)).2 ∧
      ((ParseRepositorySpec2 (RouteMap.index m "RepoURI".toList)).2 = none →
        (UnmarshalRepoRevSpec m).1 =
          { toRepositorySpec2 := (ParseRepositorySpec2 (RouteMap.index m "RepoURI".toList)).1,
            Rev := RouteMap.index m "Rev".toList }) ∧
      ((ParseRepositorySpec2 (RouteMap.index m "RepoURI".toList)).2 ≠ none →
        (UnmarshalRepoRevSpec m).1 = {}) ∧
      (RouteMap.index m "RepoURI".toList = [] → (UnmarshalRepoRevSpec m).2 ≠ none) ∧
      (List.lookup "RepoURI".toList m = none → (UnmarshalRepoRevSpec m).2 ≠ none) ∧
      (List.lookup "Rev".toList m = none → RouteMap.index m "Rev".toList = []) := by
  have hempty : ∀ k : GoString, RouteMap.index m k = [] →
      (ParseRepositorySpec2 (RouteMap.index m k)).2 ≠ none := by
    intro k hk
    simp [hk, ParseRepositorySpec2]
  have habsent : ∀ k : GoString, List.lookup k m = none → RouteMap.index m k = [] := by
    intro k hk
    simp [RouteMap.index, hk]
  by_cases he : (ParseRepositorySpec2 (RouteMap.index m "RepoURI".toList)).2 = none
  · have hu : UnmarshalRepoRevSpec m =
        ({ toRepositorySpec2 := (ParseRepositorySpec2 (RouteMap.index m "RepoURI".toList)).1,
           Rev := RouteMap.index m "Rev".toList }, none) := by
      simp only [UnmarshalRepoRevSpec, UnmarshalRepositorySpec2, he, ne_eq, not_true_eq_false,
        if_false]
    rw [hu]
    exact ⟨he.symm, fun _ => rfl, fun h => absurd he h, fun h => absurd he (hempty _ h),
      fun h => absurd he (hempty _ (habsent _ h)), habsent _⟩
  · have hu : UnmarshalRepoRevSpec m =
        ({}, (ParseRepositorySpec2 (RouteMap.index m "RepoURI".toList)).2) := by
      simp only [UnmarshalRepoRevSpec, UnmarshalRepositorySpec2, he, ne_eq, not_false_eq_true,
        if_true]
    rw [hu]
    exact ⟨rfl, fun h => absurd h he, fun _ => rfl, fun _ => he, fun _ => he, habsent _⟩

/-- C15 on concrete maps: `{"RepoURI": "r.com/x", "Rev": "abc"}` decodes to
the spec with that URI and Rev, and `{"Rev": "abc"}`, which has no `"RepoURI"`
key, to the zero value with a non-nil error. -/
theorem C15_unmarshal_repo_rev_spec_witness :
    (UnmarshalRepoRevSpec [("RepoURI".toList, "r.com/x".toList), ("Rev".toList, "abc".toList)]).1 =
        { URI := "r.com/x".toList, Rev := "abc".toList } ∧
      (UnmarshalRepoRevSpec [("Rev".toList, "abc".toList)]).1 = {} ∧
      (UnmarshalRepoRevSpec [("Rev".toList, "abc".toList)]).2 ≠ none :=
  ⟨(C15_unmarshal_repo_rev_spec
      [("RepoURI".toList, "r.com/x".toList), ("Rev".toList, "abc".toList)]).2.1 (by decide),
    (C15_unmarshal_repo_rev_spec [("Rev".toList, "abc".toList)]).2.2.1 (by decide),
    (C15_unmarshal_repo_rev_spec [("Rev".toList, "abc".toList)]).2.2.2.2.1 (by decide)⟩

theorem UnmarshalRepositorySpec2_singleton (u : GoString) :
    UnmarshalRepositorySpec2 [("RepoURI".toList, u)] = ParseRepositorySpec2 u := by
  simp [UnmarshalRepositorySpec2, RouteMap.index, List.lookup]

theorem ParseRepositorySpec2_eq_uri_iff (u : GoString) (rid : Int) :
    ParseRepositorySpec2 u = ({ URI := u, RID := rid }, none) ↔
      (rid = 0 ∧ u ≠ [] ∧ HasPrefix u "R$".toList = false) := by
  have e1 : "R$".toList = ['R', '$'] := rfl
  rw [e1]
  by_cases hu : u = []
  · simp [ParseRepositorySpec2, hu]
  · cases hp : HasPrefix u ['R', '$']
    · simp [ParseRepositorySpec2, hu, hp, eq_comm]
    · simp [ParseRepositorySpec2, hu, hp, Ne.symm hu]

/-- C16 (as stated, refuted): `RouteVars` succeeds on
`RepoRevSpec{RepositorySpec2{URI: "R$5"}, Rev: "abc"}`, with
`{"RepoURI": "R$5", "Rev": "abc"}`, and `UnmarshalRepoRevSpec` of that map
returns the spec with RID 5 and an empty URI, not the spec that was
projected. -/
theorem C16_counterexample :
    RepoRevSpec.RouteVars { URI := "R$5".toList, Rev := "abc".toList } =
        .ok [("RepoURI".toList, "R$5".toList), ("Rev".toList, "abc".toList)] ∧
      UnmarshalRepoRevSpec [("RepoURI".toList, "R$5".toList), ("Rev".toList, "abc".toList)] =
        ({ RID := 5, Rev := "abc".toList }, none) ∧
      UnmarshalRepoRevSpec [("RepoURI".toList, "R$5".toList), ("Rev".toList, "abc".toList)] ≠
        ({ URI := "R$5".toList, Rev := "abc".toList }, none) := by
  decide

/-- C16 (amended): for every `RepoRevSpec` s, `RouteVars` succeeds and
`UnmarshalRepoRevSpec(s.RouteVars())` returns `(s, nil)` if and only if RID is
zero and URI is non-empty and does not start with `"R$"`; likewise for
`UnmarshalRepositorySpec2(r.RouteVars())` on the embedded `RepositorySpec2`. -/
theorem C16_route_vars_round_trip_iff (s : RepoRevSpec) :
    ((∃ m, s.RouteVars = .ok m ∧ UnmarshalRepoRevSpec m = (s, none)) ↔
        (s.RID = 0 ∧ s.URI ≠ [] ∧ HasPrefix s.URI "R$".toList = false)) ∧
      ((∃ m, s.toRepositorySpec2.RouteVars = .ok m ∧
          UnmarshalRepositorySpec2 m = (s.toRepositorySpec2, none)) ↔
        (s.RID = 0 ∧ s.URI ≠ [] ∧ HasPrefix s.URI "R$".toList = false)) := by
  obtain ⟨⟨uri, rid⟩, rev⟩ := s
  simp only
  by_cases hr : rid = 0
  · subst hr
    have h2 : RepositorySpec2.RouteVars { URI := uri, RID := 0 } =
        .ok [("RepoURI".toList, uri)] := by
      simp [RepositorySpec2.RouteVars]
    have hiff := ParseRepositorySpec2_eq_uri_iff uri 0
    constructor
    · by_cases hv : rev = []
      · subst hv
        have h1 : RepoRevSpec.RouteVars { URI := uri, RID := 0, Rev := [] } =
            .ok [("RepoURI".toList, uri)] := by
          simp [RepoRevSpec.RouteVars, RepositorySpec2.RouteVars]
        have h3 : UnmarshalRepoRevSpec [("RepoURI".toList, uri)] =
            (if (ParseRepositorySpec2 uri).2 ≠ none then ({}, (ParseRepositorySpec2 uri).2)
             else ({ toRepositorySpec2 := (ParseRepositorySpec2 uri).1, Rev := [] }, none)) := by
          simp only [UnmarshalRepoRevSpec, UnmarshalRepositorySpec2_singleton]
          rfl
        rw [h1, ← hiff]
        simp only [Except.ok.injEq, exists_eq_left', h3]
        by_cases he : (ParseRepositorySpec2 uri).2 = none
        · simp only [he, ne_eq, not_true_eq_false, if_false, Prod.mk.injEq, and_true,
            RepoRevSpec.mk.injEq]
          constructor
          · intro h
            exact Prod.ext h he
          · intro h
            rw [h]
        · simp only [he, ne_eq, not_false_eq_true, if_true, Prod.mk.injEq]
          constructor
          · intro h
            exact h.2.elim
          · intro h
            rw [h] at he
            exact absurd rfl he
      · have h1 : RepoRevSpec.RouteVars { URI := uri, RID := 0, Rev := rev } =
            .ok [("RepoURI".toList, uri), ("Rev".toList, rev)] := by
          simp only [RepoRevSpec.RouteVars, RepositorySpec2.RouteVars, ne_eq, not_true_eq_false,
            if_false, hv, not_false_eq_true, if_true]
          rfl
        have h3 : UnmarshalRepoRevSpec [("RepoURI".toList, uri), ("Rev".toList, rev)] =
            (if (ParseRepositorySpec2 uri).2 ≠ none then ({}, (ParseRepositorySpec2 uri).2)
             else ({ toRepositorySpec2 := (ParseRepositorySpec2 uri).1, Rev := rev }, none)) := by
          rfl
        rw [h1, ← hiff]
        simp only [Except.ok.injEq, exists_eq_left', h3]
        by_cases he : (ParseRepositorySpec2 uri).2 = none
        · simp only [he, ne_eq, not_true_eq_false, if_false, Prod.mk.injEq, and_true,
            RepoRevSpec.mk.injEq]
          constructor
          · intro h
            exact Prod.ext h he
          · intro h
            rw [h]
        · simp only [he, ne_eq, not_false_eq_true, if_true, Prod.mk.injEq]
          constructor
          · intro h
            exact h.2.elim
          · intro h
            rw [h] at he
            exact absurd rfl he
    · rw [h2, ← hiff]
      simp only [Except.ok.injEq, exists_eq_left', UnmarshalRepositorySpec2_singleton]
  · have h1 : RepoRevSpec.RouteVars { URI := uri, RID := rid, Rev := rev } =
        .error "RID not supported yet" := by
      simp [RepoRevSpec.RouteVars, RepositorySpec2.RouteVars, hr]
    have h2 : RepositorySpec2.RouteVars { URI := uri, RID := rid } =
        .error "RID not supported yet" := by
      simp [RepositorySpec2.RouteVars, hr]
    rw [h1, h2]
    simp [hr]

/-! ## Services and errors -/

/-- C17 (the code at the failing input): `MockPeopleService.GetSettings` with
the hook `GetSettings_` unset returns a nil error together with a nil
`*PersonSettings`, for every person. -/
theorem C17_mock_get_settings_nil (T : ApiTypes) (person : PersonSpec) :
    MockPeopleService.GetSettings ({} : MockPeopleService T) person = (none, none, none) ∧
      (MockPeopleService.GetSettings ({} : MockPeopleService T) person).2.2 = none ∧
      (MockPeopleService.GetSettings ({} : MockPeopleService T) person).1 = none :=
  ⟨rfl, rfl, rfl⟩

/-- C18 (the code at the failing input): `IsNotPresent` returns false on an
`ErrRedirect` value; it returns true exactly on `ErrNotExist` and
`ErrNotPersisted`. -/
theorem C18_is_not_present_redirect :
    IsNotPresent (some (RepoError.ErrRedirect "r.com/x".toList)) = false ∧
      (∀ uri : GoString, IsNotPresent (some (RepoError.ErrRedirect uri)) = false) ∧
      (∀ err : Option RepoError, IsNotPresent err = true ↔
        (err = some RepoError.ErrNotExist ∨ err = some RepoError.ErrNotPersisted)) := by
  refine ⟨by decide, fun uri => by simp [IsNotPresent], fun err => ?_⟩
  simp [IsNotPresent]

theorem map_lower_of_ascii (lower : Char → Char) (hl : LowerOnASCII lower) (l : GoString)
    (h : ∀ c ∈ l, c.toNat < 128) : l.map lower = l.map Char.toLower :=
  List.map_congr_left (fun c hc => hl c (h c hc))

theorem HasPrefix_map_iff (lower : Char → Char) (u pre : GoString)
    (hp : pre.map lower = pre) :
    HasPrefix (ToLower lower u) pre = true ↔ StartsWithIgnoringCase lower u pre := by
  simp only [HasPrefix, ToLower, StartsWithIgnoringCase, Bool.and_eq_true, decide_eq_true_eq,
    List.length_map, beq_iff_eq, List.map_take, hp]

/-- C19: `URI.IsGitHubRepository` is true if and only if the URI starts with
`"github.com/"` when case is ignored, and `URI.IsGoogleCodeRepository` if and
only if it starts with `"code.google.com/p/"` when case is ignored;
`"GitHub.com/a/b"` is accepted, `"github.com"` and `"github.com.evil/x"` are
rejected. -/
theorem C19_uri_host_checks (lower : Char → Char) (hl : LowerOnASCII lower) (u : GoString) :
    (URI.IsGitHubRepository lower u = true ↔
        StartsWithIgnoringCase lower u "github.com/".toList) ∧
      (URI.IsGoogleCodeRepository lower u = true ↔
        StartsWithIgnoringCase lower u "code.google.com/p/".toList) ∧
      URI.IsGitHubRepository lower "GitHub.com/a/b".toList = true ∧
      URI.IsGitHubRepository lower "github.com".toList = false ∧
      URI.IsGitHubRepository lower "github.com.evil/x".toList = false := by
  have h1 : ("github.com/".toList).map lower = "github.com/".toList := by
    rw [map_lower_of_ascii lower hl _ (by decide)]
    decide
  have h2 : ("code.google.com/p/".toList).map lower = "code.google.com/p/".toList := by
    rw [map_lower_of_ascii lower hl _ (by decide)]
    decide
  refine ⟨HasPrefix_map_iff lower u _ h1, HasPrefix_map_iff lower u _ h2, ?_, ?_, ?_⟩
  · simp only [URI.IsGitHubRepository, ToLower]
    rw [map_lower_of_ascii lower hl _ (by decide)]
    decide
  · simp only [URI.IsGitHubRepository, ToLower]
    rw [map_lower_of_ascii lower hl _ (by decide)]
    decide
  · simp only [URI.IsGitHubRepository, ToLower]
    rw [map_lower_of_ascii lower hl _ (by decide)]
    decide

/-- Witness for C19 with the ASCII lower-casing as the table: `"GitHub.com/a/b"`
starts with `"github.com/"` when case is ignored and is accepted. -/
theorem C19_uri_host_checks_witness :
    LowerOnASCII Char.toLower ∧
      StartsWithIgnoringCase Char.toLower "GitHub.com/a/b".toList "github.com/".toList ∧
      URI.IsGitHubRepository Char.toLower "GitHub.com/a/b".toList = true :=
  ⟨fun _ _ => rfl,
    (C19_uri_host_checks Char.toLower (fun _ _ => rfl) "GitHub.com/a/b".toList).1.1 (by decide),
    by decide⟩

/-- C20: under the sigil assumption the `PersonSpec` round trip holds. For
every `PersonSpec` with exactly one field set such that the Email, if set,
contains `"@"` and does not start with `"$"`, the Login, if set, contains no
`"@"` and does not start with `"$"`, and the UID, if set, is positive,
`ParsePersonSpec(spec.PathComponent())` returns `(spec, nil)`. -/
theorem C20_person_round_trip_under_sigil_assumption (s : PersonSpec)
    (h : s.ExactlyOneSet) (hi : IsGoInt s.UID)
    (hemail : s.Email ≠ [] →
      Contains s.Email "@".toList = true ∧ HasPrefix s.Email "$".toList = false)
    (hlogin : s.Login ≠ [] →
      Contains s.Login "@".toList = false ∧ HasPrefix s.Login "$".toList = false) :
    ∃ p, s.PathComponent = .ok p ∧ ParsePersonSpec p = (s, none) := by
  have e1 : "$".toList = ['$'] := rfl
  have e2 : "@".toList = ['@'] := rfl
  rw [e1, e2] at hemail hlogin
  obtain ⟨e, l, u⟩ := s
  rcases h with ⟨he, hl, hu⟩ | ⟨he, hl, hu⟩ | ⟨he, hl, hu⟩ <;> simp only at he hl hu hi hemail hlogin
  · subst hl hu
    obtain ⟨hc, hp⟩ := hemail he
    exact ⟨e, by simp [PersonSpec.PathComponent, he], by simp [ParsePersonSpec, hc, hp]⟩
  · subst he hu
    obtain ⟨hc, hp⟩ := hlogin hl
    exact ⟨l, by simp [PersonSpec.PathComponent, hl], by simp [ParsePersonSpec, hc, hp]⟩
  · subst he hl
    have hp : HasPrefix ('$' :: Itoa u) ['$'] = true := by
      simp [HasPrefix]
    exact ⟨'$' :: Itoa u, by simp [PersonSpec.PathComponent, hu],
      by simp [ParsePersonSpec, hp, Atoi_Itoa u hi]⟩

/-- Witness for C20 at `PersonSpec{Login: "alice"}` and at
`PersonSpec{UID: 42}`. -/
theorem C20_person_round_trip_under_sigil_assumption_witness :
    (∃ p, PersonSpec.PathComponent { Login := "alice".toList } = .ok p ∧
        ParsePersonSpec p = ({ Login := "alice".toList }, none)) ∧
      (∃ p, PersonSpec.PathComponent { UID := 42 } = .ok p ∧
        ParsePersonSpec p = ({ UID := 42 }, none)) :=
  ⟨C20_person_round_trip_under_sigil_assumption { Login := "alice".toList } (by decide)
      (by decide) (fun h => absurd rfl h) (fun _ => by decide),
    C20_person_round_trip_under_sigil_assumption { UID := 42 } (by decide)
      (by decide) (fun h => absurd rfl h) (fun h => absurd rfl h)⟩

/-! ## Round trips under the sigil assumption, and the converse direction -/

/-- C21: under the sigil assumption the `RepositorySpec2` round trip holds. For
every `RepositorySpec2` that either has RID = 0 and a non-empty URI not
starting with `"R$"`, or has an empty URI and RID > 0,
`ParseRepositorySpec2(spec.PathComponent())` returns `(spec, nil)`. -/
theorem C21_repository_round_trip_under_sigil_assumption (s : RepositorySpec2)
    (hi : IsGoInt s.RID)
    (h : (s.RID = 0 ∧ s.URI ≠ [] ∧ HasPrefix s.URI "R$".toList = false) ∨
      (s.URI = [] ∧ s.RID > 0)) :
    ∃ p, s.PathComponent = .ok p ∧ ParseRepositorySpec2 p = (s, none) := by
  have e1 : "R$".toList = ['R', '$'] := rfl
  rw [e1] at h
  obtain ⟨uri, rid⟩ := s
  rcases h with ⟨hr, hu, hp⟩ | ⟨hu, hr⟩ <;> simp only at hr hu hi
  · simp only at hp
    subst hr
    exact ⟨uri, by simp [RepositorySpec2.PathComponent, hu],
      by simp [ParseRepositorySpec2, hu, hp]⟩
  · subst hu
    have hp : HasPrefix ('R' :: '$' :: Itoa rid) ['R', '$'] = true := by
      simp [HasPrefix]
    exact ⟨'R' :: '$' :: Itoa rid, by simp [RepositorySpec2.PathComponent, hr],
      by simp [ParseRepositorySpec2, hp, Atoi_Itoa rid hi]⟩

/-- Witness for C21 at `RepositorySpec2{URI: "r.com/x"}` and at
`RepositorySpec2{RID: 7}`. -/
theorem C21_repository_round_trip_under_sigil_assumption_witness :
    (∃ p, RepositorySpec2.PathComponent { URI := "r.com/x".toList } = .ok p ∧
        ParseRepositorySpec2 p = ({ URI := "r.com/x".toList }, none)) ∧
      (∃ p, RepositorySpec2.PathComponent { RID := 7 } = .ok p ∧
        ParseRepositorySpec2 p = ({ RID := 7 }, none)) :=
  ⟨C21_repository_round_trip_under_sigil_assumption { URI := "r.com/x".toList } (by decide)
      (Or.inl (by decide)),
    C21_repository_round_trip_under_sigil_assumption { RID := 7 } (by decide)
      (Or.inr (by decide))⟩

/-- C24 (as stated, refuted): `ParsePersonSpec("$007")` returns
`PersonSpec{UID: 7}` and a nil error, and `PathComponent` of that spec returns
`"$7"`, not `"$007"`; `ParsePersonSpec("")` returns `PersonSpec{Login: ""}` and
a nil error, and `PathComponent` of that spec panics. -/
theorem C24_counterexample :
    ParsePersonSpec "$007".toList = ({ UID := 7 }, none) ∧
      PersonSpec.PathComponent { UID := 7 } = .ok "$7".toList ∧
      "$7".toList ≠ "$007".toList ∧
      ParsePersonSpec "".toList = ({ Login := "".toList }, none) ∧
      PersonSpec.PathComponent { Login := "".toList } = .error "empty PersonSpec" := by
  decide

/-- C24 (amended): for every string s on which `ParsePersonSpec(s)` returns a
nil error, `PathComponent` of the returned `PersonSpec` returns s if and only
if s is non-empty and does not start with `"$"`, or s is `"$"` followed by the
decimal representation, as `strconv.Itoa` writes it, of a positive `int`. -/
theorem C24_person_decode_encode_iff (s : GoString) (h : (ParsePersonSpec s).2 = none) :
    (ParsePersonSpec s).1.PathComponent = .ok s ↔
      ((HasPrefix s "$".toList = false ∧ s ≠ []) ∨
        (∃ n : Int, n > 0 ∧ IsGoInt n ∧ s = "$".toList ++ Itoa n)) := by
  have e1 : "$".toList = ['$'] := rfl
  rw [e1]
  cases hp : HasPrefix s ['$']
  · have hno : ¬ ∃ n : Int, n > 0 ∧ IsGoInt n ∧ s = ['$'] ++ Itoa n := by
      rintro ⟨n, _, _, rfl⟩
      simp [HasPrefix] at hp
    by_cases hs : s = []
    · subst hs
      simp [ParsePersonSpec, HasPrefix, Contains, PersonSpec.PathComponent]
    · cases hc : Contains s "@".toList
      · have hc2 : Contains s ['@'] = false := hc
        simp [ParsePersonSpec, hp, hc2, PersonSpec.PathComponent, hs, hno]
      · have hc2 : Contains s ['@'] = true := hc
        simp [ParsePersonSpec, hp, hc2, PersonSpec.PathComponent, hs, hno]
  · have hparse : ParsePersonSpec s = ({ UID := (Atoi (s.drop 1)).1 }, (Atoi (s.drop 1)).2) := by
      simp [ParsePersonSpec, hp]
    rw [hparse] at h ⊢
    simp only at h
    have hint := ((Atoi_eq_none_iff _).1 h).2
    rw [← Atoi_value _ h] at hint
    simp only [Bool.true_eq_false, false_and, false_or]
    constructor
    · intro hpc
      by_cases hpos : (Atoi (s.drop 1)).1 > 0
      · refine ⟨_, hpos, hint, ?_⟩
        simp only [PersonSpec.PathComponent, ne_eq, not_true_eq_false, if_false, hpos, if_true,
          Except.ok.injEq] at hpc
        exact hpc.symm
      · simp only [PersonSpec.PathComponent, ne_eq, not_true_eq_false, if_false, hpos,
          reduceCtorEq] at hpc
    · rintro ⟨n, hn, hin, rfl⟩
      have hd : (['$'] ++ Itoa n).drop 1 = Itoa n := rfl
      rw [hd, Atoi_Itoa n hin]
      simp [PersonSpec.PathComponent, hn]

/-- Witness for C24 (amended) at `"alice"` and at `"$42"`, which both decode
and encode back to themselves. -/
theorem C24_person_decode_encode_iff_witness :
    (ParsePersonSpec "alice".toList).1.PathComponent = .ok "alice".toList ∧
      (ParsePersonSpec "$42".toList).1.PathComponent = .ok "$42".toList :=
  ⟨(C24_person_decode_encode_iff "alice".toList (by decide)).2 (Or.inl (by decide)),
    (C24_person_decode_encode_iff "$42".toList (by decide)).2
      (Or.inr ⟨42, by decide, by decide, by decide⟩)⟩

/-- C25: the decoders never populate more than one identifying field. For
every input string, at most one of Email, Login, UID of the `PersonSpec` that
`ParsePersonSpec` returns is non-zero, and at most one of URI, RID of the
`RepositorySpec2` that `ParseRepositorySpec2` returns is non-zero, whether
the error is nil or not. -/
theorem C25_decoders_set_at_most_one_field (s : GoString) :
    (((ParsePersonSpec s).1.Email = [] ∧ (ParsePersonSpec s).1.Login = []) ∨
        ((ParsePersonSpec s).1.Email = [] ∧ (ParsePersonSpec s).1.UID = 0) ∨
        ((ParsePersonSpec s).1.Login = [] ∧ (ParsePersonSpec s).1.UID = 0)) ∧
      ((ParseRepositorySpec2 s).1.URI = [] ∨ (ParseRepositorySpec2 s).1.RID = 0) := by
  constructor
  · cases hp : HasPrefix s ['$'] <;> cases hc : Contains s ['@'] <;>
      simp [ParsePersonSpec, hp, hc]
  · by_cases hs : s = []
    · simp [ParseRepositorySpec2, hs]
    · cases hp : HasPrefix s ['R', '$'] <;> simp [ParseRepositorySpec2, hs, hp]

/-! ## Old and new specifiers, repositories -/

/-- C26: the old and the new revision specifier project to the same route
variables. For all strings u and r,
`RepoRevSpec{RepositorySpec2{URI: u, RID: 0}, Rev: r}.RouteVars()` succeeds and
equals `RepositorySpec{URI: u, CommitID: r}.RouteVars()`. -/
theorem C26_old_and_new_route_vars (u r : GoString) :
    RepoRevSpec.RouteVars { URI := u, RID := 0, Rev := r } =
      .ok (RepositorySpec.RouteVars { URI := u, CommitID := r }) := by
  by_cases hr : r = []
  · simp [RepoRevSpec.RouteVars, RepositorySpec2.RouteVars, RepositorySpec.RouteVars, hr]
  · simp [RepoRevSpec.RouteVars, RepositorySpec2.RouteVars, RepositorySpec.RouteVars, hr]

/-- C27: for every `Repo` whose CloneURL and ActualCloneURL are both empty,
`Repo.IsGitHubRepository()` equals `r.URI.IsGitHubRepository()`; and for every
`Repo`, `GetActualCloneURL` returns ActualCloneURL when it is non-empty and
CloneURL otherwise. -/
theorem C27_repo_clone_url (lower : Char → Char)
    (parseHost : GoString → Except GoError GoString) (r : Repo) :
    (r.CloneURL = [] → r.ActualCloneURL = [] →
        r.IsGitHubRepository lower parseHost = URI.IsGitHubRepository lower r.URI) ∧
      (r.ActualCloneURL ≠ [] → r.GetActualCloneURL = r.ActualCloneURL) ∧
      (r.ActualCloneURL = [] → r.GetActualCloneURL = r.CloneURL) := by
  refine ⟨?_, ?_, ?_⟩
  · intro hc ha
    simp [Repo.IsGitHubRepository, Repo.GetActualCloneURL, URI.IsGitHubRepository, hc, ha]
  · intro ha
    simp [Repo.GetActualCloneURL, ha]
  · intro ha
    simp [Repo.GetActualCloneURL, ha]

/-- C27 on a repository without clone URLs and on one with both clone URLs
set. -/
theorem C27_repo_clone_url_witness :
    Repo.IsGitHubRepository Char.toLower (fun _ => .error GoError.ErrSyntax)
        { URI := "GitHub.com/a/b".toList } =
        URI.IsGitHubRepository Char.toLower "GitHub.com/a/b".toList ∧
      Repo.GetActualCloneURL
        { CloneURL := "git://a.com/x".toList, ActualCloneURL := "git://b.com/x".toList } =
        "git://b.com/x".toList :=
  ⟨(C27_repo_clone_url Char.toLower (fun _ => .error GoError.ErrSyntax)
      { URI := "GitHub.com/a/b".toList }).1 rfl rfl,
    (C27_repo_clone_url Char.toLower (fun _ => .error GoError.ErrSyntax)
      { CloneURL := "git://a.com/x".toList, ActualCloneURL := "git://b.com/x".toList }).2.1
      (by decide)⟩

/-! ## Service methods -/

/-- The outcome of a service method whose call of `url` fails. -/
theorem returns_of_url_error {T : ApiTypes} {Opt Body V : Type} (c : Client T Opt Body V)
    (route : Route) (vars : Option RouteMap) (opt : Option Opt) (method : GoString)
    (body : Option Body) (log : CallLog) (err : GoError)
    (hu : c.url route vars opt = .error err) :
    ReturnsClientErrors c route vars opt method body log
      ((none, none, some err), log ++ [ClientCall.url]) := by
  refine ⟨?_, ?_, ?_, ?_⟩
  · intro err2 hu2
    rw [hu] at hu2
    cases hu2
    rfl
  all_goals
    intros
    simp_all

/-- The outcome of a service method whose call of `NewRequest` returns an
error. -/
theorem returns_of_request_error {T : ApiTypes} {Opt Body V : Type} (c : Client T Opt Body V)
    (route : Route) (vars : Option RouteMap) (opt : Option Opt) (method : GoString)
    (body : Option Body) (log : CallLog) (url : T.URL) (req : Option T.Request) (err : GoError)
    (hu : c.url route vars opt = .ok url)
    (hn : c.NewRequest method (T.URLString url) body = (req, some err)) :
    ReturnsClientErrors c route vars opt method body log
      ((none, none, some err), log ++ [ClientCall.url] ++ [ClientCall.NewRequest]) := by
  refine ⟨?_, ?_, ?_, ?_⟩
  · intro err2 hu2
    rw [hu] at hu2
    cases hu2
  · intro url2 err2 hu2 hn2
    rw [hu] at hu2
    cases hu2
    rw [hn] at hn2
    cases hn2
    simp
  all_goals
    intro url2
    intros
    have hu2 : c.url route vars opt = .ok url2 := by assumption
    rw [hu] at hu2
    cases hu2
    simp_all

/-- The outcome of a service method after its call of `Do`. -/
theorem returns_of_do {T : ApiTypes} {Opt Body V : Type} (c : Client T Opt Body V)
    (route : Route) (vars : Option RouteMap) (opt : Option Opt) (method : GoString)
    (body : Option Body) (log : CallLog) (url : T.URL) (req : Option T.Request)
    (v : Option V) (resp : Option T.Response) (e : Option GoError)
    (hu : c.url route vars opt = .ok url)
    (hn : c.NewRequest method (T.URLString url) body = (req, none))
    (hd : c.Do req = (v, resp, e)) :
    ReturnsClientErrors c route vars opt method body log
      ((if e = none then v else none, resp, e),
        log ++ [ClientCall.url] ++ [ClientCall.NewRequest] ++ [ClientCall.Do]) := by
  refine ⟨?_, ?_, ?_, ?_⟩
  · intro err2 hu2
    rw [hu] at hu2
    cases hu2
  · intro url2 err2 hu2 hn2
    rw [hu] at hu2
    cases hu2
    rw [hn] at hn2
    cases hn2
  · intro url2 err2 hu2 _ hd2
    rw [hu] at hu2
    cases hu2
    rw [hn, hd] at hd2
    simp only at hd2
    subst hd2
    simp [hn, hd]
  · intro url2 hu2 _ hd2
    rw [hu] at hu2
    cases hu2
    rw [hn, hd] at hd2
    simp only at hd2
    subst hd2
    simp [hn, hd]

/-- C22 (as stated, refuted): on the empty `PersonSpec`, `peopleService.Get`
returns nothing. With a client on which every call succeeds it panics with
"empty PersonSpec", in `RouteVars`, before any call to the client. -/
theorem C22_counterexample :
    peopleService.Get
        ({ client := Client.succeeding } : peopleService ApiTypes.units Unit Unit Unit) {} none [] =
      .error "empty PersonSpec" :=
  rfl

/-- C22 (amended): the service methods return the error of the client as it
is. For `peopleService.Get` and every other service method of the same shape
(the 8 methods of `peopleService` and the 20 of `repositoriesService` that
return a decoded value, a response and an error), on arguments whose
`RouteVars` does not panic: when `url` fails the method returns
`(nil, nil, err)` with that error after the single call `url`; when
`NewRequest` returns an error the method returns `(nil, nil, err)` with that
error after the calls `url` and `NewRequest`, so that `Do` is not called in
either case; when `Do` returns an error the method returns a nil result with
the response and the error of `Do`; otherwise it returns the decoded value, the
response of `Do` and a nil error. The methods on a `RepositorySpec` or without
a specifier have no `RouteVars` that panics. -/
theorem C22_service_methods_return_errors (T : ApiTypes) :
    (∀ {Body : Type} (s : peopleService T T.PersonGetOptions Body T.Person) (person_ : PersonSpec)
          (opt : Option T.PersonGetOptions) (log : CallLog) (vars : RouteMap),
        person_.RouteVars = .ok vars →
        ∃ out, s.Get person_ opt log = .ok out ∧
          ReturnsClientErrors s.client Route.Person (some vars) opt "GET".toList none log out) ∧
      (∀ {Opt Body : Type} (s : peopleService T Opt Body (Ptrs T.EmailAddr)) (person : PersonSpec)
          (log : CallLog) (vars : RouteMap),
        person.RouteVars = .ok vars →
        ∃ out, s.ListEmails person log = .ok out ∧
          ReturnsClientErrors s.client Route.PersonEmails (some vars) none "GET".toList none log out) ∧
      (∀ {Opt Body : Type} (s : peopleService T Opt Body PersonSettings) (person : PersonSpec)
          (log : CallLog) (vars : RouteMap),
        person.RouteVars = .ok vars →
        ∃ out, s.GetSettings person log = .ok out ∧
          ReturnsClientErrors s.client Route.PersonSettings (some vars) none "GET".toList none log out) ∧
      (∀ {Body : Type} (s : peopleService T T.PersonGetOptions Body T.Person) (user : GitHubUserSpec)
          (opt : Option T.PersonGetOptions) (log : CallLog) (vars : RouteMap),
        user.RouteVars = .ok vars →
        ∃ out, s.GetOrCreateFromGitHub user opt log = .ok out ∧
          ReturnsClientErrors s.client Route.PersonFromGitHub (some vars) opt "GET".toList none log out) ∧
      (∀ {Body : Type} (s : peopleService T T.PersonListOptions Body (Ptrs T.person_User))
          (opt : Option T.PersonListOptions) (log : CallLog),
        ReturnsClientErrors s.client Route.People none opt "GET".toList none log
          (s.List opt log)) ∧
      (∀ {Body : Type}
          (s : peopleService T T.PersonListAuthorsOptions Body (Ptrs T.AugmentedPersonUsageByClient))
          (person : PersonSpec) (opt : Option T.PersonListAuthorsOptions) (log : CallLog)
          (vars : RouteMap),
        person.RouteVars = .ok vars →
        ∃ out, s.ListAuthors person opt log = .ok out ∧
          ReturnsClientErrors s.client Route.PersonAuthors (some vars) opt "GET".toList none log out) ∧
      (∀ {Body : Type}
          (s : peopleService T T.PersonListClientsOptions Body (Ptrs T.AugmentedPersonUsageOfAuthor))
          (person : PersonSpec) (opt : Option T.PersonListClientsOptions) (log : CallLog)
          (vars : RouteMap),
        person.RouteVars = .ok vars →
        ∃ out, s.ListClients person opt log = .ok out ∧
          ReturnsClientErrors s.client Route.PersonClients (some vars) opt "GET".toList none log out) ∧
      (∀ {Body : Type} (s : peopleService T T.PersonListOrgsOptions Body (Ptrs T.Org))
          (member : PersonSpec) (opt : Option T.PersonListOrgsOptions) (log : CallLog)
          (vars : RouteMap),
        member.RouteVars = .ok vars →
        ∃ out, s.ListOrgs member opt log = .ok out ∧
          ReturnsClientErrors s.client Route.PersonOrgs (some vars) opt "GET".toList none log out) ∧
      (∀ {Body : Type} (s : repositoriesService T T.RepositoryGetOptions Body T.Repository)
          (repo : RepositorySpec) (opt : Option T.RepositoryGetOptions) (log : CallLog),
        ReturnsClientErrors s.client Route.Repository (some repo.RouteVars) opt "GET".toList none log
          (s.Get repo opt log)) ∧
      (∀ {Body : Type} (s : repositoriesService T T.RepositoryGetOptions Body T.Repository)
          (repo_ : RepositorySpec) (opt : Option T.RepositoryGetOptions) (log : CallLog),
        ReturnsClientErrors s.client Route.RepositoriesGetOrCreate (some repo_.RouteVars) opt "PUT".toList none log
          (s.GetOrCreate repo_ opt log)) ∧
      (∀ {Opt Body : Type} (s : repositoriesService T Opt Body T.RepositorySettings)
          (repo : RepositorySpec) (log : CallLog),
        ReturnsClientErrors s.client Route.RepositorySettings (some repo.RouteVars) none "GET".toList none log
          (s.GetSettings repo log)) ∧
      (∀ {Opt : Type} (s : repositoriesService T Opt T.NewRepositorySpec T.repo_Repository)
          (newRepoSpec : T.NewRepositorySpec) (log : CallLog),
        ReturnsClientErrors s.client Route.RepositoriesCreate none none "POST".toList (some newRepoSpec) log
          (s.Create newRepoSpec log)) ∧
      (∀ {Opt Body : Type} (s : repositoriesService T Opt Body T.vcsclient_TreeEntry)
          (repo : RepositorySpec) (log : CallLog),
        ReturnsClientErrors s.client Route.RepositoryReadme (some repo.RouteVars) none "GET".toList none log
          (s.GetReadme repo log)) ∧
      (∀ {Body : Type} (s : repositoriesService T T.RepositoryListOptions Body (Ptrs T.Repository))
          (opt : Option T.RepositoryListOptions) (log : CallLog),
        ReturnsClientErrors s.client Route.Repositories none opt "GET".toList none log
          (s.List opt log)) ∧
      (∀ {Body : Type} (s : repositoriesService T T.RepositoryListCommitsOptions Body (Ptrs T.Commit))
          (repo : RepositorySpec2) (opt : Option T.RepositoryListCommitsOptions) (log : CallLog)
          (vars : RouteMap),
        repo.RouteVars = .ok vars →
        ∃ out, s.ListCommits repo opt log = .ok out ∧
          ReturnsClientErrors s.client Route.RepoCommits (some vars) opt "GET".toList none log out) ∧
      (∀ {Body : Type} (s : repositoriesService T T.RepositoryGetCommitOptions Body T.Commit)
          (rev : RepoRevSpec) (opt : Option T.RepositoryGetCommitOptions) (log : CallLog)
          (vars : RouteMap),
        rev.RouteVars = .ok vars →
        ∃ out, s.GetCommit rev opt log = .ok out ∧
          ReturnsClientErrors s.client Route.RepoCommit (some vars) opt "GET".toList none log out) ∧
      (∀ {Body : Type}
          (s : repositoriesService T T.RepositoryCompareCommitsOptions Body T.CommitsComparison)
          (base : RepoRevSpec) (opt : Option T.RepositoryCompareCommitsOptions) (log : CallLog)
          (vars : RouteMap),
        base.RouteVars = .ok vars →
        ∃ out, s.CompareCommits base opt log = .ok out ∧
          ReturnsClientErrors s.client Route.RepoCompareCommits (some vars) opt "GET".toList none log out) ∧
      (∀ {Body : Type}
          (s : repositoriesService T T.RepositoryListBranchesOptions Body (Ptrs T.vcs_Branch))
          (repo : RepositorySpec2) (opt : Option T.RepositoryListBranchesOptions)
          (log : CallLog) (vars : RouteMap),
        repo.RouteVars = .ok vars →
        ∃ out, s.ListBranches repo opt log = .ok out ∧
          ReturnsClientErrors s.client Route.RepoBranches (some vars) opt "GET".toList none log out) ∧
      (∀ {Body : Type} (s : repositoriesService T T.RepositoryListTagsOptions Body (Ptrs T.vcs_Tag))
          (repo : RepositorySpec2) (opt : Option T.RepositoryListTagsOptions) (log : CallLog)
          (vars : RouteMap),
        repo.RouteVars = .ok vars →
        ∃ out, s.ListTags repo opt log = .ok out ∧
          ReturnsClientErrors s.client Route.RepoTags (some vars) opt "GET".toList none log out) ∧
      (∀ {Opt Body : Type} (s : repositoriesService T Opt Body (Ptrs T.Badge)) (repo : RepositorySpec)
          (log : CallLog),
        ReturnsClientErrors s.client Route.RepositoryBadges (some repo.RouteVars) none "GET".toList none log
          (s.ListBadges repo log)) ∧
      (∀ {Opt Body : Type} (s : repositoriesService T Opt Body (Ptrs T.Counter))
          (repo : RepositorySpec) (log : CallLog),
        ReturnsClientErrors s.client Route.RepositoryCounters (some repo.RouteVars) none "GET".toList none log
          (s.ListCounters repo log)) ∧
      (∀ {Body : Type}
          (s : repositoriesService T T.RepositoryListAuthorsOptions Body (Ptrs T.AugmentedRepoAuthor))
          (repo : RepositorySpec) (opt : Option T.RepositoryListAuthorsOptions) (log : CallLog),
        ReturnsClientErrors s.client Route.RepositoryAuthors (some repo.RouteVars) opt "GET".toList none log
          (s.ListAuthors repo opt log)) ∧
      (∀ {Body : Type}
          (s : repositoriesService T T.RepositoryListClientsOptions Body (Ptrs T.AugmentedRepoClient))
          (repo : RepositorySpec) (opt : Option T.RepositoryListClientsOptions) (log : CallLog),
        ReturnsClientErrors s.client Route.RepositoryClients (some repo.RouteVars) opt "GET".toList none log
          (s.ListClients repo opt log)) ∧
      (∀ {Body : Type}
          (s : repositoriesService T T.RepositoryListDependenciesOptions Body (Ptrs T.AugmentedRepoDependency))
          (repo : RepositorySpec) (opt : Option T.RepositoryListDependenciesOptions)
          (log : CallLog),
        ReturnsClientErrors s.client Route.RepositoryDependencies (some repo.RouteVars) opt "GET".toList none log
          (s.ListDependencies repo opt log)) ∧
      (∀ {Body : Type}
          (s : repositoriesService T T.RepositoryListDependentsOptions Body (Ptrs T.AugmentedRepoDependent))
          (repo : RepositorySpec) (opt : Option T.RepositoryListDependentsOptions)
          (log : CallLog),
        ReturnsClientErrors s.client Route.RepositoryDependents (some repo.RouteVars) opt "GET".toList none log
          (s.ListDependents repo opt log)) ∧
      (∀ {Body : Type}
          (s : repositoriesService T T.RepositoryListByContributorOptions Body (Ptrs T.AugmentedRepoContribution))
          (person : PersonSpec) (opt : Option T.RepositoryListByContributorOptions)
          (log : CallLog) (vars : RouteMap),
        person.RouteVars = .ok vars →
        ∃ out, s.ListByContributor person opt log = .ok out ∧
          ReturnsClientErrors s.client Route.PersonRepositoryContributions (some vars) opt "GET".toList none log out) ∧
      (∀ {Body : Type}
          (s : repositoriesService T T.RepositoryListByClientOptions Body (Ptrs T.AugmentedRepoUsageByClient))
          (person : PersonSpec) (opt : Option T.RepositoryListByClientOptions) (log : CallLog)
          (vars : RouteMap),
        person.RouteVars = .ok vars →
        ∃ out, s.ListByClient person opt log = .ok out ∧
          ReturnsClientErrors s.client Route.PersonRepositoryDependencies (some vars) opt "GET".toList none log out) ∧
      (∀ {Body : Type}
          (s : repositoriesService T T.RepositoryListByRefdAuthorOptions Body (Ptrs T.AugmentedRepoUsageOfAuthor))
          (person : PersonSpec) (opt : Option T.RepositoryListByRefdAuthorOptions)
          (log : CallLog) (vars : RouteMap),
        person.RouteVars = .ok vars →
        ∃ out, s.ListByRefdAuthor person opt log = .ok out ∧
          ReturnsClientErrors s.client Route.PersonRepositoryDependents (some vars) opt "GET".toList none log out) :=
  ⟨fun s person_ opt log vars hv => by
      simp only [peopleService.Get, hv, Client.callUrl, Client.callNewRequest, Client.callDo]
      rcases hu : s.client.url Route.Person (some vars) opt with err | url
      · exact ⟨_, rfl, returns_of_url_error s.client Route.Person (some vars) opt
              "GET".toList none log err hu⟩
      · dsimp only
        rcases hn : s.client.NewRequest "GET".toList (T.URLString url) none with
          ⟨req, _ | err⟩
        · dsimp only
          rcases hd : s.client.Do req with ⟨v, resp, _ | err⟩
          · exact ⟨_, rfl, returns_of_do s.client Route.Person (some vars) opt
              "GET".toList none log url req v resp none hu hn hd⟩
          · exact ⟨_, rfl, returns_of_do s.client Route.Person (some vars) opt
              "GET".toList none log url req v resp (some err) hu hn hd⟩
        · exact ⟨_, rfl, returns_of_request_error s.client Route.Person (some vars) opt
              "GET".toList none log url req err hu hn⟩,
    fun s person log vars hv => by
      simp only [peopleService.ListEmails, hv, Client.callUrl, Client.callNewRequest, Client.callDo]
      rcases hu : s.client.url Route.PersonEmails (some vars) none with err | url
      · exact ⟨_, rfl, returns_of_url_error s.client Route.PersonEmails (some vars) none
              "GET".toList none log err hu⟩
      · dsimp only
        rcases hn : s.client.NewRequest "GET".toList (T.URLString url) none with
          ⟨req, _ | err⟩
        · dsimp only
          rcases hd : s.client.Do req with ⟨v, resp, _ | err⟩
          · exact ⟨_, rfl, returns_of_do s.client Route.PersonEmails (some vars) none
              "GET".toList none log url req v resp none hu hn hd⟩
          · exact ⟨_, rfl, returns_of_do s.client Route.PersonEmails (some vars) none
              "GET".toList none log url req v resp (some err) hu hn hd⟩
        · exact ⟨_, rfl, returns_of_request_error s.client Route.PersonEmails (some vars) none
              "GET".toList none log url req err hu hn⟩,
    fun s person log vars hv => by
      simp only [peopleService.GetSettings, hv, Client.callUrl, Client.callNewRequest, Client.callDo]
      rcases hu : s.client.url Route.PersonSettings (some vars) none with err | url
      · exact ⟨_, rfl, returns_of_url_error s.client Route.PersonSettings (some vars) none
              "GET".toList none log err hu⟩
      · dsimp only
        rcases hn : s.client.NewRequest "GET".toList (T.URLString url) none with
          ⟨req, _ | err⟩
        · dsimp only
          rcases hd : s.client.Do req with ⟨v, resp, _ | err⟩
          · exact ⟨_, rfl, returns_of_do s.client Route.PersonSettings (some vars) none
              "GET".toList none log url req v resp none hu hn hd⟩
          · exact ⟨_, rfl, returns_of_do s.client Route.PersonSettings (some vars) none
              "GET".toList none log url req v resp (some err) hu hn hd⟩
        · exact ⟨_, rfl, returns_of_request_error s.client Route.PersonSettings (some vars) none
              "GET".toList none log url req err hu hn⟩,
    fun s user opt log vars hv => by
      simp only [peopleService.GetOrCreateFromGitHub, hv, Client.callUrl, Client.callNewRequest, Client.callDo]
      rcases hu : s.client.url Route.PersonFromGitHub (some vars) opt with err | url
      · exact ⟨_, rfl, returns_of_url_error s.client Route.PersonFromGitHub (some vars) opt
              "GET".toList none log err hu⟩
      · dsimp only
        rcases hn : s.client.NewRequest "GET".toList (T.URLString url) none with
          ⟨req, _ | err⟩
        · dsimp only
          rcases hd : s.client.Do req with ⟨v, resp, _ | err⟩
          · exact ⟨_, rfl, returns_of_do s.client Route.PersonFromGitHub (some vars) opt
              "GET".toList none log url req v resp none hu hn hd⟩
          · exact ⟨_, rfl, returns_of_do s.client Route.PersonFromGitHub (some vars) opt
              "GET".toList none log url req v resp (some err) hu hn hd⟩
        · exact ⟨_, rfl, returns_of_request_error s.client Route.PersonFromGitHub (some vars) opt
              "GET".toList none log url req err hu hn⟩,
    fun s opt log => by
      simp only [peopleService.List, Client.callUrl, Client.callNewRequest, Client.callDo]
      rcases hu : s.client.url Route.People none opt with err | url
      · exact returns_of_url_error s.client Route.People none opt
              "GET".toList none log err hu
      · dsimp only
        rcases hn : s.client.NewRequest "GET".toList (T.URLString url) none with
          ⟨req, _ | err⟩
        · dsimp only
          rcases hd : s.client.Do req with ⟨v, resp, _ | err⟩
          · exact returns_of_do s.client Route.People none opt
              "GET".toList none log url req v resp none hu hn hd
          · exact returns_of_do s.client Route.People none opt
              "GET".toList none log url req v resp (some err) hu hn hd
        · exact returns_of_request_error s.client Route.People none opt
              "GET".toList none log url req err hu hn,
    fun s person opt log vars hv => by
      simp only [peopleService.ListAuthors, hv, Client.callUrl, Client.callNewRequest, Client.callDo]
      rcases hu : s.client.url Route.PersonAuthors (some vars) opt with err | url
      · exact ⟨_, rfl, returns_of_url_error s.client Route.PersonAuthors (some vars) opt
              "GET".toList none log err hu⟩
      · dsimp only
        rcases hn : s.client.NewRequest "GET".toList (T.URLString url) none with
          ⟨req, _ | err⟩
        · dsimp only
          rcases hd : s.client.Do req with ⟨v, resp, _ | err⟩
          · exact ⟨_, rfl, returns_of_do s.client Route.PersonAuthors (some vars) opt
              "GET".toList none log url req v resp none hu hn hd⟩
          · exact ⟨_, rfl, returns_of_do s.client Route.PersonAuthors (some vars) opt
              "GET".toList none log url req v resp (some err) hu hn hd⟩
        · exact ⟨_, rfl, returns_of_request_error s.client Route.PersonAuthors (some vars) opt
              "GET".toList none log url req err hu hn⟩,
    fun s person opt log vars hv => by
      simp only [peopleService.ListClients, hv, Client.callUrl, Client.callNewRequest, Client.callDo]
      rcases hu : s.client.url Route.PersonClients (some vars) opt with err | url
      · exact ⟨_, rfl, returns_of_url_error s.client Route.PersonClients (some vars) opt
              "GET".toList none log err hu⟩
      · dsimp only
        rcases hn : s.client.NewRequest "GET".toList (T.URLString url) none with
          ⟨req, _ | err⟩
        · dsimp only
          rcases hd : s.client.Do req with ⟨v, resp, _ | err⟩
          · exact ⟨_, rfl, returns_of_do s.client Route.PersonClients (some vars) opt
              "GET".toList none log url req v resp none hu hn hd⟩
          · exact ⟨_, rfl, returns_of_do s.client Route.PersonClients (some vars) opt
              "GET".toList none log url req v resp (some err) hu hn hd⟩
        · exact ⟨_, rfl, returns_of_request_error s.client Route.PersonClients (some vars) opt
              "GET".toList none log url req err hu hn⟩,
    fun s member opt log vars hv => by
      simp only [peopleService.ListOrgs, hv, Client.callUrl, Client.callNewRequest, Client.callDo]
      rcases hu : s.client.url Route.PersonOrgs (some vars) opt with err | url
      · exact ⟨_, rfl, returns_of_url_error s.client Route.PersonOrgs (some vars) opt
              "GET".toList none log err hu⟩
      · dsimp only
        rcases hn : s.client.NewRequest "GET".toList (T.URLString url) none with
          ⟨req, _ | err⟩
        · dsimp only
          rcases hd : s.client.Do req with ⟨v, resp, _ | err⟩
          · exact ⟨_, rfl, returns_of_do s.client Route.PersonOrgs (some vars) opt
              "GET".toList none log url req v resp none hu hn hd⟩
          · exact ⟨_, rfl, returns_of_do s.client Route.PersonOrgs (some vars) opt
              "GET".toList none log url req v resp (some err) hu hn hd⟩
        · exact ⟨_, rfl, returns_of_request_error s.client Route.PersonOrgs (some vars) opt
              "GET".toList none log url req err hu hn⟩,
    fun s repo opt log => by
      simp only [repositoriesService.Get, Client.callUrl, Client.callNewRequest, Client.callDo]
      rcases hu : s.client.url Route.Repository (some repo.RouteVars) opt with err | url
      · exact returns_of_url_error s.client Route.Repository (some repo.RouteVars) opt
              "GET".toList none log err hu
      · dsimp only
        rcases hn : s.client.NewRequest "GET".toList (T.URLString url) none with
          ⟨req, _ | err⟩
        · dsimp only
          rcases hd : s.client.Do req with ⟨v, resp, _ | err⟩
          · exact returns_of_do s.client Route.Repository (some repo.RouteVars) opt
              "GET".toList none log url req v resp none hu hn hd
          · exact returns_of_do s.client Route.Repository (some repo.RouteVars) opt
              "GET".toList none log url req v resp (some err) hu hn hd
        · exact returns_of_request_error s.client Route.Repository (some repo.RouteVars) opt
              "GET".toList none log url req err hu hn,
    fun s repo_ opt log => by
      simp only [repositoriesService.GetOrCreate, Client.callUrl, Client.callNewRequest, Client.callDo]
      rcases hu : s.client.url Route.RepositoriesGetOrCreate (some repo_.RouteVars) opt with err | url
      · exact returns_of_url_error s.client Route.RepositoriesGetOrCreate (some repo_.RouteVars) opt
              "PUT".toList none log err hu
      · dsimp only
        rcases hn : s.client.NewRequest "PUT".toList (T.URLString url) none with
          ⟨req, _ | err⟩
        · dsimp only
          rcases hd : s.client.Do req with ⟨v, resp, _ | err⟩
          · exact returns_of_do s.client Route.RepositoriesGetOrCreate (some repo_.RouteVars) opt
              "PUT".toList none log url req v resp none hu hn hd
          · exact returns_of_do s.client Route.RepositoriesGetOrCreate (some repo_.RouteVars) opt
              "PUT".toList none log url req v resp (some err) hu hn hd
        · exact returns_of_request_error s.client Route.RepositoriesGetOrCreate (some repo_.RouteVars) opt
              "PUT".toList none log url req err hu hn,
    fun s repo log => by
      simp only [repositoriesService.GetSettings, Client.callUrl, Client.callNewRequest, Client.callDo]
      rcases hu : s.client.url Route.RepositorySettings (some repo.RouteVars) none with err | url
      · exact returns_of_url_error s.client Route.RepositorySettings (some repo.RouteVars) none
              "GET".toList none log err hu
      · dsimp only
        rcases hn : s.client.NewRequest "GET".toList (T.URLString url) none with
          ⟨req, _ | err⟩
        · dsimp only
          rcases hd : s.client.Do req with ⟨v, resp, _ | err⟩
          · exact returns_of_do s.client Route.RepositorySettings (some repo.RouteVars) none
              "GET".toList none log url req v resp none hu hn hd
          · exact returns_of_do s.client Route.RepositorySettings (some repo.RouteVars) none
              "GET".toList none log url req v resp (some err) hu hn hd
        · exact returns_of_request_error s.client Route.RepositorySettings (some repo.RouteVars) none
              "GET".toList none log url req err hu hn,
    fun s newRepoSpec log => by
      simp only [repositoriesService.Create, Client.callUrl, Client.callNewRequest, Client.callDo]
      rcases hu : s.client.url Route.RepositoriesCreate none none with err | url
      · exact returns_of_url_error s.client Route.RepositoriesCreate none none
              "POST".toList (some newRepoSpec) log err hu
      · dsimp only
        rcases hn : s.client.NewRequest "POST".toList (T.URLString url) (some newRepoSpec) with
          ⟨req, _ | err⟩
        · dsimp only
          rcases hd : s.client.Do req with ⟨v, resp, _ | err⟩
          · exact returns_of_do s.client Route.RepositoriesCreate none none
              "POST".toList (some newRepoSpec) log url req v resp none hu hn hd
          · exact returns_of_do s.client Route.RepositoriesCreate none none
              "POST".toList (some newRepoSpec) log url req v resp (some err) hu hn hd
        · exact returns_of_request_error s.client Route.RepositoriesCreate none none
              "POST".toList (some newRepoSpec) log url req err hu hn,
    fun s repo log => by
      simp only [repositoriesService.GetReadme, Client.callUrl, Client.callNewRequest, Client.callDo]
      rcases hu : s.client.url Route.RepositoryReadme (some repo.RouteVars) none with err | url
      · exact returns_of_url_error s.client Route.RepositoryReadme (some repo.RouteVars) none
              "GET".toList none log err hu
      · dsimp only
        rcases hn : s.client.NewRequest "GET".toList (T.URLString url) none with
          ⟨req, _ | err⟩
        · dsimp only
          rcases hd : s.client.Do req with ⟨v, resp, _ | err⟩
          · exact returns_of_do s.client Route.RepositoryReadme (some repo.RouteVars) none
              "GET".toList none log url req v resp none hu hn hd
          · exact returns_of_do s.client Route.RepositoryReadme (some repo.RouteVars) none
              "GET".toList none log url req v resp (some err) hu hn hd
        · exact returns_of_request_error s.client Route.RepositoryReadme (some repo.RouteVars) none
              "GET".toList none log url req err hu hn,
    fun s opt log => by
      simp only [repositoriesService.List, Client.callUrl, Client.callNewRequest, Client.callDo]
      rcases hu : s.client.url Route.Repositories none opt with err | url
      · exact returns_of_url_error s.client Route.Repositories none opt
              "GET".toList none log err hu
      · dsimp only
        rcases hn : s.client.NewRequest "GET".toList (T.URLString url) none with
          ⟨req, _ | err⟩
        · dsimp only
          rcases hd : s.client.Do req with ⟨v, resp, _ | err⟩
          · exact returns_of_do s.client Route.Repositories none opt
              "GET".toList none log url req v resp none hu hn hd
          · exact returns_of_do s.client Route.Repositories none opt
              "GET".toList none log url req v resp (some err) hu hn hd
        · exact returns_of_request_error s.client Route.Repositories none opt
              "GET".toList none log url req err hu hn,
    fun s repo opt log vars hv => by
      simp only [repositoriesService.ListCommits, hv, Client.callUrl, Client.callNewRequest, Client.callDo]
      rcases hu : s.client.url Route.RepoCommits (some vars) opt with err | url
      · exact ⟨_, rfl, returns_of_url_error s.client Route.RepoCommits (some vars) opt
              "GET".toList none log err hu⟩
      · dsimp only
        rcases hn : s.client.NewRequest "GET".toList (T.URLString url) none with
          ⟨req, _ | err⟩
        · dsimp only
          rcases hd : s.client.Do req with ⟨v, resp, _ | err⟩
          · exact ⟨_, rfl, returns_of_do s.client Route.RepoCommits (some vars) opt
              "GET".toList none log url req v resp none hu hn hd⟩
          · exact ⟨_, rfl, returns_of_do s.client Route.RepoCommits (some vars) opt
              "GET".toList none log url req v resp (some err) hu hn hd⟩
        · exact ⟨_, rfl, returns_of_request_error s.client Route.RepoCommits (some vars) opt
              "GET".toList none log url req err hu hn⟩,
    fun s rev opt log vars hv => by
      simp only [repositoriesService.GetCommit, hv, Client.callUrl, Client.callNewRequest, Client.callDo]
      rcases hu : s.client.url Route.RepoCommit (some vars) opt with err | url
      · exact ⟨_, rfl, returns_of_url_error s.client Route.RepoCommit (some vars) opt
              "GET".toList none log err hu⟩
      · dsimp only
        rcases hn : s.client.NewRequest "GET".toList (T.URLString url) none with
          ⟨req, _ | err⟩
        · dsimp only
          rcases hd : s.client.Do req with ⟨v, resp, _ | err⟩
          · exact ⟨_, rfl, returns_of_do s.client Route.RepoCommit (some vars) opt
              "GET".toList none log url req v resp none hu hn hd⟩
          · exact ⟨_, rfl, returns_of_do s.client Route.RepoCommit (some vars) opt
              "GET".toList none log url req v resp (some err) hu hn hd⟩
        · exact ⟨_, rfl, returns_of_request_error s.client Route.RepoCommit (some vars) opt
              "GET".toList none log url req err hu hn⟩,
    fun s base opt log vars hv => by
      simp only [repositoriesService.CompareCommits, hv, Client.callUrl, Client.callNewRequest, Client.callDo]
      rcases hu : s.client.url Route.RepoCompareCommits (some vars) opt with err | url
      · exact ⟨_, rfl, returns_of_url_error s.client Route.RepoCompareCommits (some vars) opt
              "GET".toList none log err hu⟩
      · dsimp only
        rcases hn : s.client.NewRequest "GET".toList (T.URLString url) none with
          ⟨req, _ | err⟩
        · dsimp only
          rcases hd : s.client.Do req with ⟨v, resp, _ | err⟩
          · exact ⟨_, rfl, returns_of_do s.client Route.RepoCompareCommits (some vars) opt
              "GET".toList none log url req v resp none hu hn hd⟩
          · exact ⟨_, rfl, returns_of_do s.client Route.RepoCompareCommits (some vars) opt
              "GET".toList none log url req v resp (some err) hu hn hd⟩
        · exact ⟨_, rfl, returns_of_request_error s.client Route.RepoCompareCommits (some vars) opt
              "GET".toList none log url req err hu hn⟩,
    fun s repo opt log vars hv => by
      simp only [repositoriesService.ListBranches, hv, Client.callUrl, Client.callNewRequest, Client.callDo]
      rcases hu : s.client.url Route.RepoBranches (some vars) opt with err | url
      · exact ⟨_, rfl, returns_of_url_error s.client Route.RepoBranches (some vars) opt
              "GET".toList none log err hu⟩
      · dsimp only
        rcases hn : s.client.NewRequest "GET".toList (T.URLString url) none with
          ⟨req, _ | err⟩
        · dsimp only
          rcases hd : s.client.Do req with ⟨v, resp, _ | err⟩
          · exact ⟨_, rfl, returns_of_do s.client Route.RepoBranches (some vars) opt
              "GET".toList none log url req v resp none hu hn hd⟩
          · exact ⟨_, rfl, returns_of_do s.client Route.RepoBranches (some vars) opt
              "GET".toList none log url req v resp (some err) hu hn hd⟩
        · exact ⟨_, rfl, returns_of_request_error s.client Route.RepoBranches (some vars) opt
              "GET".toList none log url req err hu hn⟩,
    fun s repo opt log vars hv => by
      simp only [repositoriesService.ListTags, hv, Client.callUrl, Client.callNewRequest, Client.callDo]
      rcases hu : s.client.url Route.RepoTags (some vars) opt with err | url
      · exact ⟨_, rfl, returns_of_url_error s.client Route.RepoTags (some vars) opt
              "GET".toList none log err hu⟩
      · dsimp only
        rcases hn : s.client.NewRequest "GET".toList (T.URLString url) none with
          ⟨req, _ | err⟩
        · dsimp only
          rcases hd : s.client.Do req with ⟨v, resp, _ | err⟩
          · exact ⟨_, rfl, returns_of_do s.client Route.RepoTags (some vars) opt
              "GET".toList none log url req v resp none hu hn hd⟩
          · exact ⟨_, rfl, returns_of_do s.client Route.RepoTags (some vars) opt
              "GET".toList none log url req v resp (some err) hu hn hd⟩
        · exact ⟨_, rfl, returns_of_request_error s.client Route.RepoTags (some vars) opt
              "GET".toList none log url req err hu hn⟩,
    fun s repo log => by
      simp only [repositoriesService.ListBadges, Client.callUrl, Client.callNewRequest, Client.callDo]
      rcases hu : s.client.url Route.RepositoryBadges (some repo.RouteVars) none with err | url
      · exact returns_of_url_error s.client Route.RepositoryBadges (some repo.RouteVars) none
              "GET".toList none log err hu
      · dsimp only
        rcases hn : s.client.NewRequest "GET".toList (T.URLString url) none with
          ⟨req, _ | err⟩
        · dsimp only
          rcases hd : s.client.Do req with ⟨v, resp, _ | err⟩
          · exact returns_of_do s.client Route.RepositoryBadges (some repo.RouteVars) none
              "GET".toList none log url req v resp none hu hn hd
          · exact returns_of_do s.client Route.RepositoryBadges (some repo.RouteVars) none
              "GET".toList none log url req v resp (some err) hu hn hd
        · exact returns_of_request_error s.client Route.RepositoryBadges (some repo.RouteVars) none
              "GET".toList none log url req err hu hn,
    fun s repo log => by
      simp only [repositoriesService.ListCounters, Client.callUrl, Client.callNewRequest, Client.callDo]
      rcases hu : s.client.url Route.RepositoryCounters (some repo.RouteVars) none with err | url
      · exact returns_of_url_error s.client Route.RepositoryCounters (some repo.RouteVars) none
              "GET".toList none log err hu
      · dsimp only
        rcases hn : s.client.NewRequest "GET".toList (T.URLString url) none with
          ⟨req, _ | err⟩
        · dsimp only
          rcases hd : s.client.Do req with ⟨v, resp, _ | err⟩
          · exact returns_of_do s.client Route.RepositoryCounters (some repo.RouteVars) none
              "GET".toList none log url req v resp none hu hn hd
          · exact returns_of_do s.client Route.RepositoryCounters (some repo.RouteVars) none
              "GET".toList none log url req v resp (some err) hu hn hd
        · exact returns_of_request_error s.client Route.RepositoryCounters (some repo.RouteVars) none
              "GET".toList none log url req err hu hn,
    fun s repo opt log => by
      simp only [repositoriesService.ListAuthors, Client.callUrl, Client.callNewRequest, Client.callDo]
      rcases hu : s.client.url Route.RepositoryAuthors (some repo.RouteVars) opt with err | url
      · exact returns_of_url_error s.client Route.RepositoryAuthors (some repo.RouteVars) opt
              "GET".toList none log err hu
      · dsimp only
        rcases hn : s.client.NewRequest "GET".toList (T.URLString url) none with
          ⟨req, _ | err⟩
        · dsimp only
          rcases hd : s.client.Do req with ⟨v, resp, _ | err⟩
          · exact returns_of_do s.client Route.RepositoryAuthors (some repo.RouteVars) opt
              "GET".toList none log url req v resp none hu hn hd
          · exact returns_of_do s.client Route.RepositoryAuthors (some repo.RouteVars) opt
              "GET".toList none log url req v resp (some err) hu hn hd
        · exact returns_of_request_error s.client Route.RepositoryAuthors (some repo.RouteVars) opt
              "GET".toList none log url req err hu hn,
    fun s repo opt log => by
      simp only [repositoriesService.ListClients, Client.callUrl, Client.callNewRequest, Client.callDo]
      rcases hu : s.client.url Route.RepositoryClients (some repo.RouteVars) opt with err | url
      · exact returns_of_url_error s.client Route.RepositoryClients (some repo.RouteVars) opt
              "GET".toList none log err hu
      · dsimp only
        rcases hn : s.client.NewRequest "GET".toList (T.URLString url) none with
          ⟨req, _ | err⟩
        · dsimp only
          rcases hd : s.client.Do req with ⟨v, resp, _ | err⟩
          · exact returns_of_do s.client Route.RepositoryClients (some repo.RouteVars) opt
              "GET".toList none log url req v resp none hu hn hd
          · exact returns_of_do s.client Route.RepositoryClients (some repo.RouteVars) opt
              "GET".toList none log url req v resp (some err) hu hn hd
        · exact returns_of_request_error s.client Route.RepositoryClients (some repo.RouteVars) opt
              "GET".toList none log url req err hu hn,
    fun s repo opt log => by
      simp only [repositoriesService.ListDependencies, Client.callUrl, Client.callNewRequest, Client.callDo]
      rcases hu : s.client.url Route.RepositoryDependencies (some repo.RouteVars) opt with err | url
      · exact returns_of_url_error s.client Route.RepositoryDependencies (some repo.RouteVars) opt
              "GET".toList none log err hu
      · dsimp only
        rcases hn : s.client.NewRequest "GET".toList (T.URLString url) none with
          ⟨req, _ | err⟩
        · dsimp only
          rcases hd : s.client.Do req with ⟨v, resp, _ | err⟩
          · exact returns_of_do s.client Route.RepositoryDependencies (some repo.RouteVars) opt
              "GET".toList none log url req v resp none hu hn hd
          · exact returns_of_do s.client Route.RepositoryDependencies (some repo.RouteVars) opt
              "GET".toList none log url req v resp (some err) hu hn hd
        · exact returns_of_request_error s.client Route.RepositoryDependencies (some repo.RouteVars) opt
              "GET".toList none log url req err hu hn,
    fun s repo opt log => by
      simp only [repositoriesService.ListDependents, Client.callUrl, Client.callNewRequest, Client.callDo]
      rcases hu : s.client.url Route.RepositoryDependents (some repo.RouteVars) opt with err | url
      · exact returns_of_url_error s.client Route.RepositoryDependents (some repo.RouteVars) opt
              "GET".toList none log err hu
      · dsimp only
        rcases hn : s.client.NewRequest "GET".toList (T.URLString url) none with
          ⟨req, _ | err⟩
        · dsimp only
          rcases hd : s.client.Do req with ⟨v, resp, _ | err⟩
          · exact returns_of_do s.client Route.RepositoryDependents (some repo.RouteVars) opt
              "GET".toList none log url req v resp none hu hn hd
          · exact returns_of_do s.client Route.RepositoryDependents (some repo.RouteVars) opt
              "GET".toList none log url req v resp (some err) hu hn hd
        · exact returns_of_request_error s.client Route.RepositoryDependents (some repo.RouteVars) opt
              "GET".toList none log url req err hu hn,
    fun s person opt log vars hv => by
      simp only [repositoriesService.ListByContributor, hv, Client.callUrl, Client.callNewRequest, Client.callDo]
      rcases hu : s.client.url Route.PersonRepositoryContributions (some vars) opt with err | url
      · exact ⟨_, rfl, returns_of_url_error s.client Route.PersonRepositoryContributions (some vars) opt
              "GET".toList none log err hu⟩
      · dsimp only
        rcases hn : s.client.NewRequest "GET".toList (T.URLString url) none with
          ⟨req, _ | err⟩
        · dsimp only
          rcases hd : s.client.Do req with ⟨v, resp, _ | err⟩
          · exact ⟨_, rfl, returns_of_do s.client Route.PersonRepositoryContributions (some vars) opt
              "GET".toList none log url req v resp none hu hn hd⟩
          · exact ⟨_, rfl, returns_of_do s.client Route.PersonRepositoryContributions (some vars) opt
              "GET".toList none log url req v resp (some err) hu hn hd⟩
        · exact ⟨_, rfl, returns_of_request_error s.client Route.PersonRepositoryContributions (some vars) opt
              "GET".toList none log url req err hu hn⟩,
    fun s person opt log vars hv => by
      simp only [repositoriesService.ListByClient, hv, Client.callUrl, Client.callNewRequest, Client.callDo]
      rcases hu : s.client.url Route.PersonRepositoryDependencies (some vars) opt with err | url
      · exact ⟨_, rfl, returns_of_url_error s.client Route.PersonRepositoryDependencies (some vars) opt
              "GET".toList none log err hu⟩
      · dsimp only
        rcases hn : s.client.NewRequest "GET".toList (T.URLString url) none with
          ⟨req, _ | err⟩
        · dsimp only
          rcases hd : s.client.Do req with ⟨v, resp, _ | err⟩
          · exact ⟨_, rfl, returns_of_do s.client Route.PersonRepositoryDependencies (some vars) opt
              "GET".toList none log url req v resp none hu hn hd⟩
          · exact ⟨_, rfl, returns_of_do s.client Route.PersonRepositoryDependencies (some vars) opt
              "GET".toList none log url req v resp (some err) hu hn hd⟩
        · exact ⟨_, rfl, returns_of_request_error s.client Route.PersonRepositoryDependencies (some vars) opt
              "GET".toList none log url req err hu hn⟩,
    fun s person opt log vars hv => by
      simp only [repositoriesService.ListByRefdAuthor, hv, Client.callUrl, Client.callNewRequest, Client.callDo]
      rcases hu : s.client.url Route.PersonRepositoryDependents (some vars) opt with err | url
      · exact ⟨_, rfl, returns_of_url_error s.client Route.PersonRepositoryDependents (some vars) opt
              "GET".toList none log err hu⟩
      · dsimp only
        rcases hn : s.client.NewRequest "GET".toList (T.URLString url) none with
          ⟨req, _ | err⟩
        · dsimp only
          rcases hd : s.client.Do req with ⟨v, resp, _ | err⟩
          · exact ⟨_, rfl, returns_of_do s.client Route.PersonRepositoryDependents (some vars) opt
              "GET".toList none log url req v resp none hu hn hd⟩
          · exact ⟨_, rfl, returns_of_do s.client Route.PersonRepositoryDependents (some vars) opt
              "GET".toList none log url req v resp (some err) hu hn hd⟩
        · exact ⟨_, rfl, returns_of_request_error s.client Route.PersonRepositoryDependents (some vars) opt
              "GET".toList none log url req err hu hn⟩⟩

/-- Witness for C22 (amended) at `PersonSpec{Login: "alice"}`: with the client
on which every call succeeds `Get` returns the decoded value and the response
of `Do` with a nil error after the three calls, and with the client whose
`url` fails it returns `(nil, nil, err)` after the call `url` alone. -/
theorem C22_service_methods_return_errors_witness :
    peopleService.Get
          ({ client := Client.succeeding } : peopleService ApiTypes.units Unit Unit Unit)
          { Login := "alice".toList } none [] =
        .ok ((some (), some (), none),
          [ClientCall.url, ClientCall.NewRequest, ClientCall.Do]) ∧
      peopleService.Get
          ({ client := Client.failingUrl } : peopleService ApiTypes.units Unit Unit Unit)
          { Login := "alice".toList } none [] =
        .ok ((none, none, some (GoError.New "no route")), [ClientCall.url]) := by
  obtain ⟨out1, h1, hs1⟩ := (C22_service_methods_return_errors ApiTypes.units).1
    ({ client := Client.succeeding } : peopleService ApiTypes.units Unit Unit Unit)
    { Login := "alice".toList } none [] [("PersonSpec".toList, "alice".toList)] rfl
  obtain ⟨out2, h2, hs2⟩ := (C22_service_methods_return_errors ApiTypes.units).1
    ({ client := Client.failingUrl } : peopleService ApiTypes.units Unit Unit Unit)
    { Login := "alice".toList } none [] [("PersonSpec".toList, "alice".toList)] rfl
  exact ⟨h1.trans (congrArg _ (hs1.2.2.2 "/people".toList rfl rfl rfl)),
    h2.trans (congrArg _ (hs2.1 (GoError.New "no route") rfl))⟩

/-! ## Mocks -/

/-- C23: the mocks are one-to-one stand-ins. For every method of
`MockPeopleService` and of `MockRepositoriesService` and all arguments, when
the hook of the method is set the method returns exactly what the hook returns
for the same arguments, and when the hook is nil the method, which is total,
returns a nil result with a nil error. -/
theorem C23_mocks_dispatch (T : ApiTypes) (p : MockPeopleService T)
    (r : MockRepositoriesService T) :
    (∀ (person : PersonSpec) (opt : Option T.PersonGetOptions),
        (∀ f, p.Get_ = some f → p.Get person opt = f person opt) ∧
        (p.Get_ = none → (p.Get person opt).1 = none ∧ (p.Get person opt).2.2 = none)) ∧
      (∀ (person : PersonSpec),
        (∀ f, p.ListEmails_ = some f → p.ListEmails person = f person) ∧
        (p.ListEmails_ = none → (p.ListEmails person).1 = none ∧ (p.ListEmails person).2.2 = none)) ∧
      (∀ (person : PersonSpec),
        (∀ f, p.GetSettings_ = some f → p.GetSettings person = f person) ∧
        (p.GetSettings_ = none → (p.GetSettings person).1 = none ∧ (p.GetSettings person).2.2 = none)) ∧
      (∀ (person : PersonSpec) (settings : PersonSettings),
        (∀ f, p.UpdateSettings_ = some f → p.UpdateSettings person settings = f person settings) ∧
        (p.UpdateSettings_ = none → (p.UpdateSettings person settings).1 = none ∧ (p.UpdateSettings person settings).2 = none)) ∧
      (∀ (user : GitHubUserSpec) (opt : Option T.PersonGetOptions),
        (∀ f, p.GetOrCreateFromGitHub_ = some f → p.GetOrCreateFromGitHub user opt = f user opt) ∧
        (p.GetOrCreateFromGitHub_ = none → (p.GetOrCreateFromGitHub user opt).1 = none ∧ (p.GetOrCreateFromGitHub user opt).2.2 = none)) ∧
      (∀ (personSpec : PersonSpec),
        (∀ f, p.RefreshProfile_ = some f → p.RefreshProfile personSpec = f personSpec) ∧
        (p.RefreshProfile_ = none → (p.RefreshProfile personSpec).1 = none ∧ (p.RefreshProfile personSpec).2 = none)) ∧
      (∀ (personSpec : PersonSpec),
        (∀ f, p.ComputeStats_ = some f → p.ComputeStats personSpec = f personSpec) ∧
        (p.ComputeStats_ = none → (p.ComputeStats personSpec).1 = none ∧ (p.ComputeStats personSpec).2 = none)) ∧
      (∀ (opt : Option T.PersonListOptions),
        (∀ f, p.List_ = some f → p.List opt = f opt) ∧
        (p.List_ = none → (p.List opt).1 = none ∧ (p.List opt).2.2 = none)) ∧
      (∀ (person : PersonSpec) (opt : Option T.PersonListAuthorsOptions),
        (∀ f, p.ListAuthors_ = some f → p.ListAuthors person opt = f person opt) ∧
        (p.ListAuthors_ = none → (p.ListAuthors person opt).1 = none ∧ (p.ListAuthors person opt).2.2 = none)) ∧
      (∀ (person : PersonSpec) (opt : Option T.PersonListClientsOptions),
        (∀ f, p.ListClients_ = some f → p.ListClients person opt = f person opt) ∧
        (p.ListClients_ = none → (p.ListClients person opt).1 = none ∧ (p.ListClients person opt).2.2 = none)) ∧
      (∀ (member : PersonSpec) (opt : Option T.PersonListOrgsOptions),
        (∀ f, p.ListOrgs_ = some f → p.ListOrgs member opt = f member opt) ∧
        (p.ListOrgs_ = none → (p.ListOrgs member opt).1 = none ∧ (p.ListOrgs member opt).2.2 = none)) ∧
      (∀ (repo : RepositorySpec) (opt : Option T.RepositoryGetOptions),
        (∀ f, r.Get_ = some f → r.Get repo opt = f repo opt) ∧
        (r.Get_ = none → (r.Get repo opt).1 = none ∧ (r.Get repo opt).2.2 = none)) ∧
      (∀ (repo : RepositorySpec) (opt : Option T.RepositoryGetOptions),
        (∀ f, r.GetOrCreate_ = some f → r.GetOrCreate repo opt = f repo opt) ∧
        (r.GetOrCreate_ = none → (r.GetOrCreate repo opt).1 = none ∧ (r.GetOrCreate repo opt).2.2 = none)) ∧
      (∀ (repo : RepositorySpec),
        (∀ f, r.GetSettings_ = some f → r.GetSettings repo = f repo) ∧
        (r.GetSettings_ = none → (r.GetSettings repo).1 = none ∧ (r.GetSettings repo).2.2 = none)) ∧
      (∀ (repo : RepositorySpec) (settings : T.RepositorySettings),
        (∀ f, r.UpdateSettings_ = some f → r.UpdateSettings repo settings = f repo settings) ∧
        (r.UpdateSettings_ = none → (r.UpdateSettings repo settings).1 = none ∧ (r.UpdateSettings repo settings).2 = none)) ∧
      (∀ (repo : RepositorySpec),
        (∀ f, r.RefreshProfile_ = some f → r.RefreshProfile repo = f repo) ∧
        (r.RefreshProfile_ = none → (r.RefreshProfile repo).1 = none ∧ (r.RefreshProfile repo).2 = none)) ∧
      (∀ (repo : RepositorySpec),
        (∀ f, r.RefreshVCSData_ = some f → r.RefreshVCSData repo = f repo) ∧
        (r.RefreshVCSData_ = none → (r.RefreshVCSData repo).1 = none ∧ (r.RefreshVCSData repo).2 = none)) ∧
      (∀ (repo : RepositorySpec),
        (∀ f, r.ComputeStats_ = some f → r.ComputeStats repo = f repo) ∧
        (r.ComputeStats_ = none → (r.ComputeStats repo).1 = none ∧ (r.ComputeStats repo).2 = none)) ∧
      (∀ (newRepoSpec : T.NewRepositorySpec),
        (∀ f, r.Create_ = some f → r.Create newRepoSpec = f newRepoSpec) ∧
        (r.Create_ = none → (r.Create newRepoSpec).1 = none ∧ (r.Create newRepoSpec).2.2 = none)) ∧
      (∀ (repo : RepositorySpec),
        (∀ f, r.GetReadme_ = some f → r.GetReadme repo = f repo) ∧
        (r.GetReadme_ = none → (r.GetReadme repo).1 = none ∧ (r.GetReadme repo).2.2 = none)) ∧
      (∀ (opt : Option T.RepositoryListOptions),
        (∀ f, r.List_ = some f → r.List opt = f opt) ∧
        (r.List_ = none → (r.List opt).1 = none ∧ (r.List opt).2.2 = none)) ∧
      (∀ (repo : RepositorySpec2) (opt : Option T.RepositoryListCommitsOptions),
        (∀ f, r.ListCommits_ = some f → r.ListCommits repo opt = f repo opt) ∧
        (r.ListCommits_ = none → (r.ListCommits repo opt).1 = none ∧ (r.ListCommits repo opt).2.2 = none)) ∧
      (∀ (rev : RepoRevSpec) (opt : Option T.RepositoryGetCommitOptions),
        (∀ f, r.GetCommit_ = some f → r.GetCommit rev opt = f rev opt) ∧
        (r.GetCommit_ = none → (r.GetCommit rev opt).1 = none ∧ (r.GetCommit rev opt).2.2 = none)) ∧
      (∀ (base : RepoRevSpec) (opt : Option T.RepositoryCompareCommitsOptions),
        (∀ f, r.CompareCommits_ = some f → r.CompareCommits base opt = f base opt) ∧
        (r.CompareCommits_ = none → (r.CompareCommits base opt).1 = none ∧ (r.CompareCommits base opt).2.2 = none)) ∧
      (∀ (repo : RepositorySpec2) (opt : Option T.RepositoryListBranchesOptions),
        (∀ f, r.ListBranches_ = some f → r.ListBranches repo opt = f repo opt) ∧
        (r.ListBranches_ = none → (r.ListBranches repo opt).1 = none ∧ (r.ListBranches repo opt).2.2 = none)) ∧
      (∀ (repo : RepositorySpec2) (opt : Option T.RepositoryListTagsOptions),
        (∀ f, r.ListTags_ = some f → r.ListTags repo opt = f repo opt) ∧
        (r.ListTags_ = none → (r.ListTags repo opt).1 = none ∧ (r.ListTags repo opt).2.2 = none)) ∧
      (∀ (repo : RepositorySpec),
        (∀ f, r.ListBadges_ = some f → r.ListBadges repo = f repo) ∧
        (r.ListBadges_ = none → (r.ListBadges repo).1 = none ∧ (r.ListBadges repo).2.2 = none)) ∧
      (∀ (repo : RepositorySpec),
        (∀ f, r.ListCounters_ = some f → r.ListCounters repo = f repo) ∧
        (r.ListCounters_ = none → (r.ListCounters repo).1 = none ∧ (r.ListCounters repo).2.2 = none)) ∧
      (∀ (repo : RepositorySpec) (opt : Option T.RepositoryListAuthorsOptions),
        (∀ f, r.ListAuthors_ = some f → r.ListAuthors repo opt = f repo opt) ∧
        (r.ListAuthors_ = none → (r.ListAuthors repo opt).1 = none ∧ (r.ListAuthors repo opt).2.2 = none)) ∧
      (∀ (repo : RepositorySpec) (opt : Option T.RepositoryListClientsOptions),
        (∀ f, r.ListClients_ = some f → r.ListClients repo opt = f repo opt) ∧
        (r.ListClients_ = none → (r.ListClients repo opt).1 = none ∧ (r.ListClients repo opt).2.2 = none)) ∧
      (∀ (repo : RepositorySpec) (opt : Option T.RepositoryListDependenciesOptions),
        (∀ f, r.ListDependencies_ = some f → r.ListDependencies repo opt = f repo opt) ∧
        (r.ListDependencies_ = none → (r.ListDependencies repo opt).1 = none ∧ (r.ListDependencies repo opt).2.2 = none)) ∧
      (∀ (repo : RepositorySpec) (opt : Option T.RepositoryListDependentsOptions),
        (∀ f, r.ListDependents_ = some f → r.ListDependents repo opt = f repo opt) ∧
        (r.ListDependents_ = none → (r.ListDependents repo opt).1 = none ∧ (r.ListDependents repo opt).2.2 = none)) ∧
      (∀ (person : PersonSpec) (opt : Option T.RepositoryListByContributorOptions),
        (∀ f, r.ListByContributor_ = some f → r.ListByContributor person opt = f person opt) ∧
        (r.ListByContributor_ = none → (r.ListByContributor person opt).1 = none ∧ (r.ListByContributor person opt).2.2 = none)) ∧
      (∀ (person : PersonSpec) (opt : Option T.RepositoryListByClientOptions),
        (∀ f, r.ListByClient_ = some f → r.ListByClient person opt = f person opt) ∧
        (r.ListByClient_ = none → (r.ListByClient person opt).1 = none ∧ (r.ListByClient person opt).2.2 = none)) ∧
      (∀ (person : PersonSpec) (opt : Option T.RepositoryListByRefdAuthorOptions),
        (∀ f, r.ListByRefdAuthor_ = some f → r.ListByRefdAuthor person opt = f person opt) ∧
        (r.ListByRefdAuthor_ = none → (r.ListByRefdAuthor person opt).1 = none ∧ (r.ListByRefdAuthor person opt).2.2 = none)) :=
  ⟨fun _ _ => ⟨fun f h => by simp [MockPeopleService.Get, h], fun h => by simp [MockPeopleService.Get, h]⟩,
    fun _ => ⟨fun f h => by simp [MockPeopleService.ListEmails, h], fun h => by simp [MockPeopleService.ListEmails, h]⟩,
    fun _ => ⟨fun f h => by simp [MockPeopleService.GetSettings, h], fun h => by simp [MockPeopleService.GetSettings, h]⟩,
    fun _ _ => ⟨fun f h => by simp [MockPeopleService.UpdateSettings, h], fun h => by simp [MockPeopleService.UpdateSettings, h]⟩,
    fun _ _ => ⟨fun f h => by simp [MockPeopleService.GetOrCreateFromGitHub, h], fun h => by simp [MockPeopleService.GetOrCreateFromGitHub, h]⟩,
    fun _ => ⟨fun f h => by simp [MockPeopleService.RefreshProfile, h], fun h => by simp [MockPeopleService.RefreshProfile, h]⟩,
    fun _ => ⟨fun f h => by simp [MockPeopleService.ComputeStats, h], fun h => by simp [MockPeopleService.ComputeStats, h]⟩,
    fun _ => ⟨fun f h => by simp [MockPeopleService.List, h], fun h => by simp [MockPeopleService.List, h]⟩,
    fun _ _ => ⟨fun f h => by simp [MockPeopleService.ListAuthors, h], fun h => by simp [MockPeopleService.ListAuthors, h]⟩,
    fun _ _ => ⟨fun f h => by simp [MockPeopleService.ListClients, h], fun h => by simp [MockPeopleService.ListClients, h]⟩,
    fun _ _ => ⟨fun f h => by simp [MockPeopleService.ListOrgs, h], fun h => by simp [MockPeopleService.ListOrgs, h]⟩,
    fun _ _ => ⟨fun f h => by simp [MockRepositoriesService.Get, h], fun h => by simp [MockRepositoriesService.Get, h]⟩,
    fun _ _ => ⟨fun f h => by simp [MockRepositoriesService.GetOrCreate, h], fun h => by simp [MockRepositoriesService.GetOrCreate, h]⟩,
    fun _ => ⟨fun f h => by simp [MockRepositoriesService.GetSettings, h], fun h => by simp [MockRepositoriesService.GetSettings, h]⟩,
    fun _ _ => ⟨fun f h => by simp [MockRepositoriesService.UpdateSettings, h], fun h => by simp [MockRepositoriesService.UpdateSettings, h]⟩,
    fun _ => ⟨fun f h => by simp [MockRepositoriesService.RefreshProfile, h], fun h => by simp [MockRepositoriesService.RefreshProfile, h]⟩,
    fun _ => ⟨fun f h => by simp [MockRepositoriesService.RefreshVCSData, h], fun h => by simp [MockRepositoriesService.RefreshVCSData, h]⟩,
    fun _ => ⟨fun f h => by simp [MockRepositoriesService.ComputeStats, h], fun h => by simp [MockRepositoriesService.ComputeStats, h]⟩,
    fun _ => ⟨fun f h => by simp [MockRepositoriesService.Create, h], fun h => by simp [MockRepositoriesService.Create, h]⟩,
    fun _ => ⟨fun f h => by simp [MockRepositoriesService.GetReadme, h], fun h => by simp [MockRepositoriesService.GetReadme, h]⟩,
    fun _ => ⟨fun f h => by simp [MockRepositoriesService.List, h], fun h => by simp [MockRepositoriesService.List, h]⟩,
    fun _ _ => ⟨fun f h => by simp [MockRepositoriesService.ListCommits, h], fun h => by simp [MockRepositoriesService.ListCommits, h]⟩,
    fun _ _ => ⟨fun f h => by simp [MockRepositoriesService.GetCommit, h], fun h => by simp [MockRepositoriesService.GetCommit, h]⟩,
    fun _ _ => ⟨fun f h => by simp [MockRepositoriesService.CompareCommits, h], fun h => by simp [MockRepositoriesService.CompareCommits, h]⟩,
    fun _ _ => ⟨fun f h => by simp [MockRepositoriesService.ListBranches, h], fun h => by simp [MockRepositoriesService.ListBranches, h]⟩,
    fun _ _ => ⟨fun f h => by simp [MockRepositoriesService.ListTags, h], fun h => by simp [MockRepositoriesService.ListTags, h]⟩,
    fun _ => ⟨fun f h => by simp [MockRepositoriesService.ListBadges, h], fun h => by simp [MockRepositoriesService.ListBadges, h]⟩,
    fun _ => ⟨fun f h => by simp [MockRepositoriesService.ListCounters, h], fun h => by simp [MockRepositoriesService.ListCounters, h]⟩,
    fun _ _ => ⟨fun f h => by simp [MockRepositoriesService.ListAuthors, h], fun h => by simp [MockRepositoriesService.ListAuthors, h]⟩,
    fun _ _ => ⟨fun f h => by simp [MockRepositoriesService.ListClients, h], fun h => by simp [MockRepositoriesService.ListClients, h]⟩,
    fun _ _ => ⟨fun f h => by simp [MockRepositoriesService.ListDependencies, h], fun h => by simp [MockRepositoriesService.ListDependencies, h]⟩,
    fun _ _ => ⟨fun f h => by simp [MockRepositoriesService.ListDependents, h], fun h => by simp [MockRepositoriesService.ListDependents, h]⟩,
    fun _ _ => ⟨fun f h => by simp [MockRepositoriesService.ListByContributor, h], fun h => by simp [MockRepositoriesService.ListByContributor, h]⟩,
    fun _ _ => ⟨fun f h => by simp [MockRepositoriesService.ListByClient, h], fun h => by simp [MockRepositoriesService.ListByClient, h]⟩,
    fun _ _ => ⟨fun f h => by simp [MockRepositoriesService.ListByRefdAuthor, h], fun h => by simp [MockRepositoriesService.ListByRefdAuthor, h]⟩⟩

/-! ## `MapByURI` -/

theorem RepoMap.lookup_map_of_ne (m : RepoMap) (k u : GoString) (v : Repo) (h : u ≠ k) :
    List.lookup u (m.map (fun p => if p.1 == k then (k, v) else p)) = List.lookup u m := by
  induction m with
  | nil => rfl
  | cons p m ih =>
    obtain ⟨a, b⟩ := p
    simp only [List.map_cons]
    by_cases hak : a = k
    · have hb : (a == k) = true := by simpa using hak
      have huk : (u == k) = false := by simpa using h
      have hua : (u == a) = false := by simpa [hak] using h
      simp only [hb, if_true, List.lookup_cons, huk, hua, ih]
    · have hb : (a == k) = false := by simpa using hak
      simp only [hb, Bool.false_eq_true, if_false, List.lookup_cons, ih]

theorem RepoMap.lookup_map_self (m : RepoMap) (k : GoString) (v : Repo)
    (h : m.any (fun p => p.1 == k) = true) :
    List.lookup k (m.map (fun p => if p.1 == k then (k, v) else p)) = some v := by
  induction m with
  | nil => simp at h
  | cons p m ih =>
    obtain ⟨a, b⟩ := p
    simp only [List.map_cons]
    by_cases hak : a = k
    · have hb : (a == k) = true := by simpa using hak
      have hkk : (k == k) = true := by simp
      simp only [hb, if_true, List.lookup_cons, hkk]
    · have hb : (a == k) = false := by simpa using hak
      have hka : (k == a) = false := by simpa using Ne.symm hak
      have h2 : m.any (fun p => p.1 == k) = true := by
        simpa only [List.any_cons, hb, Bool.false_or] using h
      simp only [hb, Bool.false_eq_true, if_false, List.lookup_cons, hka, ih h2]

theorem RepoMap.lookup_append_singleton (m : RepoMap) (k u : GoString) (v : Repo)
    (h : m.any (fun p => p.1 == k) = false) :
    List.lookup u (m ++ [(k, v)]) = if u = k then some v else List.lookup u m := by
  induction m with
  | nil =>
    by_cases huk : u = k
    · simp [List.lookup, huk]
    · have : (u == k) = false := by simpa using huk
      simp [List.lookup, huk, this]
  | cons p m ih =>
    obtain ⟨a, b⟩ := p
    have hak : (a == k) = false := by
      simp only [List.any_cons, Bool.or_eq_false_iff] at h
      exact h.1
    have h2 : m.any (fun p => p.1 == k) = false := by
      simp only [List.any_cons, Bool.or_eq_false_iff] at h
      exact h.2
    have hne : a ≠ k := by simpa using hak
    by_cases hua : u = a
    · subst hua
      have huu : (u == u) = true := by simp
      simp only [List.cons_append, List.lookup_cons, huu, hne, if_false]
    · have hua2 : (u == a) = false := by simpa using hua
      simp only [List.cons_append, List.lookup_cons, hua2, ih h2]

/-- Reading a key after `m[k] = v`. -/
theorem RepoMap.lookup_assign (m : RepoMap) (k u : GoString) (v : Repo) :
    List.lookup u (RepoMap.assign m k v) = if u = k then some v else List.lookup u m := by
  unfold RepoMap.assign
  cases h : m.any (fun p => p.1 == k)
  · simp only [Bool.false_eq_true, if_false]
    exact RepoMap.lookup_append_singleton m k u v h
  · rw [if_pos rfl]
    by_cases huk : u = k
    · subst huk
      rw [RepoMap.lookup_map_self m u v h, if_pos rfl]
    · rw [RepoMap.lookup_map_of_ne m k u v huk, if_neg huk]

theorem RepoMap.any_key_iff (m : RepoMap) (k : GoString) :
    m.any (fun p => p.1 == k) = true ↔ k ∈ m.map Prod.fst := by
  induction m with
  | nil => simp
  | cons p m ih =>
    obtain ⟨a, b⟩ := p
    simp only [List.any_cons, Bool.or_eq_true, beq_iff_eq, ih, List.map_cons, List.mem_cons]
    constructor
    · rintro (h | h)
      · exact Or.inl h.symm
      · exact Or.inr h
    · rintro (h | h)
      · exact Or.inl h.symm
      · exact Or.inr h

/-- The keys after `m[k] = v`. -/
theorem RepoMap.keys_assign (m : RepoMap) (k : GoString) (v : Repo) :
    (RepoMap.assign m k v).map Prod.fst =
      if k ∈ m.map Prod.fst then m.map Prod.fst else m.map Prod.fst ++ [k] := by
  unfold RepoMap.assign
  by_cases h : k ∈ m.map Prod.fst
  · have h2 := (RepoMap.any_key_iff m k).2 h
    simp only [h2, if_true, h]
    rw [List.map_map]
    apply List.map_congr_left
    rintro ⟨a, b⟩ _
    by_cases hak : a = k
    · simp [hak]
    · simp [hak]
  · have h2 : m.any (fun p => p.1 == k) = false := by
      rw [← Bool.not_eq_true, RepoMap.any_key_iff]
      exact h
    simp [h2, h]

theorem MapByURI_loop_some (repos : List Repo) (m : RepoMap) :
    MapByURI.loop (repos.map some) m =
      .ok (repos.foldl (fun acc r => RepoMap.assign acc r.URI r) m) := by
  induction repos generalizing m with
  | nil => rfl
  | cons r rs ih => simp [MapByURI.loop, ih]

/-- The map built from a slice of repositories: its keys are distinct and are
the URIs of the slice, each key maps to the last repository with that URI,
and its size is at most the length of the slice, with equality exactly when
the URIs are distinct. -/
theorem foldl_assign_spec (repos : List Repo) :
    ((repos.foldl (fun acc r => RepoMap.assign acc r.URI r) []).map Prod.fst).Nodup ∧
      (∀ u, u ∈ (repos.foldl (fun acc r => RepoMap.assign acc r.URI r) []).map Prod.fst ↔
        u ∈ repos.map Repo.URI) ∧
      (∀ u, List.lookup u (repos.foldl (fun acc r => RepoMap.assign acc r.URI r) []) =
        (repos.filter (fun r => r.URI == u)).getLast?) ∧
      (repos.foldl (fun acc r => RepoMap.assign acc r.URI r) []).length ≤ repos.length ∧
      ((repos.foldl (fun acc r => RepoMap.assign acc r.URI r) []).length = repos.length ↔
        (repos.map Repo.URI).Nodup) := by
  induction repos using List.reverseRecOn with
  | nil => simp
  | append_singleton rs r ih =>
    obtain ⟨hnd, hmem, hlook, hle, hiff⟩ := ih
    rw [List.foldl_append]
    simp only [List.foldl_cons, List.foldl_nil]
    generalize hm : rs.foldl (fun acc r => RepoMap.assign acc r.URI r) [] = m at *
    have hlen : ∀ m' : RepoMap, m'.length = (m'.map Prod.fst).length := by
      intro m'
      simp
    have hk := RepoMap.keys_assign m r.URI r
    by_cases hin : r.URI ∈ m.map Prod.fst
    · rw [if_pos hin] at hk
      have hin2 : r.URI ∈ rs.map Repo.URI := (hmem _).1 hin
      refine ⟨by rw [hk]; exact hnd, ?_, ?_, ?_, ?_⟩
      · intro u
        rw [hk, hmem]
        simp only [List.map_append, List.map_cons, List.map_nil, List.mem_append,
          List.mem_singleton]
        constructor
        · exact Or.inl
        · rintro (h | h)
          · exact h
          · rw [h]; exact hin2
      · intro u
        rw [RepoMap.lookup_assign, hlook, List.filter_append]
        by_cases hu : u = r.URI
        · subst hu
          simp
        · have : (r.URI == u) = false := by simpa using Ne.symm hu
          simp [hu, this]
      · rw [hlen, hk, ← hlen]
        simp only [List.length_append, List.length_singleton]
        omega
      · rw [hlen, hk, ← hlen]
        simp only [List.length_append, List.length_singleton, List.map_append, List.map_cons,
          List.map_nil]
        constructor
        · intro h
          omega
        · intro h
          exfalso
          rw [List.nodup_append] at h
          exact h.2.2 hin2 (List.mem_singleton_self _)
    · rw [if_neg hin] at hk
      have hin2 : r.URI ∉ rs.map Repo.URI := fun h => hin ((hmem _).2 h)
      refine ⟨?_, ?_, ?_, ?_, ?_⟩
      · rw [hk, List.nodup_append]
        refine ⟨hnd, List.nodup_singleton _, ?_⟩
        intro a ha hb
        rw [List.mem_singleton] at hb
        subst hb
        exact hin ha
      · intro u
        rw [hk]
        simp only [List.map_append, List.map_cons, List.map_nil, List.mem_append,
          List.mem_singleton, hmem]
      · intro u
        rw [RepoMap.lookup_assign, hlook, List.filter_append]
        by_cases hu : u = r.URI
        · subst hu
          simp
        · have : (r.URI == u) = false := by simpa using Ne.symm hu
          simp [hu, this]
      · rw [hlen, hk]
        simp only [List.length_append, List.length_singleton, List.length_map]
        rw [hlen] at hle
        simp only [List.length_map] at hle
        omega
      · rw [hlen, hk]
        simp only [List.length_append, List.length_singleton, List.length_map, List.map_append,
          List.map_cons, List.map_nil, add_left_inj]
        rw [hiff, List.nodup_append]
        constructor
        · intro h
          refine ⟨h, List.nodup_singleton _, ?_⟩
          intro a ha hb
          rw [List.mem_singleton] at hb
          subst hb
          exact hin2 ha
        · intro h
          exact h.1

/-- C28: for every list of non-nil repos, `MapByURI` returns a map whose key
set is exactly the set of the URIs occurring in the list and which maps each
URI to the last repo of the list having that URI; the size of the map is at
most the length of the list, with equality if and only if all URIs are
distinct. -/
theorem C28_map_by_uri (repos : List Repo) :
    ∃ m, MapByURI (repos.map some) = .ok m ∧
      (m.map Prod.fst).Nodup ∧
      (∀ u, u ∈ m.map Prod.fst ↔ u ∈ repos.map Repo.URI) ∧
      (∀ u, List.lookup u m = (repos.filter (fun r => r.URI == u)).getLast?) ∧
      m.length ≤ repos.length ∧
      (m.length = repos.length ↔ (repos.map Repo.URI).Nodup) :=
  ⟨_, MapByURI_loop_some repos [], foldl_assign_spec repos⟩

/-- C28 on a list with a repeated URI: the map has the two keys `"a"` and
`"b"`, and `"a"` maps to the later of the two repos with that URI. -/
theorem C28_map_by_uri_witness :
    ∃ m, MapByURI [some { URI := "a".toList, Name := "first".toList },
          some { URI := "b".toList }, some { URI := "a".toList, Name := "second".toList }] =
        .ok m ∧
      List.lookup "a".toList m = some { URI := "a".toList, Name := "second".toList } ∧
      m.length ≤ 3 :=
  (C28_map_by_uri [{ URI := "a".toList, Name := "first".toList },
    { URI := "b".toList }, { URI := "a".toList, Name := "second".toList }]).imp
    (fun _ h => ⟨h.1, h.2.2.2.1 "a".toList, h.2.2.2.2.1⟩)

/-! ## Checks of the `strconv` model on concrete inputs -/

example : Itoa 42 = "42".toList := by decide
example : Itoa (-7) = "-7".toList := by decide
example : Itoa 0 = "0".toList := by decide
example : Atoi "42".toList = (42, none) := by decide
example : Atoi "+42".toList = (42, none) := by decide
example : Atoi "-0042".toList = (-42, none) := by decide
example : Atoi "abc".toList = (0, some .ErrSyntax) := by decide
example : Atoi "".toList = (0, some .ErrSyntax) := by decide
example : Atoi "9223372036854775807".toList = (9223372036854775807, none) := by decide
example : Atoi "9223372036854775808".toList = (9223372036854775807, some .ErrRange) := by decide
example : Atoi "-9223372036854775808".toList = (-9223372036854775808, none) := by decide
example : Atoi "-9223372036854775809".toList = (-9223372036854775808, some .ErrRange) := by decide
example : Atoi "99999999999999999999999999x".toList = (9223372036854775807, some .ErrRange) := by decide
example : ParsePersonSpec "$42".toList = ({ UID := 42 }, none) := by decide
example : ParsePersonSpec "bob".toList = ({ Login := "bob".toList }, none) := by decide
example : (PersonSpec.PathComponent { Email := "bob".toList }) = .ok "bob".toList := by decide
example :
    MapByURI [some { URI := "a".toList, Name := "first".toList }, some { URI := "b".toList },
        some { URI := "a".toList, Name := "second".toList }] =
      .ok [("a".toList, { URI := "a".toList, Name := "second".toList }),
        ("b".toList, { URI := "b".toList })] := by
  decide
example : MapByURI [some { URI := "a".toList }, none] =
    .error "runtime error: invalid memory address or nil pointer dereference" := by
  decide


end Sourcegraph
